import Mathlib

/-!
# Wasabee-Server: the draw-operation model

A shallow embedding of `model_draw_operation.go`: the relational store is a record of
tables, every store call of the Go code is one `Call`, and each Go function becomes a
function from a `World` to the resulting `World` together with the returned `error`
(`none` for `nil`).  Store calls can fail: an `Env` carries an arbitrary failure oracle.
-/

namespace Wasabee

/-! ## Identifiers and documents -/

abbrev OperationID := String
abbrev GoogleID := String
abbrev PortalID := String
abbrev MarkerID := String
abbrev LinkID := String
abbrev TeamID := String

/-- Go `error` values are represented by their message. -/
abbrev Error := String

/-- Modelled from the spec: the declaration of type `Portal` is not among the sources; a
Waypoint has a stable client-supplied `ID`, a `name` and `lat`/`lon` decimal strings (the
sources read `p.ID`, `p.Lat`, `p.Lon`). -/
structure Portal where
  ID : PortalID
  Name : String
  Lat : String
  Lon : String
deriving DecidableEq, Repr

/-- Modelled from the spec: the declaration of type `Marker` is not among the sources; a
Marker is a Task (`ID`, assignee, state, order, comment) that references exactly one
Waypoint and has a target type (the sources read `m.ID`, `m.PortalID`, `m.AssignedTo`). -/
structure Marker where
  ID : MarkerID
  PortalID : PortalID
  MarkerType : String
  AssignedTo : GoogleID
  State : String
  Order : Nat
  Comment : String
deriving DecidableEq, Repr

/-- Modelled from the spec: the declaration of type `Link` is not among the sources; a Link
is a Task (`ID`, assignee, state, order, description) that references two Waypoints and has
a color (the sources read `l.ID`, `l.From`, `l.To`, `l.AssignedTo`). -/
structure Link where
  ID : LinkID
  From : PortalID
  To : PortalID
  Color : String
  AssignedTo : GoogleID
  State : String
  Order : Nat
  Desc : String
deriving DecidableEq, Repr

/-- Modelled from the spec: the declaration of type `KeyOnHand` is not among the sources; a
per-agent, per-waypoint inventory record with a count and a capsule label. -/
structure KeyOnHand where
  ID : PortalID
  Gid : GoogleID
  Onhand : Nat
  Capsule : String
deriving DecidableEq, Repr

/-- The Go type `etRole` is a string. -/
abbrev etRole := String

def etRoleRead : etRole := "read"
def etRoleWrite : etRole := "write"
def etRoleAssignedOnly : etRole := "assignedonly"

/-- The Go struct `ExtendedTeam`. -/
structure ExtendedTeam where
  TeamID : TeamID
  Role : etRole
deriving DecidableEq, Repr

/-- The Go struct `Operation`, the top level item of the JSON document. -/
structure Operation where
  ID : OperationID
  Name : String
  Gid : GoogleID
  Color : String
  OpPortals : List Portal
  Anchors : List PortalID
  Links : List Link
  Blockers : List Link
  Markers : List Marker
  Teams : List ExtendedTeam
  Modified : String
  Comment : String
  Keys : List KeyOnHand
  Fetched : String
  UpdateMode : String
deriving DecidableEq, Repr

/-- A raw JSON body, represented by what `json.Unmarshal` makes of it: the decoded
`Operation`, or the decoding error. -/
abbrev RawMessage := Except Error Operation

/-- The Go call `json.Unmarshal(op, &o)`. -/
def Unmarshal (op : RawMessage) : Except Error Operation := op

/-! ## The store -/

/-- A row of table `operation`: columns ID, name, gid, color, modified, comment. -/
structure OpRow where
  ID : OperationID
  name : String
  gid : GoogleID
  color : String
  modified : Nat
  comment : Option String
deriving DecidableEq, Repr

/-- The tables of the relational store that the draw model reads and writes.  Rows of the
entity tables carry the `opID` column first. -/
structure DB where
  operation : List OpRow := []
  portal : List (OperationID × Portal) := []
  marker : List (OperationID × Marker) := []
  link : List (OperationID × Link) := []
  anchor : List (OperationID × PortalID) := []
  opkeys : List (OperationID × KeyOnHand) := []
  opteams : List (OperationID × ExtendedTeam) := []
  agentteams : List (TeamID × GoogleID) := []
deriving DecidableEq, Repr

/-- Every call the draw model makes to the store: the SQL statements written out in
`model_draw_operation.go`, and the calls of the per-entity helper methods. -/
inductive Call where
  /-- Statement `SELECT COUNT(*) FROM operation WHERE ID = ?` -/
  | countOperation (id : OperationID)
  /-- Statement `INSERT INTO operation (ID, name, gid, color, modified, comment) VALUES (...)` -/
  | insertOperation (id : OperationID) (name : String) (gid : GoogleID) (color : String)
      (now : Nat) (comment : Option String)
  /-- Statement `UPDATE operation SET name = ?, color = ?, comment = ? WHERE ID = ?` -/
  | updateOperation (id : OperationID) (name color : String) (comment : Option String)
  /-- Statement `UPDATE operation SET comment = ? WHERE ID = ?` -/
  | setComment (id : OperationID) (info : String)
  /-- Statement `UPDATE operation SET modified = UTC_TIMESTAMP() WHERE ID = ?` -/
  | touch (id : OperationID) (now : Nat)
  /-- Statement `UPDATE operation SET name = ? WHERE ID = ?` -/
  | rename (id : OperationID) (name : String)
  /-- Statement `DELETE FROM operation WHERE ID = ?` -/
  | deleteOperation (id : OperationID)
  /-- Statement `DELETE FROM marker WHERE opID = ?` -/
  | deleteMarkers (id : OperationID)
  /-- Statement `DELETE FROM link WHERE opID = ?` -/
  | deleteLinks (id : OperationID)
  /-- Statement `DELETE FROM portal WHERE opID = ?` -/
  | deletePortals (id : OperationID)
  /-- Statement `DELETE FROM anchor WHERE opID = ?` -/
  | deleteAnchors (id : OperationID)
  /-- Statement `DELETE FROM opkeys WHERE opID = ?` -/
  | deleteOpkeys (id : OperationID)
  /-- Statement `DELETE FROM opteams WHERE opID = ?` -/
  | deleteOpteams (id : OperationID)
  /-- Statement `SELECT ID FROM portal WHERE OpID = ?` -/
  | selectPortalIDs (id : OperationID)
  /-- Statement `SELECT ID FROM marker WHERE OpID = ?` -/
  | selectMarkerIDs (id : OperationID)
  /-- Statement `SELECT ID FROM link WHERE OpID = ?` -/
  | selectLinkIDs (id : OperationID)
  /-- Helper call `opID.insertPortal(p)` -/
  | insertPortal (id : OperationID) (p : Portal)
  /-- Helper call `opID.insertMarker(m)` -/
  | insertMarker (id : OperationID) (m : Marker)
  /-- Helper call `opID.insertLink(l)` -/
  | insertLink (id : OperationID) (l : Link)
  /-- Helper call `o.insertKey(k)` -/
  | insertKey (id : OperationID) (k : KeyOnHand)
  /-- Helper call `opID.updatePortal(p)` -/
  | updatePortal (id : OperationID) (p : Portal)
  /-- Helper call `opID.updateMarker(m)` -/
  | updateMarker (id : OperationID) (m : Marker)
  /-- Helper call `opID.updateLink(l)` -/
  | updateLink (id : OperationID) (l : Link)
  /-- Helper call `opID.deletePortal(k)` -/
  | deletePortal (id : OperationID) (k : PortalID)
  /-- Helper call `opID.deleteMarker(k)` -/
  | deleteMarker (id : OperationID) (k : MarkerID)
  /-- Helper call `opID.deleteLink(k)` -/
  | deleteLink (id : OperationID) (k : LinkID)
  /-- Statement `SELECT name, gid, color, modified, comment FROM operation WHERE ID = ?` -/
  | selectOperation (id : OperationID)
  /-- Helper call `o.PopulateTeams()` -/
  | populateTeams (id : OperationID)
  /-- Helper call `o.PopulatePortals()` -/
  | populatePortals (id : OperationID)
  /-- Helper call `o.PopulateMarkers()` -/
  | populateMarkers (id : OperationID)
  /-- Helper call `o.PopulateLinks()` -/
  | populateLinks (id : OperationID)
  /-- Helper call `o.PopulateAnchors()` -/
  | populateAnchors (id : OperationID)
  /-- Helper call `o.PopulateKeys()` -/
  | populateKeys (id : OperationID)
  /-- Helper call `o.PopulateAssignedOnly(gid)` -/
  | populateAssignedOnly (id : OperationID) (gid : GoogleID)
deriving DecidableEq, Repr

/-- The state a call of the model runs in: the store, the store calls issued so far (in
order, failed ones included) and the operations for which the change-notification hook
`firebaseMapChange` has been invoked. -/
structure World where
  db : DB := {}
  trace : List Call := []
  notified : List OperationID := []
deriving DecidableEq, Repr

/-- The environment of a run: which store calls fail.  The oracle sees the whole state
the call is issued in, so that any pattern of store failures is covered. -/
structure Env where
  /-- Whether the call fails when issued in the given state. -/
  fails : World → Call → Bool
  /-- Whether the foreign keys of the store cascade: the delete of a portal row to the
  markers, links and key records of the operation that reference it (the spec accepts
  both), and the delete of an operation row to every row of that operation (the source
  says the foreign key constraints should take care of these, and deletes them itself just
  in case). -/
  cascade : Bool

/-- The environment in which no store call fails. -/
def Env.reliable (cascade : Bool) : Env := ⟨fun _ _ => false, cascade⟩

/-! ## Go maps -/

/-- Go `m[k] = v` on a map held as an association list with one entry per key. -/
def mapSet {α : Type} (k : String) (v : α) (m : List (String × α)) : List (String × α) :=
  (k, v) :: m.filter (fun e => e.1 != k)

/-- Go `_, ok := m[k]`. -/
def mapHas {α : Type} (k : String) (m : List (String × α)) : Bool :=
  m.any (fun e => e.1 == k)

/-- Go `delete(m, k)`. -/
def mapDel {α : Type} (k : String) (m : List (String × α)) : List (String × α) :=
  m.filter (fun e => e.1 != k)

/-- The keys a Go `for k := range m` visits (Go leaves the order open; the model visits
them in the order of the list). -/
def mapKeys {α : Type} (m : List (String × α)) : List String :=
  m.map (fun e => e.1)

/-! ## Tables -/

/-- The IDs of the rows of operation `op` in an entity table. -/
def selectIDs {α : Type} (key : α → String) (op : OperationID)
    (t : List (OperationID × α)) : List String :=
  (t.filter (fun r => r.1 == op)).map (fun r => key r.2)

/-- Insert-or-update of the row `(op, key v)`: an existing row is overwritten in place with
the incoming entity, a new one is appended. -/
def upsertRow {α : Type} (key : α → String) (op : OperationID) (v : α)
    (t : List (OperationID × α)) : List (OperationID × α) :=
  if t.any (fun r => r.1 == op && key r.2 == key v) then
    t.map (fun r => if r.1 == op && key r.2 == key v then (op, v) else r)
  else t ++ [(op, v)]

/-- Delete of the row `(op, k)`. -/
def deleteRow {α : Type} (key : α → String) (op : OperationID) (k : String)
    (t : List (OperationID × α)) : List (OperationID × α) :=
  t.filter (fun r => !(r.1 == op && key r.2 == k))

/-- Delete of every row of operation `op`. -/
def deleteOp {α : Type} (op : OperationID) (t : List (OperationID × α)) :
    List (OperationID × α) :=
  t.filter (fun r => r.1 != op)

/-- Modelled from the spec: helper `MakeNullString` is not among the sources; an empty
string is stored as SQL NULL. -/
def MakeNullString (s : String) : Option String :=
  if s = "" then none else some s

/-- Modelled from the spec: helper `deletePortal` is not among the sources; it deletes the
portal row of the operation, and where the store cascades, the markers and links of the
operation that reference the portal and its key records go with it. -/
def deletePortalRows (cascade : Bool) (op : OperationID) (k : PortalID) (db : DB) : DB :=
  if cascade then
    { db with
      portal := deleteRow Portal.ID op k db.portal
      marker := db.marker.filter (fun r => !(r.1 == op && r.2.PortalID == k))
      link := db.link.filter (fun r => !(r.1 == op && (r.2.From == k || r.2.To == k)))
      opkeys := db.opkeys.filter (fun r => !(r.1 == op && r.2.ID == k)) }
  else { db with portal := deleteRow Portal.ID op k db.portal }

/-- What a store call that succeeds does to the tables.  The SQL statements are read off
the source.  Modelled from the spec: the per-entity helpers (`insertPortal`, `insertMarker`,
`insertLink`, `insertKey`, `updatePortal`, `updateMarker`, `updateLink`, `deletePortal`,
`deleteMarker`, `deleteLink`) are not among the sources; an insert adds the row, an update
is an upsert that overwrites the stored entity of that ID with the incoming one, and a
delete removes the row of that ID.  The populate helpers only read. -/
def Call.apply (cascade : Bool) : Call → DB → DB
  | .countOperation _, db => db
  | .insertOperation id name gid color now comment, db =>
    { db with operation := db.operation ++ [⟨id, name, gid, color, now, comment⟩] }
  | .updateOperation id name color comment, db =>
    { db with operation := db.operation.map (fun r =>
        if r.ID == id then { r with name := name, color := color, comment := comment }
        else r) }
  | .setComment id info, db =>
    { db with operation := db.operation.map (fun r =>
        if r.ID == id then { r with comment := some info } else r) }
  | .touch id now, db =>
    { db with operation := db.operation.map (fun r =>
        if r.ID == id then { r with modified := now } else r) }
  | .rename id name, db =>
    { db with operation := db.operation.map (fun r =>
        if r.ID == id then { r with name := name } else r) }
  | .deleteOperation id, db =>
    if cascade then
      { db with
        operation := db.operation.filter (fun r => r.ID != id)
        portal := deleteOp id db.portal
        marker := deleteOp id db.marker
        link := deleteOp id db.link
        anchor := deleteOp id db.anchor
        opkeys := deleteOp id db.opkeys
        opteams := deleteOp id db.opteams }
    else { db with operation := db.operation.filter (fun r => r.ID != id) }
  | .deleteMarkers id, db => { db with marker := deleteOp id db.marker }
  | .deleteLinks id, db => { db with link := deleteOp id db.link }
  | .deletePortals id, db => { db with portal := deleteOp id db.portal }
  | .deleteAnchors id, db => { db with anchor := deleteOp id db.anchor }
  | .deleteOpkeys id, db => { db with opkeys := deleteOp id db.opkeys }
  | .deleteOpteams id, db => { db with opteams := deleteOp id db.opteams }
  | .selectPortalIDs _, db => db
  | .selectMarkerIDs _, db => db
  | .selectLinkIDs _, db => db
  | .insertPortal id p, db => { db with portal := db.portal ++ [(id, p)] }
  | .insertMarker id m, db => { db with marker := db.marker ++ [(id, m)] }
  | .insertLink id l, db => { db with link := db.link ++ [(id, l)] }
  | .insertKey id k, db => { db with opkeys := db.opkeys ++ [(id, k)] }
  | .updatePortal id p, db => { db with portal := upsertRow Portal.ID id p db.portal }
  | .updateMarker id m, db => { db with marker := upsertRow Marker.ID id m db.marker }
  | .updateLink id l, db => { db with link := upsertRow Link.ID id l db.link }
  | .deletePortal id k, db => deletePortalRows cascade id k db
  | .deleteMarker id k, db => { db with marker := deleteRow Marker.ID id k db.marker }
  | .deleteLink id k, db => { db with link := deleteRow Link.ID id k db.link }
  | .selectOperation _, db => db
  | .populateTeams _, db => db
  | .populatePortals _, db => db
  | .populateMarkers _, db => db
  | .populateLinks _, db => db
  | .populateAnchors _, db => db
  | .populateKeys _, db => db
  | .populateAssignedOnly _ _, db => db

/-- One store call (`db.Exec`, `db.Query`, `db.QueryRow` or a helper method): it is
recorded, and it either fails, leaving the tables as they are, or takes effect. -/
def exec (env : Env) (c : Call) (w : World) : World × Option Error :=
  if env.fails w c then ({ w with trace := w.trace ++ [c] }, some "store error")
  else ({ w with db := c.apply env.cascade w.db, trace := w.trace ++ [c] }, none)

/-- The rows of `SELECT ID FROM portal WHERE OpID = ?`. -/
def storedPortalIDs (op : OperationID) (db : DB) : List PortalID :=
  selectIDs Portal.ID op db.portal

/-- The rows of `SELECT ID FROM marker WHERE OpID = ?`. -/
def storedMarkerIDs (op : OperationID) (db : DB) : List MarkerID :=
  selectIDs Marker.ID op db.marker

/-- The rows of `SELECT ID FROM link WHERE OpID = ?`. -/
def storedLinkIDs (op : OperationID) (db : DB) : List LinkID :=
  selectIDs Link.ID op db.link

/-! ## Access predicates -/

/-- Modelled from the spec: method `IsOwner` is not among the sources; the agent is the
owner when it equals the owner field of the stored operation. -/
def OperationID.IsOwner (opID : OperationID) (gid : GoogleID) (db : DB) : Bool :=
  db.operation.any (fun r => r.ID == opID && r.gid == gid)

/-- Modelled from the spec: method `WriteAccess` is not among the sources; the agent has
write access when it is the owner or belongs to a team bound to the operation with role
`write`.  It is a pure query of the store (the incoming team list has been dropped). -/
def Operation.WriteAccess (o : Operation) (gid : GoogleID) (db : DB) : Bool :=
  OperationID.IsOwner o.ID gid db ||
  db.opteams.any (fun b => b.1 == o.ID && b.2.Role == etRoleWrite &&
    db.agentteams.any (fun a => a.1 == b.2.TeamID && a.2 == gid))

/-! ## The functions of `model_draw_operation.go` -/

/-- Method `etRole.isValid`. -/
def etRole.isValid (et : etRole) : Option Error :=
  if et = etRoleRead ∨ et = etRoleWrite ∨ et = etRoleAssignedOnly then none
  else some "Invalid etRole"

/-- The loop state of the portal pass: the state of the run, `portalMap`, `curPortals`. -/
structure PortalPass where
  w : World
  portalMap : List (PortalID × Portal)
  curPortals : List (PortalID × PortalID)

/-- Body of `for _, p := range o.OpPortals` in `drawOpInsertWorker`. -/
def insertPortalStep (env : Env) (opID : OperationID)
    (st : World × List (PortalID × Portal)) (p : Portal) : World × List (PortalID × Portal) :=
  ((exec env (.insertPortal opID p) st.1).1, mapSet p.ID p st.2)

/-- Body of `for _, m := range o.Markers` in `drawOpInsertWorker`. -/
def insertMarkerStep (env : Env) (opID : OperationID) (portalMap : List (PortalID × Portal))
    (w : World) (m : Marker) : World :=
  if !mapHas m.PortalID portalMap then w
  else (exec env (.insertMarker opID m) w).1

/-- Body of `for _, l := range o.Links` in `drawOpInsertWorker`. -/
def insertLinkStep (env : Env) (opID : OperationID) (portalMap : List (PortalID × Portal))
    (w : World) (l : Link) : World :=
  if !mapHas l.From portalMap then w
  else if !mapHas l.To portalMap then w
  else (exec env (.insertLink opID l) w).1

/-- Body of `for _, k := range o.Keys` in `drawOpInsertWorker`. -/
def insertKeyStep (env : Env) (opID : OperationID) (w : World) (k : KeyOnHand) : World :=
  (exec env (.insertKey opID k) w).1

/-- Function `drawOpInsertWorker`; `now` is the value of `UTC_TIMESTAMP()`. -/
def drawOpInsertWorker (env : Env) (now : Nat) (o : Operation) (gid : GoogleID)
    (w : World) : World × Option Error :=
  match exec env (.insertOperation o.ID o.Name gid o.Color now (MakeNullString o.Comment)) w with
  | (w, some err) => (w, some err)
  | (w, none) =>
    let st := o.OpPortals.foldl (insertPortalStep env o.ID) (w, [])
    let w := o.Markers.foldl (insertMarkerStep env o.ID st.2) st.1
    let w := o.Links.foldl (insertLinkStep env o.ID st.2) w
    let w := o.Keys.foldl (insertKeyStep env o.ID) w
    (w, none)

/-- Function `DrawInsert`. -/
def DrawInsert (env : Env) (now : Nat) (op : RawMessage) (gid : GoogleID)
    (w : World) : World × Option Error :=
  match Unmarshal op with
  | .error err => (w, some err)
  | .ok o =>
    match exec env (.countOperation o.ID) w with
    | (w, some err) => (w, some err)
    | (w, none) =>
      let count := (w.db.operation.filter (fun r => r.ID == o.ID)).length
      if count != 0 then
        (w, some "attempt to POST to an existing opID; use PUT to update an existing op")
      else
        match drawOpInsertWorker env now o gid w with
        | (w, some err) => (w, some err)
        | (w, none) => (w, none)

/-- Body of `for _, p := range o.OpPortals` in `drawOpUpdateWorker`. -/
def updatePortalStep (env : Env) (opID : OperationID) (st : PortalPass) (p : Portal) :
    PortalPass :=
  let portalMap := mapSet p.ID p st.portalMap
  match exec env (.updatePortal opID p) st.w with
  | (w, some _) => ⟨w, portalMap, st.curPortals⟩
  | (w, none) => ⟨w, portalMap, mapDel p.ID st.curPortals⟩

/-- Body of `for k := range curPortals` in `drawOpUpdateWorker`. -/
def deletePortalStep (env : Env) (opID : OperationID) (w : World) (k : PortalID) : World :=
  (exec env (.deletePortal opID k) w).1

/-- Body of `for _, m := range o.Markers` in `drawOpUpdateWorker`. -/
def updateMarkerStep (env : Env) (opID : OperationID) (portalMap : List (PortalID × Portal))
    (st : World × List (MarkerID × MarkerID)) (m : Marker) :
    World × List (MarkerID × MarkerID) :=
  if !mapHas m.PortalID portalMap then st
  else
    match exec env (.updateMarker opID m) st.1 with
    | (w, some _) => (w, st.2)
    | (w, none) => (w, mapDel m.ID st.2)

/-- Body of `for k := range curMarkers` in `drawOpUpdateWorker`. -/
def deleteMarkerStep (env : Env) (opID : OperationID) (w : World) (k : MarkerID) : World :=
  (exec env (.deleteMarker opID k) w).1

/-- Body of `for _, l := range o.Links` in `drawOpUpdateWorker`. -/
def updateLinkStep (env : Env) (opID : OperationID) (portalMap : List (PortalID × Portal))
    (st : World × List (LinkID × LinkID)) (l : Link) : World × List (LinkID × LinkID) :=
  if !mapHas l.From portalMap then st
  else if !mapHas l.To portalMap then st
  else
    match exec env (.updateLink opID l) st.1 with
    | (w, some _) => (w, st.2)
    | (w, none) => (w, mapDel l.ID st.2)

/-- Body of `for k := range curLinks` in `drawOpUpdateWorker`. -/
def deleteLinkStep (env : Env) (opID : OperationID) (w : World) (k : LinkID) : World :=
  (exec env (.deleteLink opID k) w).1

/-- The scan loop that stashes the queried IDs in a map (`cur[id] = id`). -/
def stash (rows : List String) : List (String × String) :=
  rows.foldl (fun m id => mapSet id id m) []

/-- The link part of `drawOpUpdateWorker`: query, upserts, cleanup. -/
def linkPass (env : Env) (o : Operation) (portalMap : List (PortalID × Portal))
    (w : World) : World × Option Error :=
  match exec env (.selectLinkIDs o.ID) w with
  | (w, some err) => (w, some err)
  | (w, none) =>
    let curLinks := stash (storedLinkIDs o.ID w.db)
    let st := o.Links.foldl (updateLinkStep env o.ID portalMap) (w, curLinks)
    let w := (mapKeys st.2).foldl (deleteLinkStep env o.ID) st.1
    (w, none)

/-- The marker part of `drawOpUpdateWorker`, followed by the link part. -/
def markerPass (env : Env) (o : Operation) (portalMap : List (PortalID × Portal))
    (w : World) : World × Option Error :=
  match exec env (.selectMarkerIDs o.ID) w with
  | (w, some err) => (w, some err)
  | (w, none) =>
    let curMarkers := stash (storedMarkerIDs o.ID w.db)
    let st := o.Markers.foldl (updateMarkerStep env o.ID portalMap) (w, curMarkers)
    let w := (mapKeys st.2).foldl (deleteMarkerStep env o.ID) st.1
    linkPass env o portalMap w

/-- The portal part of `drawOpUpdateWorker`, followed by the marker and link parts. -/
def portalPass (env : Env) (o : Operation) (w : World) : World × Option Error :=
  match exec env (.selectPortalIDs o.ID) w with
  | (w, some err) => (w, some err)
  | (w, none) =>
    let curPortals := stash (storedPortalIDs o.ID w.db)
    let st := o.OpPortals.foldl (updatePortalStep env o.ID) ⟨w, [], curPortals⟩
    let w := (mapKeys st.curPortals).foldl (deletePortalStep env o.ID) st.w
    markerPass env o st.portalMap w

/-- Function `drawOpUpdateWorker`.  The test of `o.UpdateMode` guards a log line only. -/
def drawOpUpdateWorker (env : Env) (o : Operation) (w : World) : World × Option Error :=
  let _activeMode := o.UpdateMode == "active"
  match exec env (.updateOperation o.ID o.Name o.Color (MakeNullString o.Comment)) w with
  | (w, some err) => (w, some err)
  | (w, none) => portalPass env o w

/-- Method `Operation.Touch`; `now` is the value of `UTC_TIMESTAMP()`.  The hook
`firebaseMapChange` returns nothing; its invocation is recorded. -/
def Operation.Touch (env : Env) (now : Nat) (o : Operation) (w : World) :
    World × Option Error :=
  match exec env (.touch o.ID now) w with
  | (w, some err) => (w, some err)
  | (w, none) => ({ w with notified := w.notified ++ [o.ID] }, none)

/-- Function `DrawUpdate`. -/
def DrawUpdate (env : Env) (now : Nat) (opID : OperationID) (op : RawMessage)
    (gid : GoogleID) (w : World) : World × Option Error :=
  match Unmarshal op with
  | .error err => (w, some err)
  | .ok o =>
    if opID != o.ID then
      (w, some "incoming op.ID does not match the URL specified ID: refusing update")
    else
      let o := { o with Teams := [] }
      if !o.WriteAccess gid w.db then
        (w, some ("write access denied to op: " ++ o.ID))
      else
        match drawOpUpdateWorker env o w with
        | (w, some err) => (w, some err)
        | (w, none) =>
          match o.Touch env now w with
          | (w, some err) => (w, some err)
          | (w, none) => (w, none)

/-- Method `Operation.Delete`. -/
def Operation.Delete (env : Env) (o : Operation) (gid : GoogleID) (w : World) :
    World × Option Error :=
  if !OperationID.IsOwner o.ID gid w.db then (w, some "permission denied")
  else
    match exec env (.deleteOperation o.ID) w with
    | (w, some err) => (w, some err)
    | (w, none) =>
      let w := (exec env (.deleteMarkers o.ID) w).1
      let w := (exec env (.deleteLinks o.ID) w).1
      let w := (exec env (.deletePortals o.ID) w).1
      let w := (exec env (.deleteAnchors o.ID) w).1
      let w := (exec env (.deleteOpkeys o.ID) w).1
      let w := (exec env (.deleteOpteams o.ID) w).1
      (w, none)

/-- Method `Operation.SetInfo`: a failure of `Touch` is logged, not returned. -/
def Operation.SetInfo (env : Env) (now : Nat) (o : Operation) (info : String)
    (_gid : GoogleID) (w : World) : World × Option Error :=
  match exec env (.setComment o.ID info) w with
  | (w, some err) => (w, some err)
  | (w, none) => ((o.Touch env now w).1, none)

/-- Method `OperationID.Rename`. -/
def OperationID.Rename (env : Env) (opID : OperationID) (gid : GoogleID) (name : String)
    (w : World) : World × Option Error :=
  if !OperationID.IsOwner opID gid w.db then (w, some "permission denied")
  else if name = "" then (w, some "invalid name")
  else
    match exec env (.rename opID name) w with
    | (w, some err) => (w, some err)
    | (w, none) => (w, none)

/-- Modelled from the spec: method `ReadAccess` is not among the sources; the agent has
read access when it is the owner or belongs to a team bound to the operation with role
`read` or `write`.  It is a pure query of the store. -/
def Operation.ReadAccess (o : Operation) (gid : GoogleID) (db : DB) : Bool :=
  OperationID.IsOwner o.ID gid db ||
  db.opteams.any (fun b => b.1 == o.ID &&
    (b.2.Role == etRoleRead || b.2.Role == etRoleWrite) &&
    db.agentteams.any (fun a => a.1 == b.2.TeamID && a.2 == gid))

/-- Modelled from the spec: method `AssignedOnlyAccess` is not among the sources; the agent
has at least one task (marker or link) of the operation currently assigned to it. -/
def Operation.AssignedOnlyAccess (o : Operation) (gid : GoogleID) (db : DB) : Bool :=
  db.marker.any (fun r => r.1 == o.ID && r.2.AssignedTo == gid) ||
  db.link.any (fun r => r.1 == o.ID && r.2.AssignedTo == gid)

/-- The rows of operation `op` in an entity table. -/
def rowsOf {α : Type} (op : OperationID) (t : List (OperationID × α)) : List α :=
  (t.filter (fun r => r.1 == op)).map (fun r => r.2)

/-- The `modified` column as the text the store returns for it. -/
def formatTime (n : Nat) : String := toString n

/-- Modelled from the spec: method `PopulateTeams` is not among the sources; it fills the
team list with the team bindings of the operation. -/
def Operation.PopulateTeams (env : Env) (o : Operation) (w : World) :
    World × Operation × Option Error :=
  match exec env (.populateTeams o.ID) w with
  | (w, some err) => (w, o, some err)
  | (w, none) => (w, { o with Teams := rowsOf o.ID w.db.opteams }, none)

/-- Modelled from the spec: method `PopulatePortals` is not among the sources; it fills the
portal list with the stored portals of the operation. -/
def Operation.PopulatePortals (env : Env) (o : Operation) (w : World) :
    World × Operation × Option Error :=
  match exec env (.populatePortals o.ID) w with
  | (w, some err) => (w, o, some err)
  | (w, none) => (w, { o with OpPortals := rowsOf o.ID w.db.portal }, none)

/-- Modelled from the spec: method `PopulateMarkers` is not among the sources; it fills the
marker list with the stored markers of the operation. -/
def Operation.PopulateMarkers (env : Env) (o : Operation) (w : World) :
    World × Operation × Option Error :=
  match exec env (.populateMarkers o.ID) w with
  | (w, some err) => (w, o, some err)
  | (w, none) => (w, { o with Markers := rowsOf o.ID w.db.marker }, none)

/-- Modelled from the spec: method `PopulateLinks` is not among the sources; it fills the
link list with the stored links of the operation. -/
def Operation.PopulateLinks (env : Env) (o : Operation) (w : World) :
    World × Operation × Option Error :=
  match exec env (.populateLinks o.ID) w with
  | (w, some err) => (w, o, some err)
  | (w, none) => (w, { o with Links := rowsOf o.ID w.db.link }, none)

/-- Modelled from the spec: method `PopulateAnchors` is not among the sources; it fills the
anchor list with the stored anchors of the operation. -/
def Operation.PopulateAnchors (env : Env) (o : Operation) (w : World) :
    World × Operation × Option Error :=
  match exec env (.populateAnchors o.ID) w with
  | (w, some err) => (w, o, some err)
  | (w, none) => (w, { o with Anchors := rowsOf o.ID w.db.anchor }, none)

/-- Modelled from the spec: method `PopulateKeys` is not among the sources; it fills the
key list with the stored key records of the operation. -/
def Operation.PopulateKeys (env : Env) (o : Operation) (w : World) :
    World × Operation × Option Error :=
  match exec env (.populateKeys o.ID) w with
  | (w, some err) => (w, o, some err)
  | (w, none) => (w, { o with Keys := rowsOf o.ID w.db.opkeys }, none)

/-- The markers of the operation assigned to the agent. -/
def assignedMarkers (op : OperationID) (gid : GoogleID) (db : DB) : List Marker :=
  (rowsOf op db.marker).filter (fun m => m.AssignedTo == gid)

/-- The links of the operation assigned to the agent. -/
def assignedLinks (op : OperationID) (gid : GoogleID) (db : DB) : List Link :=
  (rowsOf op db.link).filter (fun l => l.AssignedTo == gid)

/-- Modelled from the spec: method `PopulateAssignedOnly` is not among the sources; the
restricted read fills the lists with the tasks assigned to the agent and the portals these
tasks reference, and withholds all other tasks and portals. -/
def Operation.PopulateAssignedOnly (env : Env) (o : Operation) (gid : GoogleID) (w : World) :
    World × Operation × Option Error :=
  match exec env (.populateAssignedOnly o.ID gid) w with
  | (w, some err) => (w, o, some err)
  | (w, none) =>
    (w, { o with
          Markers := assignedMarkers o.ID gid w.db
          Links := assignedLinks o.ID gid w.db
          OpPortals := (rowsOf o.ID w.db.portal).filter (fun p =>
            (assignedMarkers o.ID gid w.db).any (fun m => m.PortalID == p.ID) ||
            (assignedLinks o.ID gid w.db).any (fun l => l.From == p.ID || l.To == p.ID)) },
      none)

/-- The part of `Operation.Populate` after the access check has granted read access: the
five populate calls, each ending the method with its error, and the fetch time. -/
def populateAll (env : Env) (fetched : String) (o : Operation) (w : World) :
    World × Operation × Option Error :=
  match o.PopulatePortals env w with
  | (w, o, some err) => (w, o, some err)
  | (w, o, none) =>
    match o.PopulateMarkers env w with
    | (w, o, some err) => (w, o, some err)
    | (w, o, none) =>
      match o.PopulateLinks env w with
      | (w, o, some err) => (w, o, some err)
      | (w, o, none) =>
        match o.PopulateAnchors env w with
        | (w, o, some err) => (w, o, some err)
        | (w, o, none) =>
          match o.PopulateKeys env w with
          | (w, o, some err) => (w, o, some err)
          | (w, o, none) => (w, { o with Fetched := fetched }, none)

/-- The text of the error of `Operation.Populate` for an agent without access. -/
def unauthorizedError (gid : GoogleID) (id : OperationID) : Error :=
  "unauthorized: you are not on a team authorized to see this operation (" ++ gid ++ ": " ++
    id ++ ")"

/-- Method `Operation.Populate`; `fetched` is the formatted value of `time.Now()`.  The
result holds the state, the operation as filled in, and the error.  The result of
`PopulateTeams` is dropped, as in the source. -/
def Operation.Populate (env : Env) (fetched : String) (o : Operation) (gid : GoogleID)
    (w : World) : World × Operation × Option Error :=
  match exec env (.selectOperation o.ID) w with
  | (w, some err) => (w, o, some err)
  | (w, none) =>
    match w.db.operation.find? (fun r => r.ID == o.ID) with
    | none => (w, o, some "operation not found")
    | some r =>
      match Operation.PopulateTeams env
          { o with Name := r.name, Gid := r.gid, Color := r.color,
                   Modified := formatTime r.modified } w with
      | (w, o, _) =>
        if !o.ReadAccess gid w.db then
          if o.AssignedOnlyAccess gid w.db then o.PopulateAssignedOnly env gid w
          else (w, o, some (unauthorizedError gid o.ID))
        else
          populateAll env fetched
            (match r.comment with
             | some c => { o with Comment := c }
             | none => o) w

/-- Go `copy(dst, src)`: the first min(len(dst), len(src)) elements of `dst` are
overwritten with those of `src`; the length of `dst` does not change. -/
def goCopy {α : Type} (dst src : List α) : List α :=
  src.take dst.length ++ dst.drop src.length

/-- The zero value of `Operation` (`var new Operation`): empty strings and nil slices. -/
def Operation.zero : Operation :=
  { ID := "", Name := "", Gid := "", Color := "", OpPortals := [], Anchors := [], Links := [],
    Blockers := [], Markers := [], Teams := [], Modified := "", Comment := "", Keys := [],
    Fetched := "", UpdateMode := "" }

/-- The operation `new` that `Operation.Copy` builds from the source `o` and the generated
name: ID, name and color are assigned, and the lists are filled by `copy` into the nil
slices of the zero value. -/
def copyOf (o : Operation) (tmpid : String) : Operation :=
  { Operation.zero with
    ID := tmpid
    Name := o.Name ++ " " ++ "COPY"
    Color := o.Color
    OpPortals := goCopy Operation.zero.OpPortals o.OpPortals
    Anchors := goCopy Operation.zero.Anchors o.Anchors
    Links := goCopy Operation.zero.Links o.Links
    Markers := goCopy Operation.zero.Markers o.Markers
    Teams := goCopy Operation.zero.Teams o.Teams }

/-- Method `Operation.Copy`; `safeName` is the outcome of `GenerateSafeName()`, which is
not among the sources.  The result holds the state, the source operation as `Populate` may
have filled it, the returned ID and the error.  The two `range` loops of the branch
`!complete` assign to a copy of each element and change nothing; `drawOpInsertWorker` is
called in that branch only. -/
def Operation.Copy (env : Env) (now : Nat) (fetched : String) (safeName : Except Error String)
    (o : Operation) (gid : GoogleID) (complete : Bool) (w : World) :
    World × Operation × OperationID × Option Error :=
  match (if o.Name = "" then o.Populate env fetched gid w else (w, o, none)) with
  | (w, o, some err) => (w, o, "", some err)
  | (w, o, none) =>
    match safeName with
    | .error err => (w, o, "", some err)
    | .ok tmpid =>
      if !complete then
        match drawOpInsertWorker env now (copyOf o tmpid) gid w with
        | (w, some err) => (w, o, "", some err)
        | (w, none) => (w, o, (copyOf o tmpid).ID, none)
      else (w, o, (copyOf o tmpid).ID, none)

/-- The keys of `OpColorMap`. -/
def OpColorMap : List (String × (String × String)) :=
  [("main", ("Op Color", "ff0000")), ("groupa", ("Orange", "ff6600")),
   ("groupb", ("Light Orange", "ff9900")), ("groupc", ("Tan", "bb9900")),
   ("groupd", ("Purple", "bb22cc")), ("groupe", ("Teal", "33cccc")),
   ("groupf", ("Pink", "ff55ff"))]

/-- Function `OpValidColor`. -/
def OpValidColor (color : String) : String :=
  if mapHas color OpColorMap then color else "main"

/-- Whether the call is one of the per-entity upserts, inserts and deletes, whose errors
the workers log and skip. -/
def Call.perEntity : Call → Bool
  | .insertPortal _ _ => true
  | .insertMarker _ _ => true
  | .insertLink _ _ => true
  | .insertKey _ _ => true
  | .updatePortal _ _ => true
  | .updateMarker _ _ => true
  | .updateLink _ _ => true
  | .deletePortal _ _ => true
  | .deleteMarker _ _ => true
  | .deleteLink _ _ => true
  | _ => false

/-- Whether the call is one of the three stored-ID queries of `drawOpUpdateWorker`. -/
def Call.idQuery : Call → Bool
  | .selectPortalIDs _ => true
  | .selectMarkerIDs _ => true
  | .selectLinkIDs _ => true
  | _ => false

/-- The store calls issued between state `w` and a later state `w1`. -/
def issued (w w1 : World) : List Call :=
  w1.trace.drop w.trace.length

/-! ## The diff on one table -/

/-- The upserts of a list of entities, in order. -/
def upsertAll {α : Type} (key : α → String) (op : OperationID) (vs : List α)
    (t : List (OperationID × α)) : List (OperationID × α) :=
  vs.foldl (fun t v => upsertRow key op v t) t

/-- The deletes of a list of IDs, in order. -/
def deleteAll {α : Type} (key : α → String) (op : OperationID) (ks : List String)
    (t : List (OperationID × α)) : List (OperationID × α) :=
  ks.foldl (fun t k => deleteRow key op k t) t

/-- The working set after the upsert loop: the stashed IDs `rows` with the IDs `ids` of the
upserted entities deleted. -/
def leftOver (ids rows : List String) : List (String × String) :=
  ids.foldl (fun c k => mapDel k c) (stash rows)

/-- The diff-by-query-then-map pattern on one table when no call fails: upsert the incoming
entities, then delete the stored IDs that no incoming entity carried. -/
def reconcileTable {α : Type} (key : α → String) (op : OperationID) (vs : List α)
    (t : List (OperationID × α)) : List (OperationID × α) :=
  deleteAll key op (mapKeys (leftOver (vs.map key) (selectIDs key op t))) (upsertAll key op vs t)

/-- The last entity of a list that carries ID `k`. -/
def lastWith {α : Type} (key : α → String) : List α → String → Option α
  | [], _ => none
  | v :: vs, k =>
    match lastWith key vs k with
    | some x => some x
    | none => if key v = k then some v else none

/-- What the upserts of `vs` make of a row whose ID is already stored. -/
def overrideRow {α : Type} (key : α → String) (op : OperationID) (vs : List α)
    (r : OperationID × α) : OperationID × α :=
  if r.1 = op then
    match lastWith key vs (key r.2) with
    | some x => (op, x)
    | none => r
  else r

/-! ## The update when no call fails -/

/-- The map `portalMap` as the portal loop builds it. -/
def portalMapOf (ps : List Portal) : List (PortalID × Portal) :=
  ps.foldl (fun pm p => mapSet p.ID p pm) []

/-- The markers of the snapshot that pass the check against `portalMap`. -/
def listedMarkers (o : Operation) : List Marker :=
  o.Markers.filter (fun m => mapHas m.PortalID (portalMapOf o.OpPortals))

/-- The links of the snapshot that pass the two checks against `portalMap`. -/
def listedLinks (o : Operation) : List Link :=
  o.Links.filter (fun l =>
    mapHas l.From (portalMapOf o.OpPortals) && mapHas l.To (portalMapOf o.OpPortals))

/-- The portal cleanup loop on the tables when no call fails. -/
def deletePortalsAll (cascade : Bool) (op : OperationID) (ks : List PortalID) (db : DB) : DB :=
  ks.foldl (fun db k => deletePortalRows cascade op k db) db

/-- The tables after the portal part of the update when no call fails. -/
def reconcilePortals (cascade : Bool) (o : Operation) (db : DB) : DB :=
  deletePortalsAll cascade o.ID
    (mapKeys (leftOver (o.OpPortals.map Portal.ID) (storedPortalIDs o.ID db)))
    { db with portal := upsertAll Portal.ID o.ID o.OpPortals db.portal }

/-- The tables after `drawOpUpdateWorker` when no call fails (shown equal to the result of
the worker in `drawOpUpdateWorker_reliable`). -/
def reconcile (cascade : Bool) (o : Operation) (db : DB) : DB :=
  { reconcilePortals cascade o
      ((Call.updateOperation o.ID o.Name o.Color (MakeNullString o.Comment)).apply cascade db)
    with
    marker := (reconcileTable Marker.ID o.ID (listedMarkers o)
      (reconcilePortals cascade o
        ((Call.updateOperation o.ID o.Name o.Color (MakeNullString o.Comment)).apply
          cascade db)).marker)
    link := (reconcileTable Link.ID o.ID (listedLinks o)
      (reconcilePortals cascade o
        ((Call.updateOperation o.ID o.Name o.Color (MakeNullString o.Comment)).apply
          cascade db)).link) }

/-- Issue the calls of a list one after the other, whatever their outcome. -/
def replay (env : Env) (cs : List Call) (w : World) : World :=
  cs.foldl (fun w c => (exec env c w).1) w

/-- The store calls `drawOpUpdateWorker` can issue for snapshot `o`: the top-level update,
the three ID queries, the upsert of a listed portal, of a listed marker whose portal is
listed, of a listed link whose two portals are listed, and deletes of portals, markers
and links of the operation. -/
def updateCall (o : Operation) (c : Call) : Prop :=
  c = .updateOperation o.ID o.Name o.Color (MakeNullString o.Comment) ∨
  c = .selectPortalIDs o.ID ∨ c = .selectMarkerIDs o.ID ∨ c = .selectLinkIDs o.ID ∨
  (∃ p ∈ o.OpPortals, c = .updatePortal o.ID p) ∨
  (∃ m ∈ o.Markers, m.PortalID ∈ o.OpPortals.map Portal.ID ∧ c = .updateMarker o.ID m) ∨
  (∃ l ∈ o.Links, l.From ∈ o.OpPortals.map Portal.ID ∧ l.To ∈ o.OpPortals.map Portal.ID ∧
    c = .updateLink o.ID l) ∨
  (∃ k, c = .deletePortal o.ID k) ∨ (∃ k, c = .deleteMarker o.ID k) ∨
  (∃ k, c = .deleteLink o.ID k)

/-- The per-entity calls of `drawOpInsertWorker` for snapshot `o`, in the order of the four
loops: every listed portal, every marker whose portal is listed, every link whose two
portals are listed, every key record. -/
def insertCalls (o : Operation) : List Call :=
  o.OpPortals.map (.insertPortal o.ID) ++ (listedMarkers o).map (.insertMarker o.ID) ++
    (listedLinks o).map (.insertLink o.ID) ++ o.Keys.map (.insertKey o.ID)

/-- Whether the call deletes rows. -/
def Call.isDelete : Call → Bool
  | .deleteOperation _ => true
  | .deleteMarkers _ => true
  | .deleteLinks _ => true
  | .deletePortals _ => true
  | .deleteAnchors _ => true
  | .deleteOpkeys _ => true
  | .deleteOpteams _ => true
  | .deletePortal _ _ => true
  | .deleteMarker _ _ => true
  | .deleteLink _ _ => true
  | _ => false

/-- Whether the call is a statement on the key records (table `opkeys`). -/
def Call.onKeys : Call → Bool
  | .insertKey _ _ => true
  | .deleteOpkeys _ => true
  | _ => false

/-- The store without any row of operation `id` in the tables keyed by operation. -/
def deletedDB (id : OperationID) (db : DB) : DB :=
  { operation := db.operation.filter (fun r => r.ID != id)
    portal := deleteOp id db.portal
    marker := deleteOp id db.marker
    link := deleteOp id db.link
    anchor := deleteOp id db.anchor
    opkeys := deleteOp id db.opkeys
    opteams := deleteOp id db.opteams
    agentteams := db.agentteams }

/-- The six deletes that `Operation.Delete` issues after the delete of the operation row,
ignoring their errors. -/
def followUpDeletes (id : OperationID) : List Call :=
  [.deleteMarkers id, .deleteLinks id, .deletePortals id, .deleteAnchors id,
   .deleteOpkeys id, .deleteOpteams id]

/-! ## The task model of `model/task.go` -/

/-- The Go type `TaskID`. -/
abbrev TaskID := String

/-- The Go struct `Task`; the type `Zone`, declared elsewhere, is a number. -/
structure Task where
  ID : TaskID
  Assignments : List GoogleID
  DependsOn : List TaskID
  Zone : Nat
  DeltaMinutes : Int
  State : String
  Comment : String
  Order : Nat
  opID : OperationID
deriving DecidableEq, Repr

/-- The tables that `model/task.go` reads and writes: `assignments` with columns opID,
taskID, gid and `depends` with columns opID, taskID, dependsOn. -/
structure TaskStore where
  assignments : List (OperationID × TaskID × GoogleID) := []
  depends : List (OperationID × TaskID × TaskID) := []
deriving DecidableEq, Repr

/-- The statements of `model/task.go` on these tables, and the commit of a transaction. -/
inductive TaskCall where
  /-- Statement `DELETE FROM assignments WHERE taskID = ? AND opID = ?` -/
  | deleteAssignments (opID : OperationID) (taskID : TaskID)
  /-- Statement `INSERT INTO assignments (opID, taskID, gid) VALUES  (?, ?, ?)` -/
  | insertAssignment (opID : OperationID) (taskID : TaskID) (gid : GoogleID)
  /-- Statement `INSERT INTO depends (opID, taskID, dependsOn) VALUES (?, ?, ?)` -/
  | insertDepend (opID : OperationID) (taskID : TaskID) (dependsOn : TaskID)
  /-- Statement `DELETE FROM depends WHERE opID = ? AND taskID = ? AND dependsOn = ?` -/
  | deleteDepend (opID : OperationID) (taskID : TaskID) (dependsOn : TaskID)
  /-- Statement `SELECT dependsOn FROM depends WHERE opID = ? AND taskID = ? ORDER BY dependsOn` -/
  | selectDepends (opID : OperationID) (taskID : TaskID)
  /-- Statement `SELECT gid FROM assignments WHERE opID = ? AND taskID = ? ORDER BY gid` -/
  | selectAssignments (opID : OperationID) (taskID : TaskID)
  /-- Call `tx.Commit()` -/
  | commit
deriving DecidableEq, Repr

/-- What a statement that succeeds does to the tables. -/
def TaskCall.apply : TaskCall → TaskStore → TaskStore
  | .deleteAssignments opID taskID, s =>
    { s with assignments := s.assignments.filter (fun r => !(r.1 == opID && r.2.1 == taskID)) }
  | .insertAssignment opID taskID gid, s =>
    { s with assignments := s.assignments ++ [(opID, taskID, gid)] }
  | .insertDepend opID taskID dep, s =>
    { s with depends := s.depends ++ [(opID, taskID, dep)] }
  | .deleteDepend opID taskID dep, s =>
    { s with depends :=
        s.depends.filter (fun r => !(r.1 == opID && r.2.1 == taskID && r.2.2 == dep)) }
  | .selectDepends _ _, s => s
  | .selectAssignments _ _, s => s
  | .commit, s => s

/-- The tables as a connection or an open transaction sees them, and the statements issued
so far, each with whether it failed. -/
structure TaskWorld where
  store : TaskStore := {}
  trace : List (TaskCall × Bool) := []
deriving DecidableEq, Repr

/-- Which statements fail; the oracle sees the state the statement is issued in. -/
structure TaskEnv where
  /-- Whether the statement fails when issued in the given state. -/
  fails : TaskWorld → TaskCall → Bool

/-- The environment in which no statement fails. -/
def TaskEnv.reliable : TaskEnv := ⟨fun _ _ => false⟩

/-- The environment in which exactly the statements equal to `c` fail. -/
def TaskEnv.failingOn (c : TaskCall) : TaskEnv := ⟨fun _ c1 => c1 == c⟩

/-- One statement (`db.Exec`, `tx.Exec`, `tx.Commit`): it is recorded with its outcome, and
it either fails, leaving the tables as they are, or takes effect. -/
def texec (env : TaskEnv) (c : TaskCall) (w : TaskWorld) : TaskWorld × Option Error :=
  if env.fails w c then ({ w with trace := w.trace ++ [(c, true)] }, some "store error")
  else ({ store := c.apply w.store, trace := w.trace ++ [(c, false)] }, none)

/-- The loop `for _, gid := range gs` of `Task.Assign` on the transaction: an empty ID is
skipped, the first failing insert ends the loop with its error. -/
def assignLoop (env : TaskEnv) (t : Task) : List GoogleID → TaskWorld → TaskWorld × Option Error
  | [], tx => (tx, none)
  | gid :: gs, tx =>
    if gid = "" then assignLoop env t gs tx
    else
      match texec env (.insertAssignment t.opID t.ID gid) tx with
      | (tx, some err) => (tx, some err)
      | (tx, none) => assignLoop env t gs tx

/-- The statements of `Task.Assign` on the transaction: the delete, then the loop. -/
def assignBody (env : TaskEnv) (t : Task) (gs : List GoogleID) (tx : TaskWorld) :
    TaskWorld × Option Error :=
  match texec env (.deleteAssignments t.opID t.ID) tx with
  | (tx, some err) => (tx, some err)
  | (tx, none) => assignLoop env t gs tx

/-- Method `Task.Assign`.  The argument `tx` is the state of the caller's transaction, or
`none` for `nil`; the result holds the committed state and the state of the caller's
transaction.  With `nil` the method begins a transaction of its own (`db.Begin`, taken to
succeed: its error is dropped by the source), which sees the committed tables; the
deferred `tx.Rollback()` discards its work on every return but the one after a successful
`tx.Commit()`, which publishes it. -/
def Task.Assign (env : TaskEnv) (t : Task) (gs : List GoogleID) (tx : Option TaskWorld)
    (w : TaskWorld) : (TaskWorld × Option TaskWorld) × Option Error :=
  match tx with
  | some tx =>
    match assignBody env t gs tx with
    | (tx, err) => ((w, some tx), err)
  | none =>
    match assignBody env t gs w with
    | (tx, some err) => (({ w with trace := tx.trace }, none), some err)
    | (tx, none) =>
      match texec env .commit tx with
      | (tx, some err) => (({ w with trace := tx.trace }, none), some err)
      | (tx, none) => ((tx, none), none)

/-- Method `Task.AddDepend`. -/
def Task.AddDepend (env : TaskEnv) (t : Task) (task : String) (w : TaskWorld) :
    TaskWorld × Option Error :=
  match texec env (.insertDepend t.opID t.ID task) w with
  | (w, some err) => (w, some err)
  | (w, none) => (w, none)

/-- Method `Task.DelDepend`. -/
def Task.DelDepend (env : TaskEnv) (t : Task) (task : String) (w : TaskWorld) :
    TaskWorld × Option Error :=
  match texec env (.deleteDepend t.opID t.ID task) w with
  | (w, some err) => (w, some err)
  | (w, none) => (w, none)

/-- The stored assignees of a task, in the order of the table. -/
def assignees (t : Task) (s : TaskStore) : List GoogleID :=
  (s.assignments.filter (fun r => r.1 == t.opID && r.2.1 == t.ID)).map (fun r => r.2.2)

/-- The assignments of all tasks other than `t`. -/
def otherAssignments (t : Task) (s : TaskStore) : List (OperationID × TaskID × GoogleID) :=
  s.assignments.filter (fun r => !(r.1 == t.opID && r.2.1 == t.ID))

/-- The statements issued between state `w` and a later state `w1`, with their outcomes. -/
def tissued (w w1 : TaskWorld) : List (TaskCall × Bool) :=
  w1.trace.drop w.trace.length

/-! ## A sample store and sample documents -/

/-- Portal A of the sample operation. -/
def portalA : Portal := ⟨"A", "Alpha", "48.1", "11.5"⟩

/-- Portal B of the sample operation. -/
def portalB : Portal := ⟨"B", "Beta", "48.2", "11.6"⟩

/-- The stored link A→B of the sample operation: assigned to agent G1 and completed. -/
def linkAB : Link := ⟨"L1", "A", "B", "main", "G1", "completed", 1, "first"⟩

/-- The same link as a client sends it with the assignee cleared. -/
def linkABCleared : Link := { linkAB with AssignedTo := "", State := "pending" }

/-- A marker on portal A. -/
def markerA : Marker := ⟨"M1", "A", "capture", "G1", "assigned", 1, ""⟩

/-- A marker whose portal Z is in no snapshot. -/
def markerZ : Marker := ⟨"M2", "Z", "capture", "", "pending", 2, ""⟩

/-- A store with operation X, owned by G0, holding portals A and B and the link A→B; team
T1, of which G3 is a member, is bound to X with role write.  Another operation Y of owner
G5 holds a portal too. -/
def sampleDB : DB :=
  { operation := [⟨"X", "plan", "G0", "main", 5, none⟩, ⟨"Y", "other", "G5", "groupa", 3, none⟩]
    portal := [("X", portalA), ("X", portalB), ("Y", portalA)]
    link := [("X", linkAB)]
    opteams := [("X", ⟨"T1", "write"⟩)]
    agentteams := [("T1", "G3")] }

/-- The sample store with no call issued yet. -/
def sampleWorld : World := { db := sampleDB }

/-- A snapshot of operation X with the given portals, markers, links and mode. -/
def snapshotX (ps : List Portal) (ms : List Marker) (ls : List Link) (mode : String) :
    Operation :=
  { ID := "X", Name := "plan v2", Gid := "G9", Color := "groupb", OpPortals := ps,
    Anchors := [], Links := ls, Blockers := [], Markers := ms, Teams := [],
    Modified := "", Comment := "", Keys := [], Fetched := "", UpdateMode := mode }

/-- The environment in which every per-entity call fails and no other call does. -/
def Env.entityFailing : Env := ⟨fun _ c => c.perEntity, true⟩

/-- The environment in which exactly the calls equal to `c` fail. -/
def Env.failingOn (c : Call) : Env := ⟨fun _ c1 => c1 == c, true⟩

/-- A snapshot of operation X listing portal A, a marker on A, a marker on the unlisted
portal Z and the link A→B, whose portal B is not listed. -/
def skipSnapshot : Operation := snapshotX [portalA] [markerA, markerZ] [linkAB] ""

/-- A snapshot of operation X that lists portal A only: portal B and the link A→B are
omitted. -/
def omitSnapshot : Operation := snapshotX [portalA] [] [] ""

/-- A snapshot of a new operation Z whose color "purple" is not in the palette; it lists
portal A, a marker on A, a marker on the unlisted portal Z and a key record. -/
def purpleSnapshot : Operation :=
  { ID := "Z", Name := "fresh", Gid := "G9", Color := "purple", OpPortals := [portalA],
    Anchors := [], Links := [linkAB], Blockers := [], Markers := [markerA, markerZ],
    Teams := [], Modified := "", Comment := "note", Keys := [⟨"A", "G7", 2, "cap"⟩],
    Fetched := "", UpdateMode := "" }

/-- The sample store with key records: agent G1 holds keys of portals A and B in operation
X, agent G5 holds keys of portal A in operation Y. -/
def keyedWorld : World :=
  { db := { sampleDB with
      opkeys := [("X", ⟨"A", "G1", 3, ""⟩), ("X", ⟨"B", "G1", 1, "cap"⟩),
                 ("Y", ⟨"A", "G5", 2, ""⟩)] } }

/-- The snapshot that lists portal A only, sent with a key list of its own. -/
def omitSnapshotKeys : Operation :=
  { omitSnapshot with Keys := [⟨"A", "G1", 40, "new"⟩, ⟨"B", "G1", 50, "new"⟩] }

/-- The environment in which every call fails except those equal to `c`; its store
cascades. -/
def Env.onlyAllowing (c : Call) : Env := ⟨fun _ c1 => c1 != c, true⟩

/-- The sample store with key records, an anchor and a marker in operation X. -/
def fullWorld : World :=
  { db := { keyedWorld.db with
      marker := [("X", markerA), ("Y", markerA)]
      anchor := [("X", "A"), ("Y", "A")] } }

/-- Task M1 of operation X. -/
def taskM1 : Task :=
  { ID := "M1", Assignments := [], DependsOn := [], Zone := 0, DeltaMinutes := 0,
    State := "pending", Comment := "", Order := 1, opID := "X" }

/-- A task store in which M1 of X is assigned to G1 and L1 of X to G2. -/
def sampleTasks : TaskWorld :=
  { store := { assignments := [("X", "M1", "G1"), ("X", "L1", "G2")] } }

/-- A store in which agent G2 reads operation X through team T2, and agent G4, on no team,
has the marker M1 on portal A assigned. -/
def accessWorld : World :=
  { db := { sampleDB with
      marker := [("X", { markerA with AssignedTo := "G4" }), ("X", markerZ)]
      opteams := [("X", ⟨"T1", "write"⟩), ("X", ⟨"T2", "read"⟩)]
      agentteams := [("T1", "G3"), ("T2", "G2")] } }

/-- An operation value of which only the ID is set. -/
def onlyID (id : OperationID) : Operation := { Operation.zero with ID := id }

/-- Operation X as `Populate` fills it for a reader of the sample store. -/
def populatedX : Operation :=
  { Operation.zero with
    ID := "X", Name := "plan", Gid := "G0", Color := "main",
    OpPortals := [portalA, portalB], Links := [linkAB] }

/-! ## The route handlers of `http/draw.go` -/

/-- A request as the handlers read it: the outcome of `getAgentID(req)`, the URL variables
of `mux.Vars(req)`, the form values and the headers. -/
structure Request where
  agent : Except Error GoogleID
  vars : List (String × String) := []
  form : List (String × String) := []
  header : List (String × String) := []

/-- Go `m[k]` on a map of strings, `req.FormValue(k)` and `req.Header.Get(k)`: the empty
string when the key is absent. -/
def mapGet (k : String) (m : List (String × String)) : String :=
  match m.find? (fun e => e.1 == k) with
  | some e => e.2
  | none => ""

def StatusNotModified : Nat := 304
def StatusForbidden : Nat := 403
def StatusNotAcceptable : Nat := 406
def StatusInternalServerError : Nat := 500

/-- What a handler sends. -/
inductive Response where
  /-- Call `fmt.Fprint(res, jsonStatusOK)` -/
  | statusOK
  /-- Call `fmt.Fprint(res, string(s))` with the marshalled operation -/
  | document (o : Operation)
  /-- Call `http.Error(res, jsonError(err), code)` -/
  | error (err : Error) (code : Nat)
  /-- Call `http.Redirect(res, req, "", http.StatusNotModified)` -/
  | notModified
deriving DecidableEq, Repr

/-- The methods of the model layer that the handlers below call and that are not among the
sources.  Nothing is assumed about them: each is an arbitrary function of the store that
may return an error. -/
structure ModelLayer where
  PortalHardness : OperationID → PortalID → String → DB → DB × Option Error
  KeyOnHand : OperationID → GoogleID → PortalID → Int → String → DB → DB × Option Error

/-- A call of one of these methods, with its arguments. -/
inductive ModelCall where
  /-- Call `op.PortalHardness(portalID, hardness)` -/
  | PortalHardness (op : OperationID) (portal : PortalID) (hardness : String)
  /-- Call `op.KeyOnHand(gid, portalID, onhand, capsule)` -/
  | KeyOnHand (op : OperationID) (gid : GoogleID) (portal : PortalID) (onhand : Int)
      (capsule : String)
deriving DecidableEq, Repr

/-- The state a handler of this group runs in: the store, and the calls of the model-layer
methods made so far. -/
structure Site where
  db : DB := {}
  calls : List ModelCall := []
deriving DecidableEq, Repr

/-- Handler `pDrawPortalHardnessRoute`.  The guard is `if op.WriteAccess(gid)`, as in the
source. -/
def pDrawPortalHardnessRoute (m : ModelLayer) (req : Request) (s : Site) : Site × Response :=
  match req.agent with
  | .error err => (s, .error err StatusInternalServerError)
  | .ok gid =>
    let op := onlyID (mapGet "document" req.vars)
    if op.WriteAccess gid s.db then
      (s, .error "write access required to set portal hardness" StatusForbidden)
    else
      let portalID := mapGet "portal" req.vars
      let hardness := mapGet "hardness" req.form
      match m.PortalHardness op.ID portalID hardness s.db with
      | (db, some err) =>
        (⟨db, s.calls ++ [.PortalHardness op.ID portalID hardness]⟩,
          .error err StatusInternalServerError)
      | (db, none) => (⟨db, s.calls ++ [.PortalHardness op.ID portalID hardness]⟩, .statusOK)

/-- A model layer whose methods change nothing and return no error. -/
def idleModel : ModelLayer := ⟨fun _ _ _ db => (db, none), fun _ _ _ _ _ db => (db, none)⟩

/-- A request of the given agent to set the hardness of portal A of operation X. -/
def hardnessRequest (gid : GoogleID) : Request :=
  { agent := .ok gid, vars := [("document", "X"), ("portal", "A")],
    form := [("hardness", "hard")] }

/-- Go `time.Time` values at the resolution of the two layouts, in seconds; 0 is the zero
value `time.Time{}`, and the instants before it are negative. -/
abbrev Time := Int

/-- The two calls of `time.ParseInLocation` in `pDrawGetRoute`, which are functions of the
Go library: the parse of the stored text of column `modified` (layout
"2006-01-02 15:04:05") and the parse of the header value (layout `time.RFC1123`).  An error
comes with the zero time, as in Go. -/
structure Clock where
  parseStored : String → Except Error Time
  parseRFC1123 : String → Except Error Time

/-- The value of `lastModified` in `pDrawGetRoute`: the parse error is logged and the zero
time is used. -/
def lastModifiedOf (clock : Clock) (modified : String) : Time :=
  match clock.parseStored modified with
  | .ok t => t
  | .error _ => 0

/-- The value of `skipsending` in `pDrawGetRoute` for the header value `ims`; the test is
`lastModified.Before(modifiedSince)`. -/
def skipsending (clock : Clock) (lastModified : Time) (ims : String) : Bool :=
  if ims != "" && ims != "null" then
    match clock.parseRFC1123 ims with
    | .error _ => false
    | .ok modifiedSince => decide (lastModified < modifiedSince)
  else false

/-- Handler `pDrawGetRoute`; `fetched` is the formatted value of `time.Now()` that
`Populate` records.  The response headers are not modelled, and `json.Marshal` of an
`Operation`, which holds strings, numbers and slices of these only, returns no error. -/
def pDrawGetRoute (env : Env) (clock : Clock) (fetched : String) (req : Request) (w : World) :
    World × Response :=
  match req.agent with
  | .error err => (w, .error err StatusInternalServerError)
  | .ok gid =>
    let o := onlyID (mapGet "document" req.vars)
    if !o.ReadAccess gid w.db && !o.AssignedOnlyAccess gid w.db then
      (w, .error "forbidden" StatusForbidden)
    else
      match o.Populate env fetched gid w with
      | (w, _, some err) => (w, .error err StatusInternalServerError)
      | (w, o, none) =>
        let lastModified := lastModifiedOf clock o.Modified
        let ims := mapGet "If-Modified-Since" req.header
        if skipsending clock lastModified ims then (w, .notModified)
        else (w, .document o)

/-- A clock that reads the stored text "5" as second 5 and knows three header values: one
second before, at, and one second after that instant. -/
def sampleClock : Clock :=
  { parseStored := fun s => if s = "5" then .ok 5 else .error "cannot parse"
    parseRFC1123 := fun s =>
      if s = "Thu, 01 Jan 0001 00:00:04 UTC" then .ok 4
      else if s = "Thu, 01 Jan 0001 00:00:05 UTC" then .ok 5
      else if s = "Thu, 01 Jan 0001 00:00:06 UTC" then .ok 6
      else .error "cannot parse" }

/-- A request of the given agent for operation X with the given `If-Modified-Since`. -/
def getRequest (gid : GoogleID) (ims : String) : Request :=
  { agent := .ok gid, vars := [("document", "X")], header := [("If-Modified-Since", ims)] }

/-- The error `strconv.ErrSyntax`. -/
def ErrSyntax : Error := "invalid syntax"

/-- The error `strconv.ErrRange`. -/
def ErrRange : Error := "value out of range"

/-- The digit loop of Go `strconv.ParseUint(s, 10, 64)`: a byte that is no decimal digit
ends it with a syntax error and value 0, a value beyond 64 bits ends it with a range error
and the largest value. -/
def parseUintLoop : List Char → Nat → Nat × Option Error
  | [], n => (n, none)
  | c :: cs, n =>
    if !c.isDigit then (0, some ErrSyntax)
    else if n * 10 + (c.toNat - 48) ≥ 2 ^ 64 then (2 ^ 64 - 1, some ErrRange)
    else parseUintLoop cs (n * 10 + (c.toNat - 48))

/-- Go `strconv.ParseUint(s, 10, 64)` on the bytes of `s`. -/
def ParseUint (s : List Char) : Nat × Option Error :=
  if s = [] then (0, some ErrSyntax) else parseUintLoop s 0

/-- Go `strconv.ParseInt(s, 10, 64)`: an optional sign, then `ParseUint`; a magnitude that
does not fit 64 bits with sign gives the nearest bound and a range error. -/
def ParseInt (s : String) : Int × Option Error :=
  match s.toList with
  | [] => (0, some ErrSyntax)
  | c :: cs =>
    let neg := c == '-'
    let ds := if c == '+' || c == '-' then cs else c :: cs
    match ParseUint ds with
    | (un, err) =>
      if err == some ErrSyntax then (0, some ErrSyntax)
      else if !neg && un ≥ 2 ^ 63 then (2 ^ 63 - 1, some ErrRange)
      else if neg && un > 2 ^ 63 then (-(2 ^ 63), some ErrRange)
      else if neg then (-(un : Int), none)
      else ((un : Int), none)

/-- Go `strconv.Atoi(s)` where `int` has 64 bits: its fast path for short strings and its
slow path `ParseInt(s, 10, 0)` return the same value and the same kind of error. -/
def Atoi (s : String) : Int × Option Error := ParseInt s

/-- Go conversion `int32(n)` of an `int`: the low 32 bits, read with sign. -/
def int32 (n : Int) : Int := (n + 2 ^ 31) % 2 ^ 32 - 2 ^ 31

/-- The count that `pDrawPortalKeysRoute` computes from the form value `onhand`. -/
def onhandOf (form : String) : Int :=
  match Atoi form with
  | (onhand, err) =>
    let onhand := if err.isSome then 0 else onhand
    let onhand := if onhand < 0 then 0 else onhand
    let onhand := if onhand > 3000 then 3000 else onhand
    int32 onhand

/-- Handler `pDrawPortalKeysRoute`. -/
def pDrawPortalKeysRoute (m : ModelLayer) (req : Request) (s : Site) : Site × Response :=
  match req.agent with
  | .error err => (s, .error err StatusInternalServerError)
  | .ok gid =>
    let op := onlyID (mapGet "document" req.vars)
    let portalID := mapGet "portal" req.vars
    let onhand := onhandOf (mapGet "onhand" req.form)
    let capsule := mapGet "capsule" req.form
    match m.KeyOnHand op.ID gid portalID onhand capsule s.db with
    | (db, some err) =>
      (⟨db, s.calls ++ [.KeyOnHand op.ID gid portalID onhand capsule]⟩,
        .error err StatusInternalServerError)
    | (db, none) =>
      (⟨db, s.calls ++ [.KeyOnHand op.ID gid portalID onhand capsule]⟩, .statusOK)

/-- The positional value of a string of decimal digits, continued from `acc`. -/
def valFrom (acc : Nat) (ds : List Char) : Nat :=
  ds.foldl (fun a c => a * 10 + (c.toNat - 48)) acc

/-- A request of agent G1 reporting the given count of keys of portal A in operation X. -/
def keysRequest (onhand : String) : Request :=
  { agent := .ok "G1", vars := [("document", "X"), ("portal", "A")],
    form := [("onhand", onhand), ("capsule", "cap")] }

/-! ## Method `GoogleID.InsertDefensiveKey` of `model/defensivekeys.go` -/

/-- The Go struct `DefensiveKey`. -/
structure DefensiveKey where
  GID : GoogleID
  PortalID : PortalID
  CapID : String
  Count : Int
  Name : String
  Lat : String
  Lon : String
deriving DecidableEq, Repr

/-- A row of table `defensivekeys`: columns gid, portalID, capID, count, name and loc, the
latter held as the text handed to `PointFromText`. -/
structure DefensiveRow where
  gid : GoogleID
  portalID : PortalID
  capID : String
  count : Int
  name : String
  loc : String
deriving DecidableEq, Repr

/-- The two statements of `InsertDefensiveKey`. -/
inductive DefensiveCall where
  /-- Statement `DELETE FROM defensivekeys WHERE gid = ? AND portalID = ?` -/
  | delete (gid : GoogleID) (portalID : PortalID)
  /-- Statement `INSERT INTO defensivekeys (gid, portalID, capID, count, name, loc) VALUES
  (...) ON DUPLICATE KEY UPDATE capID = ?, count = ?` -/
  | insertOrUpdate (gid : GoogleID) (portalID : PortalID) (capID : String) (count : Int)
      (name : String) (point : String)
deriving DecidableEq, Repr

/-- What a statement that succeeds does to the table.  The declaration of the table is not
among the sources; its unique key is taken to be (gid, portalID), the pair that the
`DELETE` of the same method addresses: a row with the key of the inserted one makes the
insert an update of capID and count. -/
def DefensiveCall.apply : DefensiveCall → List DefensiveRow → List DefensiveRow
  | .delete gid portalID, t => t.filter (fun r => !(r.gid == gid && r.portalID == portalID))
  | .insertOrUpdate gid portalID capID count name point, t =>
    if t.any (fun r => r.gid == gid && r.portalID == portalID) then
      t.map (fun r =>
        if r.gid == gid && r.portalID == portalID then { r with capID := capID, count := count }
        else r)
    else t ++ [⟨gid, portalID, capID, count, name, point⟩]

/-- One statement on the table: it fails, leaving the table as it is, or takes effect. -/
def dexec (fails : List DefensiveRow → DefensiveCall → Bool) (c : DefensiveCall)
    (t : List DefensiveRow) : List DefensiveRow × Option Error :=
  if fails t c then (t, some "store error") else (c.apply t, none)

/-- The functions `strconv.ParseFloat(s, 64)` and `strconv.FormatFloat(f, 'f', 7, 64)` of
the Go library over a type `F` of floating point numbers, and `float64(0)`. -/
structure FloatLib (F : Type) where
  ParseFloat : String → Except Error F
  FormatFloat : F → String
  zero : F

/-- The text `point` of `InsertDefensiveKey`: a coordinate that does not parse is replaced
by 0, and both are printed again with seven decimals, longitude first. -/
def pointOf {F : Type} (lib : FloatLib F) (dk : DefensiveKey) : String :=
  let flat := match lib.ParseFloat dk.Lat with
    | .ok f => f
    | .error _ => lib.zero
  let flon := match lib.ParseFloat dk.Lon with
    | .ok f => f
    | .error _ => lib.zero
  "POINT(" ++ lib.FormatFloat flon ++ " " ++ lib.FormatFloat flat ++ ")"

/-- Method `GoogleID.InsertDefensiveKey`. -/
def GoogleID.InsertDefensiveKey {F : Type} (fails : List DefensiveRow → DefensiveCall → Bool)
    (lib : FloatLib F) (gid : GoogleID) (dk : DefensiveKey) (t : List DefensiveRow) :
    List DefensiveRow × Option Error :=
  if dk.Count < 1 then
    match dexec fails (.delete gid dk.PortalID) t with
    | (t, some err) => (t, some err)
    | (t, none) => (t, none)
  else
    match dexec fails
        (.insertOrUpdate gid dk.PortalID dk.CapID dk.Count dk.Name (pointOf lib dk)) t with
    | (t, some err) => (t, some err)
    | (t, none) => (t, none)

/-- Whether the row is the record of the agent for the portal. -/
def DefensiveRow.isFor (gid : GoogleID) (portalID : PortalID) (r : DefensiveRow) : Bool :=
  r.gid == gid && r.portalID == portalID

/-- A float library over the integers that reads "48" and "11" and prints with seven
decimals. -/
def sampleFloats : FloatLib Int :=
  { ParseFloat := fun s =>
      if s = "48" then .ok 48 else if s = "11" then .ok 11 else .error "invalid syntax"
    FormatFloat := fun f => toString f ++ ".0000000"
    zero := 0 }

/-- A table in which agent G1 holds 2 keys of portal A in capsule "c1" and agent G2 holds
one key of portal A. -/
def sampleDefensive : List DefensiveRow :=
  [⟨"G1", "A", "c1", 2, "Alpha", "POINT(11.0000000 48.0000000)"⟩,
   ⟨"G2", "A", "c9", 1, "Alpha", "POINT(11.0000000 48.0000000)"⟩]

/-! ## Method `Task.Depends` of `model/task.go` -/

/-- The rows of `SELECT dependsOn FROM depends WHERE opID = ? AND taskID = ? ORDER BY
dependsOn`. -/
def dependsRows (t : Task) (s : TaskStore) : List TaskID :=
  ((s.depends.filter (fun r => r.1 == t.opID && r.2.1 == t.ID)).map
    (fun r => r.2.2)).insertionSort (fun a b => a ≤ b)

/-- The call `rows.Scan(&t)` of `Task.Depends`, a function of the Go library: the
destination is the receiver `t`, a pointer to a `Task`, and `database/sql` cannot store a
text column in a `Task`, so that the call returns an error for every row. -/
def scanIntoTask (_row : TaskID) : Option Error :=
  some "unsupported Scan, storing driver.Value type []uint8 into type *model.Task"

/-- The loop `for rows.Next()` of `Task.Depends`: `tt` is declared in the body and never
assigned, the row is scanned into `&t`; a failed scan skips the row, and `tt` is appended
otherwise.  The outcome of the scan is the parameter `scan`. -/
def dependsLoop (scan : TaskID → Option Error) (rows : List TaskID) : List TaskID :=
  rows.foldl (fun tmp row =>
    let tt : TaskID := ""
    match scan row with
    | some _ => tmp
    | none => tmp ++ [tt]) []

/-- Method `Task.Depends`, for any outcome `scan` of the call `rows.Scan(&t)`. -/
def Task.Depends (env : TaskEnv) (scan : TaskID → Option Error) (t : Task) (w : TaskWorld) :
    TaskWorld × List TaskID × Option Error :=
  match texec env (.selectDepends t.opID t.ID) w with
  | (w, some err) => (w, [], some err)
  | (w, none) => (w, dependsLoop scan (dependsRows t w.store), none)

/-! ## Handler `vTeamRoute` of `http/v.go` -/

/-- The functions of packages `model` and `v` that `vTeamRoute` calls and that are not
among the sources; nothing is assumed about them. -/
structure VLayer where
  GetTeamsByVID : Int → Except Error (List TeamID)
  Owner : TeamID → Except Error GoogleID
  VAPIkey : GoogleID → Except Error String
  Sync : TeamID → String → Option Error

/-- A call of one of these functions, with its arguments. -/
inductive VCall where
  /-- Call `model.GetTeamsByVID(vteam)` -/
  | GetTeamsByVID (vteam : Int)
  /-- Call `teamID.Owner()` -/
  | Owner (teamID : TeamID)
  /-- Call `gid.VAPIkey()` -/
  | VAPIkey (gid : GoogleID)
  /-- Call `v.Sync(teamID, key)` -/
  | Sync (teamID : TeamID) (key : String)
deriving DecidableEq, Repr

/-- The loop `for _, teamID := range teams` of `vTeamRoute`, with the map `keys` and the
calls made so far; the error is that of a failed `v.Sync`, which ends the handler.  The
test that guards the lookup is `if key != ""`, as in the source. -/
def vTeamLoop (lib : VLayer) :
    List TeamID → List (String × String) → List VCall → List VCall × Option Error
  | [], _, tr => (tr, none)
  | teamID :: rest, keys, tr =>
    match lib.Owner teamID with
    | .error _ => vTeamLoop lib rest keys (tr ++ [.Owner teamID])
    | .ok gid =>
      if mapGet gid keys != "" then
        match lib.VAPIkey gid with
        | .error _ => vTeamLoop lib rest keys (tr ++ [.Owner teamID, .VAPIkey gid])
        | .ok key =>
          if key == "" then vTeamLoop lib rest keys (tr ++ [.Owner teamID, .VAPIkey gid])
          else
            match lib.Sync teamID key with
            | some err => (tr ++ [.Owner teamID, .VAPIkey gid, .Sync teamID key], some err)
            | none =>
              vTeamLoop lib rest (mapSet gid key keys)
                (tr ++ [.Owner teamID, .VAPIkey gid, .Sync teamID key])
      else
        match lib.Sync teamID (mapGet gid keys) with
        | some err => (tr ++ [.Owner teamID, .Sync teamID (mapGet gid keys)], some err)
        | none =>
          vTeamLoop lib rest keys (tr ++ [.Owner teamID, .Sync teamID (mapGet gid keys)])

/-- Handler `vTeamRoute`: the calls it makes, in order, and its answer. -/
def vTeamRoute (lib : VLayer) (req : Request) : List VCall × Response :=
  let id := mapGet "teamID" req.vars
  if id = "" then ([], .error "V hook called with empty team ID" StatusInternalServerError)
  else
    match ParseInt id with
    | (_, some err) => ([], .error err StatusInternalServerError)
    | (vteam, none) =>
      match lib.GetTeamsByVID vteam with
      | .error err => ([.GetTeamsByVID vteam], .error err StatusInternalServerError)
      | .ok teams =>
        match vTeamLoop lib teams [] [.GetTeamsByVID vteam] with
        | (tr, some err) => (tr, .error err StatusInternalServerError)
        | (tr, none) => (tr, .statusOK)

/-- Whether the call is a key lookup. -/
def VCall.isLookup : VCall → Bool
  | .VAPIkey _ => true
  | _ => false

/-- Whether the call is a sync with a key that is not empty. -/
def VCall.isKeyedSync : VCall → Bool
  | .Sync _ key => key != ""
  | _ => false

/-- The calls of a request in which every owner is found and every sync with the empty key
succeeds: for each team, the owner lookup and the sync with the empty key. -/
def plainSyncs (teams : List TeamID) : List VCall :=
  teams.flatMap (fun t => [.Owner t, .Sync t ""])

/-- V team 7 is linked to teams T1 and T2; the owner G1 of T1 has the V API key "k1", the
owner G2 of T2 has none. -/
def sampleV : VLayer :=
  { GetTeamsByVID := fun v => if v = 7 then .ok ["T1", "T2"] else .ok []
    Owner := fun t => if t = "T1" then .ok "G1" else .ok "G2"
    VAPIkey := fun g => if g = "G1" then .ok "k1" else .ok ""
    Sync := fun _ _ => none }

/-- The hook request for V team 7. -/
def vRequest : Request := { agent := .error "no session", vars := [("teamID", "7")] }

/-! ## Handler `agentTargetRouteOld` of `http/agent.go` -/

/-- A Go slice of strings: the backing array from the first element of the slice on, whose
length is the capacity of the slice, and the length of the slice. -/
structure GoSlice where
  arr : List String
  len : Nat
deriving DecidableEq, Repr

/-- The pieces of a string between the occurrences of a separator byte; `cur` holds the
bytes of the piece being read, last byte first. -/
def splitLoop (sep : Char) : List Char → List Char → List String
  | [], cur => [String.mk cur.reverse]
  | c :: cs, cur =>
    if c == sep then String.mk cur.reverse :: splitLoop sep cs []
    else splitLoop sep cs (c :: cur)

/-- Go `strings.Split(s, sep)` for a separator of one byte: the array is made with
`Count(s, sep) + 1` elements and all of them are in the slice returned. -/
def Split (s : String) (sep : Char) : GoSlice :=
  ⟨splitLoop sep s.toList [], (splitLoop sep s.toList []).length⟩

/-- Go slice expression `s[:n]`; `none` is the run-time panic "slice bounds out of range"
raised when `n` exceeds the capacity. -/
def GoSlice.upTo (s : GoSlice) (n : Nat) : Option GoSlice :=
  if n ≤ s.arr.length then some ⟨s.arr, n⟩ else none

/-- Go index expression `s[i]`; `none` is the run-time panic "index out of range". -/
def GoSlice.index (s : GoSlice) (i : Nat) : Option String :=
  if i < s.len then s.arr[i]? else none

/-- The values `lls[0]` and `lls[1]` that `agentTargetRouteOld` derives from the form value
`ll` by `lls := strings.Split(ll, ",")` and `lls = lls[:2]`; `none` is a run-time panic. -/
def targetLatLon (ll : String) : Option (String × String) :=
  match (Split ll ',').upTo 2 with
  | none => none
  | some lls =>
    match lls.index 0, lls.index 1 with
    | some lat, some lon => some (lat, lon)
    | _, _ => none

/-- The functions that `agentTargetRouteOld` calls and that are not among the sources;
nothing is assumed about them.  `ExecuteTemplate` receives the name of the template and the
fields Name, Lat, Lon, Type and Sender of the template data. -/
structure MessageLayer where
  ToGid : String → Except Error GoogleID
  IngressName : GoogleID → String × Option Error
  ExecuteTemplate :
    GoogleID → String → String → String → String → String → String → Except Error String
  SendMessage : GoogleID → String → Bool × Option Error

/-- Handler `agentTargetRouteOld`; `none` is a run-time panic of the handler. -/
def agentTargetRouteOld (lib : MessageLayer) (req : Request) : Option Response :=
  match req.agent with
  | .error err => some (.error err StatusInternalServerError)
  | .ok gid =>
    match lib.ToGid (mapGet "id" req.vars) with
    | .error err => some (.error err StatusInternalServerError)
    | .ok togid =>
      let portal := mapGet "portal" req.form
      if portal = "" then some (.error "portal net set" StatusNotAcceptable)
      else
        let ll := mapGet "ll" req.form
        if ll = "" then some (.error "ll not set" StatusNotAcceptable)
        else
          match targetLatLon ll with
          | none => none
          | some (lat, lon) =>
            let iname := (lib.IngressName gid).1
            let msg :=
              match lib.ExecuteTemplate gid "target" portal lat lon "ad-hoc target" iname with
              | .ok msg => msg
              | .error _ => "template failed: ad-hoc target @ " ++ ll
            match lib.SendMessage togid msg with
            | (_, some err) => some (.error err StatusInternalServerError)
            | (false, none) =>
              some (.error "message did not send" StatusInternalServerError)
            | (true, none) => some .statusOK

/-- A message layer in which every call succeeds. -/
def idleMessages : MessageLayer :=
  ⟨fun id => .ok id, fun gid => (gid, none), fun _ _ _ _ _ _ _ => .ok "target",
    fun _ _ => (true, none)⟩

/-- A request of agent G1 to send agent G2 the target portal Alpha at the given `ll`. -/
def targetRequest (ll : String) : Request :=
  { agent := .ok "G1", vars := [("id", "G2")], form := [("portal", "Alpha"), ("ll", ll)] }

/-! ## The operation a store call addresses -/

/-- The operation ID that a store call carries: every statement of the draw model is
restricted to one operation by its `WHERE` clause or by the `opID` of the inserted row. -/
def Call.opID : Call → OperationID
  | .countOperation id => id
  | .insertOperation id _ _ _ _ _ => id
  | .updateOperation id _ _ _ => id
  | .setComment id _ => id
  | .touch id _ => id
  | .rename id _ => id
  | .deleteOperation id => id
  | .deleteMarkers id => id
  | .deleteLinks id => id
  | .deletePortals id => id
  | .deleteAnchors id => id
  | .deleteOpkeys id => id
  | .deleteOpteams id => id
  | .selectPortalIDs id => id
  | .selectMarkerIDs id => id
  | .selectLinkIDs id => id
  | .insertPortal id _ => id
  | .insertMarker id _ => id
  | .insertLink id _ => id
  | .insertKey id _ => id
  | .updatePortal id _ => id
  | .updateMarker id _ => id
  | .updateLink id _ => id
  | .deletePortal id _ => id
  | .deleteMarker id _ => id
  | .deleteLink id _ => id
  | .selectOperation id => id
  | .populateTeams id => id
  | .populatePortals id => id
  | .populateMarkers id => id
  | .populateLinks id => id
  | .populateAnchors id => id
  | .populateKeys id => id
  | .populateAssignedOnly id _ => id

/-- The ID and the owner of every stored operation, in the order of the table. -/
def owners (db : DB) : List (OperationID × GoogleID) :=
  db.operation.map (fun r => (r.ID, r.gid))

/-- What the store holds of operation `id`: its rows in table `operation` (name, owner,
color, modified, comment) and its portals, markers, links and key records. -/
def opView (id : OperationID) (db : DB) :
    List OpRow × List Portal × List Marker × List Link × List KeyOnHand :=
  (db.operation.filter (fun r => r.ID == id), rowsOf id db.portal, rowsOf id db.marker,
    rowsOf id db.link, rowsOf id db.opkeys)

/-! ## The calls of the three parts of the update -/

/-- The calls of the portal part of `drawOpUpdateWorker`, marker and link parts apart. -/
def portalCall (id : OperationID) (c : Call) : Prop :=
  c = .selectPortalIDs id ∨ (∃ p, c = .updatePortal id p) ∨ (∃ k, c = .deletePortal id k)

/-- The calls of the marker part of `drawOpUpdateWorker`, the link part apart. -/
def markerCall (id : OperationID) (c : Call) : Prop :=
  c = .selectMarkerIDs id ∨ (∃ m, c = .updateMarker id m) ∨ (∃ k, c = .deleteMarker id k)

/-- The calls of the link part of `drawOpUpdateWorker`. -/
def linkCall (id : OperationID) (c : Call) : Prop :=
  c = .selectLinkIDs id ∨ (∃ l, c = .updateLink id l) ∨ (∃ k, c = .deleteLink id k)

/-- The environment in which exactly the upserts of portal A, of marker M1 and of link L1
of operation X fail, whatever the entity sent under that ID; its store does not cascade. -/
def Env.upsertFailing : Env :=
  ⟨fun _ c =>
    match c with
    | .updatePortal id p => id == "X" && p.ID == "A"
    | .updateMarker id m => id == "X" && m.ID == "M1"
    | .updateLink id l => id == "X" && l.ID == "L1"
    | _ => false,
   false⟩

/-- The full snapshot of operation X: portals A and B, marker M1 on A and link L1. -/
def fullSnapshot : Operation := snapshotX [portalA, portalB] [markerA] [linkAB] ""

/-- The environment in which every call fails except those equal to `c`; its store does
not cascade. -/
def Env.onlyAllowingPlain (c : Call) : Env := ⟨fun _ c1 => c1 != c, false⟩
/-! ## Basic facts about store calls -/

theorem exec_trace (env : Env) (c : Call) (w : World) :
    (exec env c w).1.trace = w.trace ++ [c] := by
  unfold exec; split <;> rfl

theorem exec_notified (env : Env) (c : Call) (w : World) :
    (exec env c w).1.notified = w.notified := by
  unfold exec; split <;> rfl

theorem exec_ok {env : Env} {c : Call} {w : World} (h : env.fails w c = false) :
    exec env c w =
      ({ w with db := c.apply env.cascade w.db, trace := w.trace ++ [c] }, none) := by
  simp [exec, h]

theorem exec_fail {env : Env} {c : Call} {w : World} (h : env.fails w c = true) :
    exec env c w = ({ w with trace := w.trace ++ [c] }, some "store error") := by
  simp [exec, h]

theorem exec_err_db {env : Env} {c : Call} {w : World} {e : Error}
    (h : (exec env c w).2 = some e) : (exec env c w).1.db = w.db := by
  unfold exec at h ⊢; split <;> simp_all

theorem exec_ok_db {env : Env} {c : Call} {w : World}
    (h : (exec env c w).2 = none) : (exec env c w).1.db = c.apply env.cascade w.db := by
  unfold exec at h ⊢; split <;> simp_all

theorem exec_none_iff (env : Env) (c : Call) (w : World) :
    (exec env c w).2 = none ↔ env.fails w c = false := by
  unfold exec; split <;> simp_all

theorem idQuery_not_perEntity {c : Call} (h : c.idQuery = true) : c.perEntity = false := by
  cases c <;> simp [Call.idQuery, Call.perEntity] at h ⊢

/-- A per-entity call or an ID query leaves table `operation` as it is. -/
theorem apply_operation (b : Bool) (c : Call) (db : DB)
    (h : c.perEntity = true ∨ c.idQuery = true) :
    (c.apply b db).operation = db.operation := by
  cases c <;> simp_all [Call.apply, Call.perEntity, Call.idQuery, deletePortalRows]
  split <;> rfl

theorem exec_operation (env : Env) (c : Call) (w : World)
    (h : c.perEntity = true ∨ c.idQuery = true) :
    (exec env c w).1.db.operation = w.db.operation := by
  unfold exec; split
  · rfl
  · exact apply_operation _ _ _ h

/-- An invariant of the loop body is an invariant of the loop. -/
theorem foldl_invariant {σ α : Type} (f : σ → α → σ) (P : σ → Prop)
    (h : ∀ s a, P s → P (f s a)) : ∀ (l : List α) (s : σ), P s → P (l.foldl f s) := by
  intro l
  induction l with
  | nil => intro s hs; exact hs
  | cons a l ih => intro s hs; exact ih (f s a) (h s a hs)

/-! ## Table `operation` is only written by the top-level statements -/

theorem updatePortalStep_operation (env : Env) (op : OperationID) (st : PortalPass)
    (p : Portal) : (updatePortalStep env op st p).w.db.operation = st.w.db.operation := by
  have h := exec_operation env (.updatePortal op p) st.w (Or.inl rfl)
  unfold updatePortalStep
  split <;> simp_all

theorem updateMarkerStep_operation (env : Env) (op : OperationID)
    (pm : List (PortalID × Portal)) (st : World × List (MarkerID × MarkerID)) (m : Marker) :
    (updateMarkerStep env op pm st m).1.db.operation = st.1.db.operation := by
  have h := exec_operation env (.updateMarker op m) st.1 (Or.inl rfl)
  unfold updateMarkerStep
  split
  · rfl
  · split <;> simp_all

theorem updateLinkStep_operation (env : Env) (op : OperationID)
    (pm : List (PortalID × Portal)) (st : World × List (LinkID × LinkID)) (l : Link) :
    (updateLinkStep env op pm st l).1.db.operation = st.1.db.operation := by
  have h := exec_operation env (.updateLink op l) st.1 (Or.inl rfl)
  unfold updateLinkStep
  split
  · rfl
  · split
    · rfl
    · split <;> simp_all

theorem linkPass_operation (env : Env) (o : Operation) (pm : List (PortalID × Portal))
    (w : World) : (linkPass env o pm w).1.db.operation = w.db.operation := by
  have hq := exec_operation env (.selectLinkIDs o.ID) w (Or.inr rfl)
  unfold linkPass
  split
  · simp_all
  · rename_i w1 heq
    have hw : w1.db.operation = w.db.operation := by simp_all
    refine foldl_invariant (deleteLinkStep env o.ID)
      (fun x : World => x.db.operation = w.db.operation) ?_ _ _ ?_
    · intro s k hs
      rw [← hs]
      exact exec_operation env (.deleteLink o.ID k) s (Or.inl rfl)
    · refine foldl_invariant (updateLinkStep env o.ID pm)
        (fun x : World × List (LinkID × LinkID) => x.1.db.operation = w.db.operation) ?_ _ _ ?_
      · intro s l hs
        rw [← hs]
        exact updateLinkStep_operation env o.ID pm s l
      · exact hw

theorem markerPass_operation (env : Env) (o : Operation) (pm : List (PortalID × Portal))
    (w : World) : (markerPass env o pm w).1.db.operation = w.db.operation := by
  have hq := exec_operation env (.selectMarkerIDs o.ID) w (Or.inr rfl)
  unfold markerPass
  split
  · simp_all
  · rename_i w1 heq
    have hw : w1.db.operation = w.db.operation := by simp_all
    rw [linkPass_operation]
    refine foldl_invariant (deleteMarkerStep env o.ID)
      (fun x : World => x.db.operation = w.db.operation) ?_ _ _ ?_
    · intro s k hs
      rw [← hs]
      exact exec_operation env (.deleteMarker o.ID k) s (Or.inl rfl)
    · refine foldl_invariant (updateMarkerStep env o.ID pm)
        (fun x : World × List (MarkerID × MarkerID) => x.1.db.operation = w.db.operation) ?_ _ _ ?_
      · intro s m hs
        rw [← hs]
        exact updateMarkerStep_operation env o.ID pm s m
      · exact hw

theorem portalPass_operation (env : Env) (o : Operation) (w : World) :
    (portalPass env o w).1.db.operation = w.db.operation := by
  have hq := exec_operation env (.selectPortalIDs o.ID) w (Or.inr rfl)
  unfold portalPass
  split
  · simp_all
  · rename_i w1 heq
    have hw : w1.db.operation = w.db.operation := by simp_all
    rw [markerPass_operation]
    refine foldl_invariant (deletePortalStep env o.ID)
      (fun x : World => x.db.operation = w.db.operation) ?_ _ _ ?_
    · intro s k hs
      rw [← hs]
      exact exec_operation env (.deletePortal o.ID k) s (Or.inl rfl)
    · refine foldl_invariant (updatePortalStep env o.ID)
        (fun x : PortalPass => x.w.db.operation = w.db.operation) ?_ _ _ ?_
      · intro s p hs
        rw [← hs]
        exact updatePortalStep_operation env o.ID s p
      · exact hw

/-- The worker writes table `operation` with its first statement only. -/
theorem drawOpUpdateWorker_operation (env : Env) (o : Operation) (w : World) :
    (drawOpUpdateWorker env o w).1.db.operation =
      (exec env (.updateOperation o.ID o.Name o.Color (MakeNullString o.Comment)) w).1.db.operation := by
  unfold drawOpUpdateWorker
  split
  · simp_all
  · rename_i w1 heq
    rw [portalPass_operation]
    simp_all

theorem drawOpUpdateWorker_update_ok {env : Env} {o : Operation} {w : World}
    (h : (drawOpUpdateWorker env o w).2 = none) :
    env.fails w (.updateOperation o.ID o.Name o.Color (MakeNullString o.Comment)) = false := by
  cases hf : env.fails w (.updateOperation o.ID o.Name o.Color (MakeNullString o.Comment))
  · rfl
  · simp [drawOpUpdateWorker, exec_fail hf] at h

/-! ## C9: the top-level scalar fields -/

/-- C9: after a successful `drawOpUpdateWorker` the rows of table `operation` are the
former rows with name, color and comment of the snapshot's operation overwritten by the
snapshot's values (the comment is NULL when the snapshot's comment is empty), whatever was
stored and whatever the update mode; the owner column of every row is unchanged. -/
theorem drawOpUpdateWorker_overwrites_scalars (env : Env) (o : Operation) (w : World)
    (h : (drawOpUpdateWorker env o w).2 = none) :
    (drawOpUpdateWorker env o w).1.db.operation =
        w.db.operation.map (fun r =>
          if r.ID == o.ID then
            { r with name := o.Name, color := o.Color,
                     comment := if o.Comment = "" then none else some o.Comment }
          else r) ∧
    (∀ r ∈ (drawOpUpdateWorker env o w).1.db.operation, r.ID = o.ID →
        r.name = o.Name ∧ r.color = o.Color ∧
        r.comment = if o.Comment = "" then none else some o.Comment) ∧
    (drawOpUpdateWorker env o w).1.db.operation.map (fun r => (r.ID, r.gid)) =
        w.db.operation.map (fun r => (r.ID, r.gid)) := by
  have hop : (drawOpUpdateWorker env o w).1.db.operation =
      w.db.operation.map (fun r =>
        if r.ID == o.ID then
          { r with name := o.Name, color := o.Color,
                   comment := if o.Comment = "" then none else some o.Comment }
        else r) := by
    rw [drawOpUpdateWorker_operation, exec_ok (drawOpUpdateWorker_update_ok h)]
    simp [Call.apply, MakeNullString]
  refine ⟨hop, ?_, ?_⟩
  · intro r hr hid
    rw [hop] at hr
    obtain ⟨r0, -, rfl⟩ := List.mem_map.mp hr
    by_cases h0 : r0.ID = o.ID
    · simp [h0]
    · simp [h0] at hid
  · rw [hop, List.map_map]
    apply List.map_congr_left
    intro r _
    by_cases h0 : r.ID = o.ID <;> simp [h0]

/-- Witness for C9: an active-mode snapshot with a comment, on the sample store. -/
theorem drawOpUpdateWorker_overwrites_scalars_witness :
    (drawOpUpdateWorker (Env.reliable true)
        { snapshotX [portalA] [] [] "active" with Comment := "go" } sampleWorld).2 = none ∧
    (drawOpUpdateWorker (Env.reliable true)
        { snapshotX [portalA] [] [] "active" with Comment := "go" } sampleWorld).1.db.operation =
      [⟨"X", "plan v2", "G0", "groupb", 5, some "go"⟩, ⟨"Y", "other", "G5", "groupa", 3, none⟩] :=
  ⟨by decide,
   (drawOpUpdateWorker_overwrites_scalars (Env.reliable true)
      { snapshotX [portalA] [] [] "active" with Comment := "go" } sampleWorld (by decide)).1.trans
     (by decide)⟩

/-! ## C4: create-once -/

/-- C4: `DrawInsert` with a snapshot whose ID is already in table `operation` returns an
error and mutates nothing: the store is as before, and the only store call issued is the
count query. -/
theorem DrawInsert_existing_rejected (env : Env) (now : Nat) (o : Operation) (gid : GoogleID)
    (w : World) (h : ∃ r ∈ w.db.operation, r.ID = o.ID) :
    (DrawInsert env now (.ok o) gid w).2 ≠ none ∧
    (DrawInsert env now (.ok o) gid w).1.db = w.db ∧
    (DrawInsert env now (.ok o) gid w).1.trace = w.trace ++ [.countOperation o.ID] ∧
    (DrawInsert env now (.ok o) gid w).1.notified = w.notified := by
  obtain ⟨r, hr, hid⟩ := h
  have hne : (w.db.operation.filter (fun r => r.ID == o.ID)).length ≠ 0 := by
    intro h0
    have hnil := List.length_eq_zero.mp h0
    have hmem : r ∈ w.db.operation.filter (fun r => r.ID == o.ID) :=
      List.mem_filter.mpr ⟨hr, by simp [hid]⟩
    rw [hnil] at hmem
    exact absurd hmem (List.not_mem_nil r)
  cases hf : env.fails w (.countOperation o.ID)
  · simp [DrawInsert, Unmarshal, exec_ok hf, Call.apply, hne]
  · simp [DrawInsert, Unmarshal, exec_fail hf]

/-- Witness for C4: a second creation of operation X on the sample store. -/
theorem DrawInsert_existing_rejected_witness :
    (∃ r ∈ sampleWorld.db.operation, r.ID = (snapshotX [portalB] [] [] "").ID) ∧
    (DrawInsert (Env.reliable false) 7 (.ok (snapshotX [portalB] [] [] "")) "G7" sampleWorld).2
      ≠ none ∧
    (DrawInsert (Env.reliable false) 7 (.ok (snapshotX [portalB] [] [] "")) "G7"
      sampleWorld).1.db = sampleWorld.db :=
  ⟨⟨⟨"X", "plan", "G0", "main", 5, none⟩, by decide, by decide⟩,
   (DrawInsert_existing_rejected (Env.reliable false) 7 (snapshotX [portalB] [] [] "") "G7"
      sampleWorld ⟨⟨"X", "plan", "G0", "main", 5, none⟩, by decide, by decide⟩).1,
   (DrawInsert_existing_rejected (Env.reliable false) 7 (snapshotX [portalB] [] [] "") "G7"
      sampleWorld ⟨⟨"X", "plan", "G0", "main", 5, none⟩, by decide, by decide⟩).2.1⟩

/-! ## C5: the ownership gate -/

/-- C5: for an agent that is not the owner of the operation, `Operation.Delete` and
`OperationID.Rename` return the error "permission denied" and leave the whole state as it
was (no store call is issued), whatever the rest of the store says about the agent. -/
theorem owner_gate (env : Env) (o : Operation) (gid : GoogleID) (name : String) (w : World)
    (h : OperationID.IsOwner o.ID gid w.db = false) :
    o.Delete env gid w = (w, some "permission denied") ∧
    OperationID.Rename env o.ID gid name w = (w, some "permission denied") := by
  simp [Operation.Delete, OperationID.Rename, h]

/-- Witness for C5: agent G3 has write access to operation X through team T1 and is not
its owner. -/
theorem owner_gate_witness :
    (snapshotX [] [] [] "").WriteAccess "G3" sampleWorld.db = true ∧
    OperationID.IsOwner (snapshotX [] [] [] "").ID "G3" sampleWorld.db = false ∧
    (snapshotX [] [] [] "").Delete (Env.reliable true) "G3" sampleWorld =
      (sampleWorld, some "permission denied") ∧
    OperationID.Rename (Env.reliable true) (snapshotX [] [] [] "").ID "G3" "mine" sampleWorld =
      (sampleWorld, some "permission denied") :=
  ⟨by decide, by decide,
   owner_gate (Env.reliable true) (snapshotX [] [] [] "") "G3" "mine" sampleWorld (by decide)⟩

/-! ## C7: the guards of `DrawUpdate` -/

/-- C7: when the body does not parse, or its ID differs from the ID given by the caller,
or the agent has no write access, `DrawUpdate` returns an error and the state is exactly
as before: no store call, no timestamp stamp, no change notification. -/
theorem DrawUpdate_guarded (env : Env) (now : Nat) (opID : OperationID) (op : RawMessage)
    (gid : GoogleID) (w : World)
    (h : ∀ o, Unmarshal op = .ok o → opID ≠ o.ID ∨ o.WriteAccess gid w.db = false) :
    (DrawUpdate env now opID op gid w).2 ≠ none ∧
    (DrawUpdate env now opID op gid w).1 = w := by
  cases op with
  | error e => simp [DrawUpdate, Unmarshal]
  | ok o =>
    rcases h o rfl with hid | hacc
    · simp [DrawUpdate, Unmarshal, hid]
    · have hacc2 : Operation.WriteAccess { o with Teams := [] } gid w.db = false := hacc
      by_cases hid : opID = o.ID
      · simp [DrawUpdate, Unmarshal, hid, hacc2]
      · simp [DrawUpdate, Unmarshal, hid]

/-- Witness for C7: agent G4 has no write access to operation X of the sample store. -/
theorem DrawUpdate_guarded_witness :
    (∀ o, Unmarshal (.ok (snapshotX [portalA] [] [] "")) = .ok o →
        "X" ≠ o.ID ∨ o.WriteAccess "G4" sampleWorld.db = false) ∧
    (DrawUpdate (Env.reliable true) 9 "X" (.ok (snapshotX [portalA] [] [] "")) "G4"
        sampleWorld).2 ≠ none ∧
    (DrawUpdate (Env.reliable true) 9 "X" (.ok (snapshotX [portalA] [] [] "")) "G4"
        sampleWorld).1 = sampleWorld :=
  ⟨fun o ho => by
      have : snapshotX [portalA] [] [] "" = o := by
        simpa [Unmarshal] using ho
      subst this
      exact Or.inr (by decide),
   DrawUpdate_guarded (Env.reliable true) 9 "X" (.ok (snapshotX [portalA] [] [] "")) "G4"
      sampleWorld (fun o ho => by
        have : snapshotX [portalA] [] [] "" = o := by
          simpa [Unmarshal] using ho
        subst this
        exact Or.inr (by decide))⟩

/-! ## C3: the update mode -/

/-- C3: `drawOpUpdateWorker` does not depend on the snapshot's mode (the mode only guards
a log line, and no helper is given it): an update in any mode is the update in design mode.
On the sample store, where link L1 is assigned to G1 and completed, the active-mode update
that carries L1 with the assignee cleared leaves L1 stored with the cleared assignee and
the incoming state, as the design-mode update does. -/
theorem drawOpUpdateWorker_ignores_mode :
    (∀ (env : Env) (o : Operation) (w : World) (m : String),
        drawOpUpdateWorker env { o with UpdateMode := m } w = drawOpUpdateWorker env o w) ∧
    (sampleWorld.db.link = [("X", linkAB)] ∧ linkAB.AssignedTo = "G1" ∧
      linkAB.State = "completed") ∧
    (drawOpUpdateWorker (Env.reliable true)
        (snapshotX [portalA, portalB] [] [linkABCleared] "active") sampleWorld).2 = none ∧
    (drawOpUpdateWorker (Env.reliable true)
        (snapshotX [portalA, portalB] [] [linkABCleared] "active") sampleWorld).1.db.link =
      [("X", { linkAB with AssignedTo := "", State := "pending" })] ∧
    (drawOpUpdateWorker (Env.reliable true)
        (snapshotX [portalA, portalB] [] [linkABCleared] "design") sampleWorld).1.db.link =
      [("X", { linkAB with AssignedTo := "", State := "pending" })] :=
  ⟨fun _ _ _ _ => rfl, by decide, by decide, by decide, by decide⟩

/-! ## C10: the modified timestamp -/

/-- Supporting fact for C10: `Operation.SetInfo` reports success also when its timestamp
stamp fails, and then the comment is changed while `modified` keeps its old value. -/
theorem SetInfo_swallows_stamp_error :
    Operation.SetInfo ⟨fun _ c => c == .touch "X" 9, true⟩ 9 (snapshotX [] [] [] "") "note" "G0"
        sampleWorld =
      ({ db := { sampleDB with
                  operation := [⟨"X", "plan", "G0", "main", 5, some "note"⟩,
                                ⟨"Y", "other", "G5", "groupa", 3, none⟩] },
         trace := [.setComment "X" "note", .touch "X" 9],
         notified := [] }, none) := by
  decide

/-- C10: `OperationID.Rename` never writes the `modified` column: after every call the
timestamps of table `operation` are what they were.  On the sample store the owner's
rename of operation X succeeds and changes the name, and `modified` keeps its old value 5
whatever the current time is. -/
theorem Rename_leaves_modified_stale :
    (∀ (env : Env) (opID : OperationID) (gid : GoogleID) (name : String) (w : World),
        (OperationID.Rename env opID gid name w).1.db.operation.map (fun r => r.modified) =
          w.db.operation.map (fun r => r.modified)) ∧
    (OperationID.Rename (Env.reliable true) "X" "G0" "renamed" sampleWorld).2 = none ∧
    (OperationID.Rename (Env.reliable true) "X" "G0" "renamed" sampleWorld).1.db.operation =
      [⟨"X", "renamed", "G0", "main", 5, none⟩, ⟨"Y", "other", "G5", "groupa", 3, none⟩] := by
  refine ⟨?_, by decide, by decide⟩
  intro env opID gid name w
  unfold OperationID.Rename
  split
  · rfl
  · split
    · rfl
    · cases hf : env.fails w (.rename opID name)
      · simp only [exec_ok hf, Call.apply, List.map_map]
        apply List.map_congr_left
        intro r _
        by_cases h0 : r.ID = opID <;> simp [h0]
      · simp [exec_fail hf]

/-! ## Go maps -/

theorem mapHas_iff {α : Type} (k : String) (m : List (String × α)) :
    mapHas k m = true ↔ k ∈ mapKeys m := by
  simp only [mapHas, mapKeys, List.any_eq_true, List.mem_map, beq_iff_eq]

theorem mem_mapKeys_mapSet {α : Type} (k k1 : String) (v : α) (m : List (String × α)) :
    k ∈ mapKeys (mapSet k1 v m) ↔ k = k1 ∨ k ∈ mapKeys m := by
  simp only [mapKeys, mapSet, List.map_cons, List.mem_cons, List.mem_map, List.mem_filter,
    bne_iff_ne, ne_eq]
  constructor
  · rintro (h | ⟨e, ⟨he, -⟩, rfl⟩)
    · exact Or.inl h
    · exact Or.inr ⟨e, he, rfl⟩
  · rintro (h | ⟨e, he, rfl⟩)
    · exact Or.inl h
    · by_cases h1 : e.1 = k1
      · exact Or.inl h1
      · exact Or.inr ⟨e, ⟨he, h1⟩, rfl⟩

theorem mem_mapKeys_mapDel {α : Type} (k k1 : String) (m : List (String × α)) :
    k ∈ mapKeys (mapDel k1 m) ↔ k ≠ k1 ∧ k ∈ mapKeys m := by
  simp only [mapKeys, mapDel, List.mem_map, List.mem_filter, bne_iff_ne, ne_eq]
  constructor
  · rintro ⟨e, ⟨he, h1⟩, rfl⟩
    exact ⟨h1, e, he, rfl⟩
  · rintro ⟨h1, e, he, rfl⟩
    exact ⟨e, ⟨he, h1⟩, rfl⟩

theorem mem_mapKeys_stash_aux (k : String) (rows : List String) :
    ∀ m : List (String × String),
      k ∈ mapKeys (rows.foldl (fun m id => mapSet id id m) m) ↔ k ∈ rows ∨ k ∈ mapKeys m := by
  induction rows with
  | nil => intro m; simp
  | cons r rows ih =>
    intro m
    rw [List.foldl_cons, ih, mem_mapKeys_mapSet, List.mem_cons]
    tauto

theorem mem_mapKeys_stash (k : String) (rows : List String) :
    k ∈ mapKeys (stash rows) ↔ k ∈ rows := by
  unfold stash
  rw [mem_mapKeys_stash_aux]
  simp [mapKeys]

/-! ## The store calls of the update loops -/

theorem replay_append (env : Env) (a b : List Call) (w : World) :
    replay env (a ++ b) w = replay env b (replay env a w) := by
  simp [replay, List.foldl_append]

theorem replay_cons (env : Env) (c : Call) (cs : List Call) (w : World) :
    replay env (c :: cs) w = replay env cs (exec env c w).1 := rfl

theorem replay_nil (env : Env) (w : World) : replay env [] w = w := rfl

theorem replay_trace (env : Env) (cs : List Call) :
    ∀ w : World, (replay env cs w).trace = w.trace ++ cs := by
  induction cs with
  | nil => intro w; simp [replay_nil]
  | cons c cs ih => intro w; rw [replay_cons, ih, exec_trace]; simp

/-- What every call of a list preserves is preserved by issuing the list. -/
theorem replay_invariant (env : Env) (P : World → Prop) (cs : List Call)
    (h : ∀ w c, c ∈ cs → P w → P (exec env c w).1) : ∀ w : World, P w → P (replay env cs w) := by
  induction cs with
  | nil => intro w hw; exact hw
  | cons c cs ih =>
    intro w hw
    rw [replay_cons]
    exact ih (fun w1 c1 hc => h w1 c1 (List.mem_cons_of_mem _ hc)) _
      (h w c (List.mem_cons_self _ _) hw)

theorem updatePortalStep_w (env : Env) (op : OperationID) (st : PortalPass) (p : Portal) :
    (updatePortalStep env op st p).w = (exec env (.updatePortal op p) st.w).1 := by
  unfold updatePortalStep
  split <;> simp_all

theorem updatePortalStep_portalMap (env : Env) (op : OperationID) (st : PortalPass)
    (p : Portal) :
    (updatePortalStep env op st p).portalMap = mapSet p.ID p st.portalMap := by
  unfold updatePortalStep
  split <;> rfl

theorem portalLoop_replay (env : Env) (op : OperationID) (ps : List Portal) :
    ∀ st : PortalPass,
      (ps.foldl (updatePortalStep env op) st).w =
        replay env (ps.map (.updatePortal op)) st.w := by
  induction ps with
  | nil => intro st; rfl
  | cons p ps ih =>
    intro st
    rw [List.foldl_cons, ih, updatePortalStep_w]
    rfl

theorem portalLoop_portalMap (env : Env) (op : OperationID) (k : PortalID)
    (ps : List Portal) :
    ∀ st : PortalPass,
      k ∈ mapKeys (ps.foldl (updatePortalStep env op) st).portalMap ↔
        k ∈ ps.map Portal.ID ∨ k ∈ mapKeys st.portalMap := by
  induction ps with
  | nil => intro st; simp
  | cons p ps ih =>
    intro st
    rw [List.foldl_cons, ih, updatePortalStep_portalMap, mem_mapKeys_mapSet]
    simp only [List.map_cons, List.mem_cons]
    tauto

theorem updateMarkerStep_w (env : Env) (op : OperationID)
    (pm : List (PortalID × Portal)) (st : World × List (MarkerID × MarkerID)) (m : Marker) :
    (updateMarkerStep env op pm st m).1 =
      if mapHas m.PortalID pm then (exec env (.updateMarker op m) st.1).1 else st.1 := by
  unfold updateMarkerStep
  cases hv : mapHas m.PortalID pm
  · simp
  · simp only [Bool.not_true, Bool.false_eq_true, if_false, if_true]
    split <;> simp_all

theorem markerLoop_replay (env : Env) (op : OperationID) (pm : List (PortalID × Portal))
    (ms : List Marker) :
    ∀ st : World × List (MarkerID × MarkerID),
      (ms.foldl (updateMarkerStep env op pm) st).1 =
        replay env ((ms.filter (fun m => mapHas m.PortalID pm)).map (.updateMarker op)) st.1 := by
  induction ms with
  | nil => intro st; rfl
  | cons m ms ih =>
    intro st
    rw [List.foldl_cons, ih, updateMarkerStep_w]
    cases hv : mapHas m.PortalID pm
    · simp [List.filter_cons, hv]
    · simp [List.filter_cons, hv, replay_cons]

theorem updateLinkStep_w (env : Env) (op : OperationID)
    (pm : List (PortalID × Portal)) (st : World × List (LinkID × LinkID)) (l : Link) :
    (updateLinkStep env op pm st l).1 =
      if mapHas l.From pm && mapHas l.To pm then (exec env (.updateLink op l) st.1).1
      else st.1 := by
  unfold updateLinkStep
  cases hv : mapHas l.From pm
  · simp
  · cases hv2 : mapHas l.To pm
    · simp
    · simp only [Bool.not_true, Bool.false_eq_true, if_false, Bool.and_self, if_true]
      split <;> simp_all

theorem linkLoop_replay (env : Env) (op : OperationID) (pm : List (PortalID × Portal))
    (ls : List Link) :
    ∀ st : World × List (LinkID × LinkID),
      (ls.foldl (updateLinkStep env op pm) st).1 =
        replay env
          ((ls.filter (fun l => mapHas l.From pm && mapHas l.To pm)).map (.updateLink op))
          st.1 := by
  induction ls with
  | nil => intro st; rfl
  | cons l ls ih =>
    intro st
    rw [List.foldl_cons, ih, updateLinkStep_w]
    cases hv : (mapHas l.From pm && mapHas l.To pm)
    · simp [List.filter_cons, hv]
    · simp [List.filter_cons, hv, replay_cons]

theorem cleanup_replay (env : Env) (mk : String → Call) (ks : List String) (w : World) :
    ks.foldl (fun w k => (exec env (mk k) w).1) w = replay env (ks.map mk) w := by
  simp [replay, List.foldl_map]

theorem deleteLoop_replay_portal (env : Env) (op : OperationID) (ks : List PortalID)
    (w : World) :
    ks.foldl (deletePortalStep env op) w = replay env (ks.map (.deletePortal op)) w :=
  cleanup_replay env (.deletePortal op) ks w

theorem deleteLoop_replay_marker (env : Env) (op : OperationID) (ks : List MarkerID)
    (w : World) :
    ks.foldl (deleteMarkerStep env op) w = replay env (ks.map (.deleteMarker op)) w :=
  cleanup_replay env (.deleteMarker op) ks w

theorem deleteLoop_replay_link (env : Env) (op : OperationID) (ks : List LinkID)
    (w : World) :
    ks.foldl (deleteLinkStep env op) w = replay env (ks.map (.deleteLink op)) w :=
  cleanup_replay env (.deleteLink op) ks w

theorem exec_fst_of_eq {env : Env} {c : Call} {w w1 : World} {r : Option Error}
    (h : exec env c w = (w1, r)) : w1 = replay env [c] w := by
  rw [replay_cons, replay_nil, h]

/-- The calls of the link part: all of them are calls of the update, and when the part
returns no error every link with both portals listed has been upserted. -/
theorem linkPass_calls (env : Env) (o : Operation) (pm : List (PortalID × Portal))
    (w : World) (hpm : ∀ k, mapHas k pm = true ↔ k ∈ o.OpPortals.map Portal.ID) :
    ∃ ext, (linkPass env o pm w).1 = replay env ext w ∧
      (∀ c ∈ ext, updateCall o c) ∧
      ((linkPass env o pm w).2 = none →
        ∀ l ∈ o.Links, l.From ∈ o.OpPortals.map Portal.ID →
          l.To ∈ o.OpPortals.map Portal.ID → Call.updateLink o.ID l ∈ ext) := by
  unfold linkPass
  split
  · rename_i w1 err heq
    refine ⟨[.selectLinkIDs o.ID], exec_fst_of_eq heq, ?_, by simp⟩
    intro c hc
    simp only [List.mem_singleton] at hc
    subst hc
    simp [updateCall]
  · rename_i w1 heq
    refine ⟨[.selectLinkIDs o.ID] ++
      (o.Links.filter (fun l => mapHas l.From pm && mapHas l.To pm)).map (.updateLink o.ID) ++
      (mapKeys (o.Links.foldl (updateLinkStep env o.ID pm)
        (w1, stash (storedLinkIDs o.ID w1.db))).2).map (.deleteLink o.ID), ?_, ?_, ?_⟩
    · have hw1 := exec_fst_of_eq heq
      simp only [deleteLoop_replay_link, linkLoop_replay, replay_append]
      rw [← hw1]
    · intro c hc
      simp only [List.mem_append, List.mem_singleton, List.mem_map, List.mem_filter,
        Bool.and_eq_true] at hc
      rcases hc with (rfl | ⟨l, ⟨hl, h1, h2⟩, rfl⟩) | ⟨k, -, rfl⟩
      · simp [updateCall]
      · have h1' := (hpm _).mp h1
        have h2' := (hpm _).mp h2
        unfold updateCall
        exact Or.inr (Or.inr (Or.inr (Or.inr (Or.inr (Or.inr (Or.inl ⟨l, hl, h1', h2', rfl⟩))))))
      · unfold updateCall
        exact Or.inr (Or.inr (Or.inr (Or.inr (Or.inr (Or.inr (Or.inr (Or.inr (Or.inr ⟨k, rfl⟩))))))))
    · intro _ l hl h1 h2
      simp only [List.mem_append, List.mem_singleton, List.mem_map, List.mem_filter,
        Bool.and_eq_true]
      exact Or.inl (Or.inr ⟨l, ⟨hl, (hpm _).mpr h1, (hpm _).mpr h2⟩, rfl⟩)

/-- The calls of the marker part and the link part that follows it. -/
theorem markerPass_calls (env : Env) (o : Operation) (pm : List (PortalID × Portal))
    (w : World) (hpm : ∀ k, mapHas k pm = true ↔ k ∈ o.OpPortals.map Portal.ID) :
    ∃ ext, (markerPass env o pm w).1 = replay env ext w ∧
      (∀ c ∈ ext, updateCall o c) ∧
      ((markerPass env o pm w).2 = none →
        (∀ m ∈ o.Markers, m.PortalID ∈ o.OpPortals.map Portal.ID →
          Call.updateMarker o.ID m ∈ ext) ∧
        (∀ l ∈ o.Links, l.From ∈ o.OpPortals.map Portal.ID →
          l.To ∈ o.OpPortals.map Portal.ID → Call.updateLink o.ID l ∈ ext)) := by
  unfold markerPass
  split
  · rename_i w1 err heq
    refine ⟨[.selectMarkerIDs o.ID], exec_fst_of_eq heq, ?_, by simp⟩
    intro c hc
    simp only [List.mem_singleton] at hc
    subst hc
    simp [updateCall]
  · rename_i w1 heq
    obtain ⟨extL, hL1, hL2, hL3⟩ := linkPass_calls env o pm
      ((mapKeys (o.Markers.foldl (updateMarkerStep env o.ID pm)
          (w1, stash (storedMarkerIDs o.ID w1.db))).2).foldl (deleteMarkerStep env o.ID)
        (o.Markers.foldl (updateMarkerStep env o.ID pm)
          (w1, stash (storedMarkerIDs o.ID w1.db))).1) hpm
    refine ⟨[.selectMarkerIDs o.ID] ++
      (o.Markers.filter (fun m => mapHas m.PortalID pm)).map (.updateMarker o.ID) ++
      (mapKeys (o.Markers.foldl (updateMarkerStep env o.ID pm)
        (w1, stash (storedMarkerIDs o.ID w1.db))).2).map (.deleteMarker o.ID) ++ extL,
      ?_, ?_, ?_⟩
    · have hw1 := exec_fst_of_eq heq
      rw [hL1]
      simp only [deleteLoop_replay_marker, markerLoop_replay, replay_append]
      rw [← hw1]
    · intro c hc
      simp only [List.mem_append, List.mem_singleton, List.mem_map, List.mem_filter] at hc
      rcases hc with ((rfl | ⟨m, ⟨hm, h1⟩, rfl⟩) | ⟨k, -, rfl⟩) | hc
      · simp [updateCall]
      · unfold updateCall
        exact Or.inr (Or.inr (Or.inr (Or.inr (Or.inr (Or.inl ⟨m, hm, (hpm _).mp h1, rfl⟩)))))
      · unfold updateCall
        exact Or.inr (Or.inr (Or.inr (Or.inr (Or.inr (Or.inr (Or.inr (Or.inr (Or.inl ⟨k, rfl⟩))))))))
      · exact hL2 c hc
    · intro hnone
      refine ⟨?_, ?_⟩
      · intro m hm h1
        simp only [List.mem_append, List.mem_singleton, List.mem_map, List.mem_filter]
        exact Or.inl (Or.inl (Or.inr ⟨m, ⟨hm, (hpm _).mpr h1⟩, rfl⟩))
      · intro l hl h1 h2
        exact List.mem_append_right _ (hL3 hnone l hl h1 h2)

/-- The calls of the portal part and the parts that follow it. -/
theorem portalPass_calls (env : Env) (o : Operation) (w : World) :
    ∃ ext, (portalPass env o w).1 = replay env ext w ∧
      (∀ c ∈ ext, updateCall o c) ∧
      ((portalPass env o w).2 = none →
        (∀ p ∈ o.OpPortals, Call.updatePortal o.ID p ∈ ext) ∧
        (∀ m ∈ o.Markers, m.PortalID ∈ o.OpPortals.map Portal.ID →
          Call.updateMarker o.ID m ∈ ext) ∧
        (∀ l ∈ o.Links, l.From ∈ o.OpPortals.map Portal.ID →
          l.To ∈ o.OpPortals.map Portal.ID → Call.updateLink o.ID l ∈ ext)) := by
  unfold portalPass
  split
  · rename_i w1 err heq
    refine ⟨[.selectPortalIDs o.ID], exec_fst_of_eq heq, ?_, by simp⟩
    intro c hc
    simp only [List.mem_singleton] at hc
    subst hc
    simp [updateCall]
  · rename_i w1 heq
    have hpm : ∀ k, mapHas k (o.OpPortals.foldl (updatePortalStep env o.ID)
        ⟨w1, [], stash (storedPortalIDs o.ID w1.db)⟩).portalMap = true ↔
        k ∈ o.OpPortals.map Portal.ID := by
      intro k
      rw [mapHas_iff, portalLoop_portalMap]
      simp [mapKeys]
    obtain ⟨extM, hM1, hM2, hM3⟩ := markerPass_calls env o
      (o.OpPortals.foldl (updatePortalStep env o.ID)
        ⟨w1, [], stash (storedPortalIDs o.ID w1.db)⟩).portalMap
      ((mapKeys (o.OpPortals.foldl (updatePortalStep env o.ID)
          ⟨w1, [], stash (storedPortalIDs o.ID w1.db)⟩).curPortals).foldl
        (deletePortalStep env o.ID)
        (o.OpPortals.foldl (updatePortalStep env o.ID)
          ⟨w1, [], stash (storedPortalIDs o.ID w1.db)⟩).w) hpm
    refine ⟨[.selectPortalIDs o.ID] ++ o.OpPortals.map (.updatePortal o.ID) ++
      (mapKeys (o.OpPortals.foldl (updatePortalStep env o.ID)
        ⟨w1, [], stash (storedPortalIDs o.ID w1.db)⟩).curPortals).map (.deletePortal o.ID) ++
      extM, ?_, ?_, ?_⟩
    · have hw1 := exec_fst_of_eq heq
      rw [hM1]
      simp only [deleteLoop_replay_portal, portalLoop_replay, replay_append]
      rw [← hw1]
    · intro c hc
      simp only [List.mem_append, List.mem_singleton, List.mem_map] at hc
      rcases hc with ((rfl | ⟨p, hp, rfl⟩) | ⟨k, -, rfl⟩) | hc
      · simp [updateCall]
      · unfold updateCall
        exact Or.inr (Or.inr (Or.inr (Or.inr (Or.inl ⟨p, hp, rfl⟩))))
      · unfold updateCall
        exact Or.inr (Or.inr (Or.inr (Or.inr (Or.inr (Or.inr (Or.inr (Or.inl ⟨k, rfl⟩)))))))
      · exact hM2 c hc
    · intro hnone
      refine ⟨?_, ?_, ?_⟩
      · intro p hp
        simp only [List.mem_append, List.mem_singleton, List.mem_map]
        exact Or.inl (Or.inl (Or.inr ⟨p, hp, rfl⟩))
      · intro m hm h1
        exact List.mem_append_right _ ((hM3 hnone).1 m hm h1)
      · intro l hl h1 h2
        exact List.mem_append_right _ ((hM3 hnone).2 l hl h1 h2)

/-- The calls of `drawOpUpdateWorker`. -/
theorem drawOpUpdateWorker_calls (env : Env) (o : Operation) (w : World) :
    ∃ ext, (drawOpUpdateWorker env o w).1 = replay env ext w ∧
      (∀ c ∈ ext, updateCall o c) ∧
      ((drawOpUpdateWorker env o w).2 = none →
        (∀ p ∈ o.OpPortals, Call.updatePortal o.ID p ∈ ext) ∧
        (∀ m ∈ o.Markers, m.PortalID ∈ o.OpPortals.map Portal.ID →
          Call.updateMarker o.ID m ∈ ext) ∧
        (∀ l ∈ o.Links, l.From ∈ o.OpPortals.map Portal.ID →
          l.To ∈ o.OpPortals.map Portal.ID → Call.updateLink o.ID l ∈ ext)) := by
  unfold drawOpUpdateWorker
  split
  · rename_i w1 err heq
    refine ⟨[.updateOperation o.ID o.Name o.Color (MakeNullString o.Comment)],
      exec_fst_of_eq heq, ?_, by simp⟩
    intro c hc
    simp only [List.mem_singleton] at hc
    subst hc
    simp [updateCall]
  · rename_i w1 heq
    obtain ⟨extP, hP1, hP2, hP3⟩ := portalPass_calls env o w1
    refine ⟨[.updateOperation o.ID o.Name o.Color (MakeNullString o.Comment)] ++ extP,
      ?_, ?_, ?_⟩
    · rw [hP1, replay_append, ← exec_fst_of_eq heq]
    · intro c hc
      simp only [List.mem_append, List.mem_singleton] at hc
      rcases hc with rfl | hc
      · simp [updateCall]
      · exact hP2 c hc
    · intro hnone
      obtain ⟨h1, h2, h3⟩ := hP3 hnone
      exact ⟨fun p hp => List.mem_append_right _ (h1 p hp),
        fun m hm hv => List.mem_append_right _ (h2 m hm hv),
        fun l hl hv1 hv2 => List.mem_append_right _ (h3 l hl hv1 hv2)⟩

/-- The worker invokes no change notification. -/
theorem drawOpUpdateWorker_notified (env : Env) (o : Operation) (w : World) :
    (drawOpUpdateWorker env o w).1.notified = w.notified := by
  obtain ⟨ext, h1, -, -⟩ := drawOpUpdateWorker_calls env o w
  rw [h1]
  refine replay_invariant env (fun x => x.notified = w.notified) ext ?_ w rfl
  intro w1 c _ hw1
  rw [exec_notified, hw1]

theorem issued_eq {w w1 : World} {ext : List Call} (h : w1.trace = w.trace ++ ext) :
    issued w w1 = ext := by
  simp [issued, h]

/-! ## When the worker returns an error -/

theorem linkPass_none {env : Env} (o : Operation) (pm : List (PortalID × Portal)) (w : World)
    (hq : ∀ w c, c.idQuery = true → env.fails w c = false) :
    (linkPass env o pm w).2 = none := by
  simp [linkPass, exec_ok (hq w (.selectLinkIDs o.ID) rfl)]

theorem markerPass_none {env : Env} (o : Operation) (pm : List (PortalID × Portal))
    (w : World) (hq : ∀ w c, c.idQuery = true → env.fails w c = false) :
    (markerPass env o pm w).2 = none := by
  simp [markerPass, exec_ok (hq w (.selectMarkerIDs o.ID) rfl), linkPass_none o _ _ hq]

theorem portalPass_none {env : Env} (o : Operation) (w : World)
    (hq : ∀ w c, c.idQuery = true → env.fails w c = false) :
    (portalPass env o w).2 = none := by
  simp [portalPass, exec_ok (hq w (.selectPortalIDs o.ID) rfl), markerPass_none o _ _ hq]

/-- With the ID queries succeeding, the worker fails exactly when its top-level update
fails; per-entity failures do not matter. -/
theorem drawOpUpdateWorker_none_iff {env : Env} (o : Operation) (w : World)
    (hq : ∀ w c, c.idQuery = true → env.fails w c = false) :
    (drawOpUpdateWorker env o w).2 = none ↔
      env.fails w (.updateOperation o.ID o.Name o.Color (MakeNullString o.Comment)) = false := by
  constructor
  · exact drawOpUpdateWorker_update_ok
  · intro hu
    simp [drawOpUpdateWorker, exec_ok hu, portalPass_none o _ hq]

/-- When the top-level update fails the worker stops there. -/
theorem drawOpUpdateWorker_update_fail {env : Env} {o : Operation} {w : World}
    (hu : env.fails w (.updateOperation o.ID o.Name o.Color (MakeNullString o.Comment)) = true) :
    drawOpUpdateWorker env o w =
      ({ w with trace := w.trace ++
          [.updateOperation o.ID o.Name o.Color (MakeNullString o.Comment)] },
        some "store error") := by
  simp [drawOpUpdateWorker, exec_fail hu]

/-! ## C2: referential skip -/

/-- C2: whatever store calls fail, `drawOpUpdateWorker` issues the upsert of a marker only
if the marker is listed in the snapshot with a portal ID among the IDs of the snapshot's
opportals, and the upsert of a link only if the link is listed with both portal IDs among
them.  A skipped entity raises no error: when no call other than a per-entity one fails,
the worker returns no error and has issued the upsert of every listed portal, of every
listed marker whose portal is listed and of every listed link whose two portals are
listed. -/
theorem drawOpUpdateWorker_referential_skip (env : Env) (o : Operation) (w : World) :
    (∀ m, Call.updateMarker o.ID m ∈ issued w (drawOpUpdateWorker env o w).1 →
        m ∈ o.Markers ∧ m.PortalID ∈ o.OpPortals.map Portal.ID) ∧
    (∀ l, Call.updateLink o.ID l ∈ issued w (drawOpUpdateWorker env o w).1 →
        l ∈ o.Links ∧ l.From ∈ o.OpPortals.map Portal.ID ∧
          l.To ∈ o.OpPortals.map Portal.ID) ∧
    ((∀ w1 c, c.perEntity = false → env.fails w1 c = false) →
      (drawOpUpdateWorker env o w).2 = none ∧
      (∀ p ∈ o.OpPortals,
        Call.updatePortal o.ID p ∈ issued w (drawOpUpdateWorker env o w).1) ∧
      (∀ m ∈ o.Markers, m.PortalID ∈ o.OpPortals.map Portal.ID →
        Call.updateMarker o.ID m ∈ issued w (drawOpUpdateWorker env o w).1) ∧
      (∀ l ∈ o.Links, l.From ∈ o.OpPortals.map Portal.ID →
        l.To ∈ o.OpPortals.map Portal.ID →
        Call.updateLink o.ID l ∈ issued w (drawOpUpdateWorker env o w).1)) := by
  obtain ⟨ext, h1, h2, h3⟩ := drawOpUpdateWorker_calls env o w
  rw [issued_eq (h1 ▸ replay_trace env ext w)]
  refine ⟨?_, ?_, ?_⟩
  · intro m hm
    have := h2 _ hm
    simp only [updateCall, false_or, reduceCtorEq, exists_false, and_false, or_false,
      Call.updateMarker.injEq, true_and] at this
    obtain ⟨m1, hm1, hv, rfl⟩ := this
    exact ⟨hm1, hv⟩
  · intro l hl
    have := h2 _ hl
    simp only [updateCall, false_or, reduceCtorEq, exists_false, and_false, or_false,
      Call.updateLink.injEq, true_and] at this
    obtain ⟨l1, hl1, hv1, hv2, rfl⟩ := this
    exact ⟨hl1, hv1, hv2⟩
  · intro hq
    have hnone : (drawOpUpdateWorker env o w).2 = none :=
      (drawOpUpdateWorker_none_iff o w
        (fun w1 c hc => hq w1 c (idQuery_not_perEntity hc))).mpr
        (hq _ _ rfl)
    exact ⟨hnone, h3 hnone⟩

/-- Witness for C2: every per-entity call fails, the snapshot lists a marker on the
unlisted portal Z. -/
theorem drawOpUpdateWorker_referential_skip_witness :
    (∀ w1 c, c.perEntity = false → Env.entityFailing.fails w1 c = false) ∧
    ((drawOpUpdateWorker Env.entityFailing skipSnapshot sampleWorld).2 = none ∧
      (∀ p ∈ skipSnapshot.OpPortals, Call.updatePortal skipSnapshot.ID p ∈
        issued sampleWorld (drawOpUpdateWorker Env.entityFailing skipSnapshot sampleWorld).1) ∧
      (∀ m ∈ skipSnapshot.Markers, m.PortalID ∈ skipSnapshot.OpPortals.map Portal.ID →
        Call.updateMarker skipSnapshot.ID m ∈
          issued sampleWorld (drawOpUpdateWorker Env.entityFailing skipSnapshot sampleWorld).1) ∧
      (∀ l ∈ skipSnapshot.Links, l.From ∈ skipSnapshot.OpPortals.map Portal.ID →
        l.To ∈ skipSnapshot.OpPortals.map Portal.ID →
        Call.updateLink skipSnapshot.ID l ∈
          issued sampleWorld
            (drawOpUpdateWorker Env.entityFailing skipSnapshot sampleWorld).1)) :=
  ⟨fun _ _ h => h,
   (drawOpUpdateWorker_referential_skip Env.entityFailing skipSnapshot sampleWorld).2.2
     (fun _ _ h => h)⟩

/-! ## C8: error propagation in an update -/

theorem Touch_ok {env : Env} {now : Nat} {o : Operation} {w : World}
    (h : env.fails w (.touch o.ID now) = false) :
    o.Touch env now w =
      ({ db := (Call.touch o.ID now).apply env.cascade w.db,
         trace := w.trace ++ [.touch o.ID now],
         notified := w.notified ++ [o.ID] }, none) := by
  simp [Operation.Touch, exec_ok h]

theorem Touch_fail {env : Env} {now : Nat} {o : Operation} {w : World}
    (h : env.fails w (.touch o.ID now) = true) :
    o.Touch env now w = ({ w with trace := w.trace ++ [.touch o.ID now] }, some "store error") := by
  simp [Operation.Touch, exec_fail h]

/-- An authorised update whose body carries the requested ID is the worker followed, when
the worker returns no error, by `Touch`. -/
theorem DrawUpdate_authorised (env : Env) (now : Nat) (o : Operation) (gid : GoogleID)
    (w : World) (hacc : o.WriteAccess gid w.db = true) :
    DrawUpdate env now o.ID (.ok o) gid w =
      if (drawOpUpdateWorker env { o with Teams := [] } w).2 = none then
        Operation.Touch env now { o with Teams := [] }
          (drawOpUpdateWorker env { o with Teams := [] } w).1
      else drawOpUpdateWorker env { o with Teams := [] } w := by
  have hacc2 : Operation.WriteAccess { o with Teams := [] } gid w.db = true := hacc
  unfold DrawUpdate
  simp only [Unmarshal, bne_self_eq_false, Bool.false_eq_true, if_false, hacc2, Bool.not_true]
  rcases hW : drawOpUpdateWorker env { o with Teams := [] } w with ⟨w1, _ | e⟩
  · simp only [if_true]
    rcases hT : Operation.Touch env now { o with Teams := [] } w1 with ⟨w2, _ | e⟩ <;> rfl
  · simp

/-- C8: for an authorised, well-formed `DrawUpdate` whose stored-ID queries succeed, the
call returns no error exactly when the top-level name/color/comment update and the final
timestamp stamp succeed, whatever per-entity upserts and deletes fail; when it returns no
error `modified` of the operation is the current time and the change hook has been invoked;
and when the top-level update fails the store is untouched and no other call was issued. -/
theorem DrawUpdate_error_propagation (env : Env) (now : Nat) (o : Operation) (gid : GoogleID)
    (w : World) (hacc : o.WriteAccess gid w.db = true)
    (hq : ∀ w1 c, c.idQuery = true → env.fails w1 c = false) :
    ((DrawUpdate env now o.ID (.ok o) gid w).2 = none ↔
      env.fails w (.updateOperation o.ID o.Name o.Color (MakeNullString o.Comment)) = false ∧
      env.fails (drawOpUpdateWorker env { o with Teams := [] } w).1 (.touch o.ID now) = false) ∧
    ((DrawUpdate env now o.ID (.ok o) gid w).2 = none →
      (∀ r ∈ (DrawUpdate env now o.ID (.ok o) gid w).1.db.operation,
        r.ID = o.ID → r.modified = now) ∧
      (DrawUpdate env now o.ID (.ok o) gid w).1.notified = w.notified ++ [o.ID]) ∧
    (env.fails w (.updateOperation o.ID o.Name o.Color (MakeNullString o.Comment)) = true →
      (DrawUpdate env now o.ID (.ok o) gid w).1.db = w.db ∧
      issued w (DrawUpdate env now o.ID (.ok o) gid w).1 =
        [.updateOperation o.ID o.Name o.Color (MakeNullString o.Comment)] ∧
      (DrawUpdate env now o.ID (.ok o) gid w).1.notified = w.notified) := by
  rw [DrawUpdate_authorised env now o gid w hacc]
  cases hu : env.fails w (.updateOperation o.ID o.Name o.Color (MakeNullString o.Comment))
  · have hnone : (drawOpUpdateWorker env { o with Teams := [] } w).2 = none :=
      (drawOpUpdateWorker_none_iff { o with Teams := [] } w hq).mpr hu
    have hnot := drawOpUpdateWorker_notified env { o with Teams := [] } w
    rw [if_pos hnone]
    cases ht : env.fails (drawOpUpdateWorker env { o with Teams := [] } w).1 (.touch o.ID now)
    · have hT := Touch_ok (o := { o with Teams := [] }) ht
      rw [hT]
      refine ⟨by simp, ?_, by simp⟩
      intro _
      refine ⟨?_, by simp [hnot]⟩
      intro r hr hid
      simp only [Call.apply, List.mem_map] at hr
      obtain ⟨r0, -, rfl⟩ := hr
      by_cases h0 : r0.ID = o.ID
      · simp [h0]
      · simp [h0] at hid
    · have hT := Touch_fail (o := { o with Teams := [] }) ht
      rw [hT]
      simp
  · have hW := drawOpUpdateWorker_update_fail (o := { o with Teams := [] }) hu
    rw [hW]
    simp [issued]

theorem failingOn_idQuery (c0 : Call) (h0 : c0.idQuery = false) :
    ∀ (w1 : World) (c : Call), c.idQuery = true → (Env.failingOn c0).fails w1 c = false := by
  intro w1 c hc
  show (c == c0) = false
  cases hb : (c == c0)
  · rfl
  · have : c = c0 := by simpa using hb
    rw [this, h0] at hc
    exact absurd hc (by decide)

/-- Witness for C8: agent G3, writer of operation X through team T1, updates X while every
per-entity call fails, while the top-level update fails, and while the stamp fails. -/
theorem DrawUpdate_error_propagation_witness :
    (skipSnapshot.WriteAccess "G3" sampleWorld.db = true ∧
      (∀ w1 c, c.idQuery = true → Env.entityFailing.fails w1 c = false)) ∧
    (DrawUpdate Env.entityFailing 9 skipSnapshot.ID (.ok skipSnapshot) "G3" sampleWorld).2
      = none ∧
    ((∀ r ∈ (DrawUpdate Env.entityFailing 9 skipSnapshot.ID (.ok skipSnapshot) "G3"
          sampleWorld).1.db.operation, r.ID = skipSnapshot.ID → r.modified = 9) ∧
      (DrawUpdate Env.entityFailing 9 skipSnapshot.ID (.ok skipSnapshot) "G3"
          sampleWorld).1.notified = sampleWorld.notified ++ [skipSnapshot.ID]) ∧
    ((DrawUpdate (Env.failingOn (.updateOperation "X" "plan v2" "groupb" none)) 9
          skipSnapshot.ID (.ok skipSnapshot) "G3" sampleWorld).1.db = sampleWorld.db ∧
      issued sampleWorld (DrawUpdate (Env.failingOn (.updateOperation "X" "plan v2" "groupb"
          none)) 9 skipSnapshot.ID (.ok skipSnapshot) "G3" sampleWorld).1 =
        [.updateOperation skipSnapshot.ID skipSnapshot.Name skipSnapshot.Color
          (MakeNullString skipSnapshot.Comment)] ∧
      (DrawUpdate (Env.failingOn (.updateOperation "X" "plan v2" "groupb" none)) 9
          skipSnapshot.ID (.ok skipSnapshot) "G3" sampleWorld).1.notified =
        sampleWorld.notified) ∧
    (DrawUpdate (Env.failingOn (.touch "X" 9)) 9 skipSnapshot.ID (.ok skipSnapshot) "G3"
        sampleWorld).2 ≠ none :=
  ⟨⟨by decide, fun _ _ h => idQuery_not_perEntity h⟩,
   (DrawUpdate_error_propagation Env.entityFailing 9 skipSnapshot "G3" sampleWorld (by decide)
      (fun _ _ h => idQuery_not_perEntity h)).1.mpr ⟨by decide, by decide⟩,
   (DrawUpdate_error_propagation Env.entityFailing 9 skipSnapshot "G3" sampleWorld (by decide)
      (fun _ _ h => idQuery_not_perEntity h)).2.1 (by decide),
   (DrawUpdate_error_propagation (Env.failingOn (.updateOperation "X" "plan v2" "groupb" none))
      9 skipSnapshot "G3" sampleWorld (by decide) (failingOn_idQuery _ (by decide))).2.2
      (by decide),
   fun h => absurd
     ((DrawUpdate_error_propagation (Env.failingOn (.touch "X" 9)) 9 skipSnapshot "G3"
        sampleWorld (by decide) (failingOn_idQuery _ (by decide))).1.mp h).2 (by decide)⟩

/-! ## The diff on one table -/

theorem mem_selectIDs {α : Type} (key : α → String) (op : OperationID)
    (id : String) (t : List (OperationID × α)) :
    id ∈ selectIDs key op t ↔ ∃ r ∈ t, r.1 = op ∧ key r.2 = id := by
  simp only [selectIDs, List.mem_map, List.mem_filter, beq_iff_eq]
  constructor
  · rintro ⟨r, ⟨hr, h1⟩, h2⟩; exact ⟨r, hr, h1, h2⟩
  · rintro ⟨r, hr, h1, h2⟩; exact ⟨r, ⟨hr, h1⟩, h2⟩

/-- A change of rows that keeps the operation and the ID of every row keeps the IDs. -/
theorem selectIDs_map {α : Type} (key : α → String) (op : OperationID)
    (f : OperationID × α → OperationID × α)
    (hf : ∀ r, (f r).1 = r.1 ∧ key (f r).2 = key r.2) (t : List (OperationID × α)) :
    selectIDs key op (t.map f) = selectIDs key op t := by
  induction t with
  | nil => rfl
  | cons r t ih =>
    unfold selectIDs at ih ⊢
    by_cases h : r.1 = op
    · simp only [List.map_cons, List.filter_cons, (hf r).1, h, beq_self_eq_true, if_true,
        (hf r).2, ih]
    · have hb : (r.1 == op) = false := by simpa using h
      simp only [List.map_cons, List.filter_cons, (hf r).1, hb, Bool.false_eq_true, if_false,
        ih]

theorem upsertRow_present {α : Type} (key : α → String) (op : OperationID)
    (v : α) (t : List (OperationID × α))
    (h : key v ∈ selectIDs key op t) :
    upsertRow key op v t =
      t.map (fun r => if r.1 == op && key r.2 == key v then (op, v) else r) := by
  obtain ⟨r, hr, h1, h2⟩ := (mem_selectIDs key op _ t).mp h
  have : t.any (fun r => r.1 == op && key r.2 == key v) = true :=
    List.any_eq_true.mpr ⟨r, hr, by simp [h1, h2]⟩
  simp [upsertRow, this]

theorem upsertRow_absent {α : Type} (key : α → String) (op : OperationID)
    (v : α) (t : List (OperationID × α))
    (h : key v ∉ selectIDs key op t) :
    upsertRow key op v t = t ++ [(op, v)] := by
  have : t.any (fun r => r.1 == op && key r.2 == key v) = false := by
    cases hb : t.any (fun r => r.1 == op && key r.2 == key v)
    · rfl
    · obtain ⟨r, hr, hc⟩ := List.any_eq_true.mp hb
      simp only [Bool.and_eq_true, beq_iff_eq] at hc
      exact absurd ((mem_selectIDs key op _ t).mpr ⟨r, hr, hc.1, hc.2⟩) h
  simp [upsertRow, this]

theorem overwrite_keeps {α : Type} (key : α → String) (op : OperationID)
    (v : α) (r : OperationID × α) :
    (if r.1 == op && key r.2 == key v then (op, v) else r).1 = r.1 ∧
    key (if r.1 == op && key r.2 == key v then (op, v) else r).2 = key r.2 := by
  by_cases hc : (r.1 == op && key r.2 == key v) = true
  · have hc2 := hc
    simp only [Bool.and_eq_true, beq_iff_eq] at hc2
    simp [hc, hc2.1, hc2.2]
  · simp [hc]

theorem mem_upsertRow {α : Type} (key : α → String) (op : OperationID)
    (v : α) (t : List (OperationID × α)) (r : OperationID × α)
    (h : r ∈ upsertRow key op v t) : r = (op, v) ∨ r ∈ t := by
  by_cases hp : key v ∈ selectIDs key op t
  · rw [upsertRow_present key op v t hp] at h
    obtain ⟨r0, hr0, rfl⟩ := List.mem_map.mp h
    by_cases hc : (r0.1 == op && key r0.2 == key v) = true
    · simp [hc]
    · simp only [hc, Bool.false_eq_true, if_false]
      exact Or.inr hr0
  · rw [upsertRow_absent key op v t hp] at h
    simp only [List.mem_append, List.mem_singleton] at h
    tauto

theorem eq_of_mem_upsertRow {α : Type} (key : α → String) (op : OperationID)
    (v : α) (t : List (OperationID × α)) (r : OperationID × α)
    (h : r ∈ upsertRow key op v t) (h1 : r.1 = op) (h2 : key r.2 = key v) : r = (op, v) := by
  by_cases hp : key v ∈ selectIDs key op t
  · rw [upsertRow_present key op v t hp] at h
    obtain ⟨r0, hr0, rfl⟩ := List.mem_map.mp h
    by_cases hc : (r0.1 == op && key r0.2 == key v) = true
    · simp [hc]
    · simp only [hc, Bool.false_eq_true, if_false] at h1 h2 ⊢
      simp [h1, h2] at hc
  · rcases mem_upsertRow key op v t r h with h | h
    · exact h
    · exact absurd ((mem_selectIDs key op _ t).mpr ⟨r, h, h1, h2⟩) hp

theorem selectIDs_upsertRow {α : Type} (key : α → String) (op : OperationID)
    (v : α) (t : List (OperationID × α)) (id : String) :
    id ∈ selectIDs key op (upsertRow key op v t) ↔ id = key v ∨ id ∈ selectIDs key op t := by
  by_cases hp : key v ∈ selectIDs key op t
  · rw [upsertRow_present key op v t hp, selectIDs_map key op _ (overwrite_keeps key op v)]
    constructor
    · exact Or.inr
    · rintro (rfl | h)
      · exact hp
      · exact h
  · rw [upsertRow_absent key op v t hp]
    simp only [selectIDs, List.filter_append, List.map_append, List.mem_append,
      List.filter_cons, beq_self_eq_true, if_true, List.filter_nil, List.map_cons, List.map_nil,
      List.mem_singleton]
    tauto

theorem selectIDs_upsertAll {α : Type} (key : α → String) (op : OperationID)
    (vs : List α) (id : String) :
    ∀ t : List (OperationID × α),
      id ∈ selectIDs key op (upsertAll key op vs t) ↔
        id ∈ vs.map key ∨ id ∈ selectIDs key op t := by
  induction vs with
  | nil => intro t; simp [upsertAll]
  | cons v vs ih =>
    intro t
    have := ih (upsertRow key op v t)
    unfold upsertAll at this ⊢
    rw [List.foldl_cons, this, selectIDs_upsertRow]
    simp only [List.map_cons, List.mem_cons]
    tauto

theorem mem_deleteRow {α : Type} (key : α → String) (op : OperationID)
    (k : String) (t : List (OperationID × α)) (r : OperationID × α) :
    r ∈ deleteRow key op k t ↔ r ∈ t ∧ ¬ (r.1 = op ∧ key r.2 = k) := by
  simp only [deleteRow, List.mem_filter, Bool.not_eq_true', Bool.and_eq_false_iff,
    beq_eq_false_iff_ne, ne_eq, not_and, and_congr_right_iff]
  intro _
  tauto

theorem mem_deleteAll {α : Type} (key : α → String) (op : OperationID)
    (ks : List String) (r : OperationID × α) :
    ∀ t : List (OperationID × α),
      r ∈ deleteAll key op ks t ↔ r ∈ t ∧ ¬ (r.1 = op ∧ key r.2 ∈ ks) := by
  induction ks with
  | nil => intro t; simp [deleteAll]
  | cons k ks ih =>
    intro t
    have := ih (deleteRow key op k t)
    unfold deleteAll at this ⊢
    rw [List.foldl_cons, this, mem_deleteRow]
    simp only [List.mem_cons]
    tauto

theorem deleteAll_nil {α : Type} (key : α → String) (op : OperationID)
    (t : List (OperationID × α)) : deleteAll key op [] t = t := rfl

theorem selectIDs_deleteAll {α : Type} (key : α → String) (op : OperationID)
    (ks : List String) (t : List (OperationID × α)) (id : String) :
    id ∈ selectIDs key op (deleteAll key op ks t) ↔ id ∈ selectIDs key op t ∧ id ∉ ks := by
  simp only [mem_selectIDs, mem_deleteAll]
  constructor
  · rintro ⟨r, ⟨hr, hn⟩, h1, h2⟩
    exact ⟨⟨r, hr, h1, h2⟩, fun hk => hn ⟨h1, h2 ▸ hk⟩⟩
  · rintro ⟨⟨r, hr, h1, h2⟩, hn⟩
    exact ⟨r, ⟨hr, fun hk => hn (h2 ▸ hk.2)⟩, h1, h2⟩

theorem mem_mapKeys_delAll (k : String) (ids : List String) :
    ∀ c : List (String × String),
      k ∈ mapKeys (ids.foldl (fun c k => mapDel k c) c) ↔ k ∈ mapKeys c ∧ k ∉ ids := by
  induction ids with
  | nil => intro c; simp
  | cons i ids ih =>
    intro c
    rw [List.foldl_cons, ih, mem_mapKeys_mapDel]
    simp only [List.mem_cons]
    tauto

theorem mem_mapKeys_leftOver (k : String) (ids rows : List String) :
    k ∈ mapKeys (leftOver ids rows) ↔ k ∈ rows ∧ k ∉ ids := by
  unfold leftOver
  rw [mem_mapKeys_delAll, mem_mapKeys_stash]

/-- When every stored ID is carried by an incoming entity, nothing is left to delete. -/
theorem leftOver_eq_nil (ids rows : List String) (h : ∀ k ∈ rows, k ∈ ids) :
    leftOver ids rows = [] := by
  apply List.eq_nil_iff_forall_not_mem.mpr
  intro e he
  have hk : e.1 ∈ mapKeys (leftOver ids rows) := List.mem_map.mpr ⟨e, he, rfl⟩
  rw [mem_mapKeys_leftOver] at hk
  exact hk.2 (h _ hk.1)

/-- After the diff on a table, the stored IDs of the operation are exactly the IDs of the
incoming entities. -/
theorem selectIDs_reconcileTable {α : Type} (key : α → String) (op : OperationID)
    (vs : List α) (t : List (OperationID × α)) (id : String) :
    id ∈ selectIDs key op (reconcileTable key op vs t) ↔ id ∈ vs.map key := by
  unfold reconcileTable
  rw [selectIDs_deleteAll, selectIDs_upsertAll, mem_mapKeys_leftOver]
  tauto

theorem lastWith_eq_none {α : Type} (key : α → String)
    (vs : List α) (k : String) (h : k ∉ vs.map key) :
    lastWith key vs k = none := by
  induction vs with
  | nil => rfl
  | cons v vs ih =>
    simp only [List.map_cons, List.mem_cons, not_or] at h
    simp [lastWith, ih h.2, Ne.symm h.1]

theorem mem_upsertAll {α : Type} (key : α → String) (op : OperationID)
    (vs : List α) (r : OperationID × α) :
    ∀ t : List (OperationID × α),
      r ∈ upsertAll key op vs t → (r.1 = op ∧ key r.2 ∈ vs.map key) ∨ r ∈ t := by
  induction vs with
  | nil => intro t h; exact Or.inr h
  | cons v vs ih =>
    intro t h
    have h1 : r ∈ upsertAll key op vs (upsertRow key op v t) := h
    rcases ih _ h1 with ⟨h2, h3⟩ | h2
    · exact Or.inl ⟨h2, List.mem_cons_of_mem _ h3⟩
    · rcases mem_upsertRow key op v t r h2 with rfl | h3
      · exact Or.inl ⟨rfl, List.mem_cons_self _ _⟩
      · exact Or.inr h3

/-- After the upserts, a row of the operation whose ID an incoming entity carries holds
the last incoming entity with that ID. -/
theorem upsertAll_settled {α : Type} (key : α → String) (op : OperationID)
    (vs : List α) (r : OperationID × α) :
    ∀ t : List (OperationID × α),
      r ∈ upsertAll key op vs t → r.1 = op → key r.2 ∈ vs.map key →
        lastWith key vs (key r.2) = some r.2 := by
  induction vs with
  | nil => intro t _ _ h; simp at h
  | cons v vs ih =>
    intro t h h1 h2
    have h3 : r ∈ upsertAll key op vs (upsertRow key op v t) := h
    by_cases hk : key r.2 ∈ vs.map key
    · simp [lastWith, ih _ h3 h1 hk]
    · have hkv : key r.2 = key v := by
        simp only [List.map_cons, List.mem_cons] at h2
        tauto
      have hr : r ∈ upsertRow key op v t := by
        rcases mem_upsertAll key op vs r _ h3 with ⟨-, h4⟩ | h4
        · exact absurd h4 hk
        · exact h4
      have := eq_of_mem_upsertRow key op v t r hr h1 hkv
      subst this
      simp [lastWith, lastWith_eq_none key vs _ hk]

/-- Upserts of entities whose IDs are all stored rewrite the rows in place. -/
theorem upsertAll_present {α : Type} (key : α → String) (op : OperationID)
    (vs : List α) :
    ∀ t : List (OperationID × α), (∀ v ∈ vs, key v ∈ selectIDs key op t) →
      upsertAll key op vs t = t.map (overrideRow key op vs) := by
  induction vs with
  | nil =>
    intro t _
    have : overrideRow key op ([] : List α) = id := by
      funext r
      simp [overrideRow, lastWith]
    simp [upsertAll, this]
  | cons v vs ih =>
    intro t h
    have hv := h v (List.mem_cons_self _ _)
    have hvs : ∀ v1 ∈ vs, key v1 ∈ selectIDs key op (upsertRow key op v t) := by
      intro v1 h1
      rw [selectIDs_upsertRow]
      exact Or.inr (h v1 (List.mem_cons_of_mem _ h1))
    have h1 : upsertAll key op (v :: vs) t = upsertAll key op vs (upsertRow key op v t) := rfl
    rw [h1, ih _ hvs, upsertRow_present key op v t hv, List.map_map]
    apply List.map_congr_left
    intro r _
    simp only [Function.comp]
    by_cases hc : (r.1 == op && key r.2 == key v) = true
    · have hc2 := hc
      simp only [Bool.and_eq_true, beq_iff_eq] at hc2
      simp only [hc, if_true, overrideRow, lastWith, hc2.1, hc2.2]
      rcases hl : lastWith key vs (key v) with _ | x <;> simp [hl]
    · simp only [hc, Bool.false_eq_true, if_false, overrideRow, lastWith]
      by_cases h1 : r.1 = op
      · have h2 : ¬ key v = key r.2 := by
          intro h2
          simp [h1, h2] at hc
        simp only [h1, if_true, h2, if_false]
        rcases hl : lastWith key vs (key r.2) with _ | x <;> simp [hl]
      · simp [h1]

/-- After the diff, the upserts of the same entities change nothing. -/
theorem upsertAll_reconcileTable {α : Type} (key : α → String) (op : OperationID)
    (vs : List α) (t : List (OperationID × α)) :
    upsertAll key op vs (reconcileTable key op vs t) = reconcileTable key op vs t := by
  have hids := selectIDs_reconcileTable key op vs t
  rw [upsertAll_present key op vs _ (fun v hv => (hids _).mpr (List.mem_map_of_mem _ hv))]
  conv_rhs => rw [← List.map_id (reconcileTable key op vs t)]
  apply List.map_congr_left
  intro r hr
  have hr0 : r ∈ upsertAll key op vs t := by
    unfold reconcileTable at hr
    exact ((mem_deleteAll key op _ r _).mp hr).1
  by_cases h1 : r.1 = op
  · have hk : key r.2 ∈ vs.map key :=
      (hids _).mp ((mem_selectIDs key op _ _).mpr ⟨r, hr, h1, rfl⟩)
    have := upsertAll_settled key op vs r t hr0 h1 hk
    simp only [overrideRow, h1, if_true, this, id]
    rw [← h1]
  · simp [overrideRow, h1]

/-- After the diff, no stored ID of the operation is left over for deletion. -/
theorem leftOver_reconcileTable {α : Type} (key : α → String) (op : OperationID)
    (vs : List α) (t : List (OperationID × α)) :
    leftOver (vs.map key) (selectIDs key op (reconcileTable key op vs t)) = [] :=
  leftOver_eq_nil _ _ (fun k hk => (selectIDs_reconcileTable key op vs t k).mp hk)

/-- The diff applied to its own result changes nothing. -/
theorem reconcileTable_idem {α : Type} (key : α → String) (op : OperationID)
    (vs : List α) (t : List (OperationID × α)) :
    reconcileTable key op vs (reconcileTable key op vs t) = reconcileTable key op vs t := by
  show deleteAll key op
      (mapKeys (leftOver (vs.map key) (selectIDs key op (reconcileTable key op vs t))))
      (upsertAll key op vs (reconcileTable key op vs t)) = _
  rw [leftOver_reconcileTable, upsertAll_reconcileTable]
  rfl

/-! ## The update when no call fails -/

theorem portalLoop_portalMap_eq (env : Env) (op : OperationID) (ps : List Portal) :
    ∀ st : PortalPass,
      (ps.foldl (updatePortalStep env op) st).portalMap =
        ps.foldl (fun pm p => mapSet p.ID p pm) st.portalMap := by
  induction ps with
  | nil => intro st; rfl
  | cons p ps ih =>
    intro st
    rw [List.foldl_cons, ih, updatePortalStep_portalMap]
    rfl

theorem mapHas_portalMapOf (ps : List Portal) (k : PortalID) :
    mapHas k (portalMapOf ps) = true ↔ k ∈ ps.map Portal.ID := by
  have h := portalLoop_portalMap (Env.reliable true) "" k ps ⟨{}, [], []⟩
  rw [portalLoop_portalMap_eq] at h
  rw [mapHas_iff]
  unfold portalMapOf
  simpa [mapKeys] using h

theorem mem_listedMarkers (o : Operation) (m : Marker) :
    m ∈ listedMarkers o ↔ m ∈ o.Markers ∧ m.PortalID ∈ o.OpPortals.map Portal.ID := by
  simp only [listedMarkers, List.mem_filter, mapHas_portalMapOf]

theorem mem_listedLinks (o : Operation) (l : Link) :
    l ∈ listedLinks o ↔
      l ∈ o.Links ∧ l.From ∈ o.OpPortals.map Portal.ID ∧ l.To ∈ o.OpPortals.map Portal.ID := by
  simp only [listedLinks, List.mem_filter, Bool.and_eq_true, mapHas_portalMapOf]

theorem portalLoop_reliable {env : Env}
    (hf : ∀ w c, env.fails w c = false)
    (op : OperationID) (ps : List Portal) :
    ∀ st : PortalPass,
      (ps.foldl (updatePortalStep env op) st).w.db =
          { st.w.db with portal := upsertAll Portal.ID op ps st.w.db.portal } ∧
      (ps.foldl (updatePortalStep env op) st).curPortals =
          (ps.map Portal.ID).foldl (fun c k => mapDel k c) st.curPortals := by
  induction ps with
  | nil => intro st; exact ⟨rfl, rfl⟩
  | cons p ps ih =>
    intro st
    have hstep : updatePortalStep env op st p =
        ⟨{ st.w with db := { st.w.db with portal := upsertRow Portal.ID op p st.w.db.portal },
                     trace := st.w.trace ++ [.updatePortal op p] },
          mapSet p.ID p st.portalMap, mapDel p.ID st.curPortals⟩ := by
      simp [updatePortalStep, exec_ok (hf st.w _), Call.apply]
    rw [List.foldl_cons, hstep]
    obtain ⟨h1, h2⟩ := ih ⟨{ st.w with
        db := { st.w.db with portal := upsertRow Portal.ID op p st.w.db.portal },
        trace := st.w.trace ++ [.updatePortal op p] },
      mapSet p.ID p st.portalMap, mapDel p.ID st.curPortals⟩
    exact ⟨h1, h2⟩

theorem markerLoop_reliable {env : Env}
    (hf : ∀ w c, env.fails w c = false)
    (op : OperationID) (pm : List (PortalID × Portal))
    (ms : List Marker) :
    ∀ st : World × List (MarkerID × MarkerID),
      (ms.foldl (updateMarkerStep env op pm) st).1.db =
          { st.1.db with marker := (upsertAll Marker.ID op
              (ms.filter (fun m => mapHas m.PortalID pm)) st.1.db.marker) } ∧
      (ms.foldl (updateMarkerStep env op pm) st).2 =
          ((ms.filter (fun m => mapHas m.PortalID pm)).map Marker.ID).foldl
            (fun c k => mapDel k c) st.2 := by
  induction ms with
  | nil => intro st; exact ⟨rfl, rfl⟩
  | cons m ms ih =>
    intro st
    cases hv : mapHas m.PortalID pm
    · have hstep : updateMarkerStep env op pm st m = st := by
        simp [updateMarkerStep, hv]
      rw [List.foldl_cons, hstep, List.filter_cons, hv]
      exact ih st
    · have hstep : updateMarkerStep env op pm st m =
          ({ st.1 with db := { st.1.db with marker := upsertRow Marker.ID op m st.1.db.marker },
                       trace := st.1.trace ++ [.updateMarker op m] }, mapDel m.ID st.2) := by
        simp [updateMarkerStep, hv, exec_ok (hf st.1 _), Call.apply]
      rw [List.foldl_cons, hstep, List.filter_cons, hv]
      exact ih _

theorem linkLoop_reliable {env : Env}
    (hf : ∀ w c, env.fails w c = false)
    (op : OperationID) (pm : List (PortalID × Portal))
    (ls : List Link) :
    ∀ st : World × List (LinkID × LinkID),
      (ls.foldl (updateLinkStep env op pm) st).1.db =
          { st.1.db with link := (upsertAll Link.ID op
              (ls.filter (fun l => mapHas l.From pm && mapHas l.To pm)) st.1.db.link) } ∧
      (ls.foldl (updateLinkStep env op pm) st).2 =
          ((ls.filter (fun l => mapHas l.From pm && mapHas l.To pm)).map Link.ID).foldl
            (fun c k => mapDel k c) st.2 := by
  induction ls with
  | nil => intro st; exact ⟨rfl, rfl⟩
  | cons l ls ih =>
    intro st
    cases hv : (mapHas l.From pm && mapHas l.To pm)
    · have hstep : updateLinkStep env op pm st l = st := by
        simp only [Bool.and_eq_false_iff] at hv
        rcases hv with hv | hv
        · simp [updateLinkStep, hv]
        · simp [updateLinkStep, hv]
      rw [List.foldl_cons, hstep, List.filter_cons, hv]
      exact ih st
    · have hv2 := hv
      simp only [Bool.and_eq_true] at hv2
      have hstep : updateLinkStep env op pm st l =
          ({ st.1 with db := { st.1.db with link := upsertRow Link.ID op l st.1.db.link },
                       trace := st.1.trace ++ [.updateLink op l] }, mapDel l.ID st.2) := by
        simp [updateLinkStep, hv2.1, hv2.2, exec_ok (hf st.1 _), Call.apply]
      rw [List.foldl_cons, hstep, List.filter_cons, hv]
      exact ih _

theorem deletePortalLoop_reliable {env : Env}
    (hf : ∀ w c, env.fails w c = false)
    (op : OperationID) (ks : List PortalID) :
    ∀ w : World, (ks.foldl (deletePortalStep env op) w).db =
      deletePortalsAll env.cascade op ks w.db := by
  induction ks with
  | nil => intro w; rfl
  | cons k ks ih =>
    intro w
    rw [List.foldl_cons, ih]
    simp [deletePortalStep, exec_ok (hf w _), Call.apply, deletePortalsAll]

theorem deleteMarkerLoop_reliable {env : Env}
    (hf : ∀ w c, env.fails w c = false)
    (op : OperationID) (ks : List MarkerID) :
    ∀ w : World, (ks.foldl (deleteMarkerStep env op) w).db =
      { w.db with marker := deleteAll Marker.ID op ks w.db.marker } := by
  induction ks with
  | nil => intro w; rfl
  | cons k ks ih =>
    intro w
    rw [List.foldl_cons, ih]
    simp [deleteMarkerStep, exec_ok (hf w _), Call.apply, deleteAll]

theorem deleteLinkLoop_reliable {env : Env}
    (hf : ∀ w c, env.fails w c = false)
    (op : OperationID) (ks : List LinkID) :
    ∀ w : World, (ks.foldl (deleteLinkStep env op) w).db =
      { w.db with link := deleteAll Link.ID op ks w.db.link } := by
  induction ks with
  | nil => intro w; rfl
  | cons k ks ih =>
    intro w
    rw [List.foldl_cons, ih]
    simp [deleteLinkStep, exec_ok (hf w _), Call.apply, deleteAll]

theorem linkPass_reliable {env : Env}
    (hf : ∀ w c, env.fails w c = false)
    (o : Operation) (pm : List (PortalID × Portal)) (w : World) :
    (linkPass env o pm w).1.db =
      { w.db with link := (reconcileTable Link.ID o.ID
          (o.Links.filter (fun l => mapHas l.From pm && mapHas l.To pm)) w.db.link) } := by
  unfold linkPass
  rw [exec_ok (hf w _)]
  simp only
  rw [deleteLinkLoop_reliable hf, (linkLoop_reliable hf o.ID pm o.Links _).1,
    (linkLoop_reliable hf o.ID pm o.Links _).2]
  rfl

theorem markerPass_reliable {env : Env}
    (hf : ∀ w c, env.fails w c = false)
    (o : Operation) (pm : List (PortalID × Portal)) (w : World) :
    (markerPass env o pm w).1.db =
      { w.db with
        marker := (reconcileTable Marker.ID o.ID
          (o.Markers.filter (fun m => mapHas m.PortalID pm)) w.db.marker)
        link := (reconcileTable Link.ID o.ID
          (o.Links.filter (fun l => mapHas l.From pm && mapHas l.To pm)) w.db.link) } := by
  unfold markerPass
  rw [exec_ok (hf w _)]
  simp only
  rw [linkPass_reliable hf, deleteMarkerLoop_reliable hf,
    (markerLoop_reliable hf o.ID pm o.Markers _).1,
    (markerLoop_reliable hf o.ID pm o.Markers _).2]
  rfl

theorem portalPass_reliable {env : Env}
    (hf : ∀ w c, env.fails w c = false)
    (o : Operation) (w : World) :
    (portalPass env o w).1.db =
      { reconcilePortals env.cascade o w.db with
        marker := (reconcileTable Marker.ID o.ID (listedMarkers o)
          (reconcilePortals env.cascade o w.db).marker)
        link := (reconcileTable Link.ID o.ID (listedLinks o)
          (reconcilePortals env.cascade o w.db).link) } := by
  unfold portalPass
  rw [exec_ok (hf w _)]
  simp only
  rw [markerPass_reliable hf, deletePortalLoop_reliable hf,
    (portalLoop_reliable hf o.ID o.OpPortals _).1,
    (portalLoop_reliable hf o.ID o.OpPortals _).2, portalLoop_portalMap_eq]
  rfl

/-- When no store call fails, the worker returns no error and leaves the tables that
`reconcile` computes. -/
theorem drawOpUpdateWorker_reliable {env : Env}
    (hf : ∀ w c, env.fails w c = false)
    (o : Operation) (w : World) :
    (drawOpUpdateWorker env o w).2 = none ∧
    (drawOpUpdateWorker env o w).1.db = reconcile env.cascade o w.db := by
  refine ⟨(drawOpUpdateWorker_none_iff o w (fun w1 c _ => hf w1 c)).mpr (hf _ _), ?_⟩
  unfold drawOpUpdateWorker
  rw [exec_ok (hf w _)]
  simp only
  rw [portalPass_reliable hf]
  rfl

/-! ## The tables after the update -/

theorem deletePortalRows_portal (c : Bool) (op : OperationID) (k : PortalID) (db : DB) :
    (deletePortalRows c op k db).portal = deleteRow Portal.ID op k db.portal := by
  unfold deletePortalRows; split <;> rfl

theorem deletePortalRows_frame (c : Bool) (op : OperationID) (k : PortalID) (db : DB) :
    (deletePortalRows c op k db).operation = db.operation ∧
    (deletePortalRows c op k db).anchor = db.anchor ∧
    (deletePortalRows c op k db).opteams = db.opteams ∧
    (deletePortalRows c op k db).agentteams = db.agentteams := by
  unfold deletePortalRows; split <;> exact ⟨rfl, rfl, rfl, rfl⟩

theorem deletePortalsAll_portal (c : Bool) (op : OperationID) (ks : List PortalID) :
    ∀ db : DB, (deletePortalsAll c op ks db).portal = deleteAll Portal.ID op ks db.portal := by
  induction ks with
  | nil => intro db; rfl
  | cons k ks ih =>
    intro db
    have := ih (deletePortalRows c op k db)
    unfold deletePortalsAll deleteAll at this ⊢
    rw [List.foldl_cons, this, deletePortalRows_portal]
    rfl

theorem deletePortalsAll_frame (c : Bool) (op : OperationID) (ks : List PortalID) :
    ∀ db : DB,
      (deletePortalsAll c op ks db).operation = db.operation ∧
      (deletePortalsAll c op ks db).anchor = db.anchor ∧
      (deletePortalsAll c op ks db).opteams = db.opteams ∧
      (deletePortalsAll c op ks db).agentteams = db.agentteams := by
  induction ks with
  | nil => intro db; exact ⟨rfl, rfl, rfl, rfl⟩
  | cons k ks ih =>
    intro db
    have h := ih (deletePortalRows c op k db)
    have h0 := deletePortalRows_frame c op k db
    unfold deletePortalsAll at h ⊢
    rw [List.foldl_cons]
    exact ⟨h.1.trans h0.1, h.2.1.trans h0.2.1, h.2.2.1.trans h0.2.2.1,
      h.2.2.2.trans h0.2.2.2⟩

theorem reconcilePortals_portal (c : Bool) (o : Operation) (db : DB) :
    (reconcilePortals c o db).portal =
      reconcileTable Portal.ID o.ID o.OpPortals db.portal := by
  unfold reconcilePortals
  rw [deletePortalsAll_portal]
  rfl

/-- The portal part changes nothing when the portal table already is a result of the
diff against the same portals. -/
theorem reconcilePortals_settled (c : Bool) (o : Operation) (db : DB)
    (t : List (OperationID × Portal))
    (h : db.portal = reconcileTable Portal.ID o.ID o.OpPortals t) :
    reconcilePortals c o db = db := by
  unfold reconcilePortals storedPortalIDs
  rw [h, leftOver_reconcileTable, upsertAll_reconcileTable, ← h]
  rfl

theorem reconcile_portal (c : Bool) (o : Operation) (db : DB) :
    (reconcile c o db).portal = reconcileTable Portal.ID o.ID o.OpPortals db.portal := by
  show (reconcilePortals c o _).portal = _
  rw [reconcilePortals_portal]
  rfl

theorem reconcile_frame (c : Bool) (o : Operation) (db : DB) :
    (reconcile c o db).operation =
      ((Call.updateOperation o.ID o.Name o.Color (MakeNullString o.Comment)).apply c
        db).operation ∧
    (reconcile c o db).anchor = db.anchor ∧
    (reconcile c o db).opteams = db.opteams ∧
    (reconcile c o db).agentteams = db.agentteams := by
  have h := deletePortalsAll_frame c o.ID
    (mapKeys (leftOver (o.OpPortals.map Portal.ID) (storedPortalIDs o.ID
      ((Call.updateOperation o.ID o.Name o.Color (MakeNullString o.Comment)).apply c db))))
    { (Call.updateOperation o.ID o.Name o.Color (MakeNullString o.Comment)).apply c db with
      portal := upsertAll Portal.ID o.ID o.OpPortals
        ((Call.updateOperation o.ID o.Name o.Color (MakeNullString o.Comment)).apply c
          db).portal }
  exact ⟨h.1, h.2.1, h.2.2.1, h.2.2.2⟩

/-- The update of tables that already are a result of the same update only rewrites the
scalar fields. -/
theorem reconcile_settled (c : Bool) (o : Operation) (db : DB)
    (tp : List (OperationID × Portal)) (tm : List (OperationID × Marker))
    (tl : List (OperationID × Link))
    (hp : db.portal = reconcileTable Portal.ID o.ID o.OpPortals tp)
    (hm : db.marker = reconcileTable Marker.ID o.ID (listedMarkers o) tm)
    (hl : db.link = reconcileTable Link.ID o.ID (listedLinks o) tl) :
    reconcile c o db =
      (Call.updateOperation o.ID o.Name o.Color (MakeNullString o.Comment)).apply c db := by
  have hp1 : ((Call.updateOperation o.ID o.Name o.Color (MakeNullString o.Comment)).apply c
      db).portal = reconcileTable Portal.ID o.ID o.OpPortals tp := hp
  unfold reconcile
  rw [reconcilePortals_settled c o _ tp hp1]
  show ({ (Call.updateOperation o.ID o.Name o.Color (MakeNullString o.Comment)).apply c db with
    marker := (reconcileTable Marker.ID o.ID (listedMarkers o) db.marker)
    link := (reconcileTable Link.ID o.ID (listedLinks o) db.link) } : DB) = _
  rw [hm, hl, reconcileTable_idem, reconcileTable_idem, ← hm, ← hl]
  rfl

/-! ## C1: deletion via omission -/

/-- C1: when no store call fails, `drawOpUpdateWorker` returns no error, and afterwards
the stored portal IDs of the operation are exactly the IDs listed in the snapshot's
opportals, its stored marker IDs are exactly the IDs of the snapshot markers whose portal
is listed in opportals, and its stored link IDs are exactly the IDs of the snapshot links
whose from and to portals are both listed; so every other stored ID of the operation is
gone, also when a list of the snapshot is empty. -/
theorem drawOpUpdateWorker_deletion_via_omission (env : Env) (o : Operation) (w : World)
    (hf : ∀ w c, env.fails w c = false) :
    (drawOpUpdateWorker env o w).2 = none ∧
    (∀ id, id ∈ storedPortalIDs o.ID (drawOpUpdateWorker env o w).1.db ↔
      id ∈ o.OpPortals.map Portal.ID) ∧
    (∀ id, id ∈ storedMarkerIDs o.ID (drawOpUpdateWorker env o w).1.db ↔
      ∃ m ∈ o.Markers, m.ID = id ∧ m.PortalID ∈ o.OpPortals.map Portal.ID) ∧
    (∀ id, id ∈ storedLinkIDs o.ID (drawOpUpdateWorker env o w).1.db ↔
      ∃ l ∈ o.Links, l.ID = id ∧ l.From ∈ o.OpPortals.map Portal.ID ∧
        l.To ∈ o.OpPortals.map Portal.ID) := by
  obtain ⟨hnone, hdb⟩ := drawOpUpdateWorker_reliable hf o w
  refine ⟨hnone, ?_, ?_, ?_⟩
  · intro id
    rw [hdb]
    unfold storedPortalIDs
    rw [reconcile_portal, selectIDs_reconcileTable]
  · intro id
    rw [hdb]
    show id ∈ selectIDs Marker.ID o.ID (reconcileTable Marker.ID o.ID (listedMarkers o) _) ↔ _
    rw [selectIDs_reconcileTable]
    simp only [List.mem_map, mem_listedMarkers]
    constructor
    · rintro ⟨m, ⟨hm, hv⟩, rfl⟩; exact ⟨m, hm, rfl, hv⟩
    · rintro ⟨m, hm, rfl, hv⟩; exact ⟨m, ⟨hm, hv⟩, rfl⟩
  · intro id
    rw [hdb]
    show id ∈ selectIDs Link.ID o.ID (reconcileTable Link.ID o.ID (listedLinks o) _) ↔ _
    rw [selectIDs_reconcileTable]
    simp only [List.mem_map, mem_listedLinks]
    constructor
    · rintro ⟨l, ⟨hl, hv⟩, rfl⟩; exact ⟨l, hl, rfl, hv⟩
    · rintro ⟨l, hl, rfl, hv⟩; exact ⟨l, ⟨hl, hv⟩, rfl⟩

/-- Witness for C1: on the sample store, the snapshot of X that lists portal A only removes
portal B and the link A→B. -/
theorem drawOpUpdateWorker_deletion_via_omission_witness :
    (∀ w c, (Env.reliable true).fails w c = false) ∧
    ((drawOpUpdateWorker (Env.reliable true) omitSnapshot sampleWorld).2 = none ∧
      (∀ id, id ∈ storedPortalIDs omitSnapshot.ID
          (drawOpUpdateWorker (Env.reliable true) omitSnapshot sampleWorld).1.db ↔
        id ∈ omitSnapshot.OpPortals.map Portal.ID) ∧
      (∀ id, id ∈ storedMarkerIDs omitSnapshot.ID
          (drawOpUpdateWorker (Env.reliable true) omitSnapshot sampleWorld).1.db ↔
        ∃ m ∈ omitSnapshot.Markers, m.ID = id ∧
          m.PortalID ∈ omitSnapshot.OpPortals.map Portal.ID) ∧
      (∀ id, id ∈ storedLinkIDs omitSnapshot.ID
          (drawOpUpdateWorker (Env.reliable true) omitSnapshot sampleWorld).1.db ↔
        ∃ l ∈ omitSnapshot.Links, l.ID = id ∧
          l.From ∈ omitSnapshot.OpPortals.map Portal.ID ∧
          l.To ∈ omitSnapshot.OpPortals.map Portal.ID)) ∧
    storedPortalIDs "X" sampleWorld.db = ["A", "B"] ∧
    storedLinkIDs "X" sampleWorld.db = ["L1"] ∧
    storedPortalIDs "X"
      (drawOpUpdateWorker (Env.reliable true) omitSnapshot sampleWorld).1.db = ["A"] ∧
    storedLinkIDs "X"
      (drawOpUpdateWorker (Env.reliable true) omitSnapshot sampleWorld).1.db = [] :=
  ⟨fun _ _ => rfl,
   drawOpUpdateWorker_deletion_via_omission (Env.reliable true) omitSnapshot sampleWorld
     (fun _ _ => rfl),
   by decide, by decide, by decide, by decide⟩

/-! ## C6: idempotent re-submission -/

theorem IsOwner_eq (opID : OperationID) (gid : GoogleID) (db : DB) :
    OperationID.IsOwner opID gid db =
      (db.operation.map (fun r => (r.ID, r.gid))).any (fun p => p.1 == opID && p.2 == gid) := by
  unfold OperationID.IsOwner
  induction db.operation with
  | nil => rfl
  | cons r t ih => simp only [List.any_cons, List.map_cons, ih]

theorem WriteAccess_congr (o : Operation) (gid : GoogleID) (db db1 : DB)
    (h1 : db1.operation.map (fun r => (r.ID, r.gid)) =
      db.operation.map (fun r => (r.ID, r.gid)))
    (h2 : db1.opteams = db.opteams) (h3 : db1.agentteams = db.agentteams) :
    o.WriteAccess gid db1 = o.WriteAccess gid db := by
  unfold Operation.WriteAccess
  rw [IsOwner_eq, IsOwner_eq, h1, h2, h3]

/-- When no store call fails, an authorised update returns no error, leaves the tables of
`reconcile` with the timestamp stamped, and notifies once. -/
theorem DrawUpdate_reliable {env : Env} (hf : ∀ w c, env.fails w c = false) (now : Nat)
    (o : Operation) (gid : GoogleID) (w : World) (hacc : o.WriteAccess gid w.db = true) :
    (DrawUpdate env now o.ID (.ok o) gid w).2 = none ∧
    (DrawUpdate env now o.ID (.ok o) gid w).1.db =
      (Call.touch o.ID now).apply env.cascade (reconcile env.cascade o w.db) := by
  obtain ⟨hnone, hdb⟩ := drawOpUpdateWorker_reliable hf { o with Teams := [] } w
  rw [DrawUpdate_authorised env now o gid w hacc, if_pos hnone,
    Touch_ok (o := { o with Teams := [] }) (hf _ _)]
  refine ⟨rfl, ?_⟩
  show (Call.touch o.ID now).apply env.cascade _ = _
  rw [hdb]
  rfl

/-- The scalar update and the stamp keep the ID and the owner of every row. -/
theorem stamped_owner (c : Bool) (o : Operation) (now : Nat) (db : DB) :
    ((Call.touch o.ID now).apply c (reconcile c o db)).operation.map (fun r => (r.ID, r.gid)) =
      db.operation.map (fun r => (r.ID, r.gid)) := by
  show ((reconcile c o db).operation.map _).map _ = _
  rw [(reconcile_frame c o db).1]
  simp only [Call.apply, List.map_map]
  apply List.map_congr_left
  intro r _
  by_cases h0 : r.ID = o.ID <;> simp [h0]

/-- The scalar update changes nothing in tables that the same update has written. -/
theorem update_stamped (c : Bool) (o : Operation) (now : Nat) (db : DB) :
    (Call.updateOperation o.ID o.Name o.Color (MakeNullString o.Comment)).apply c
        ((Call.touch o.ID now).apply c (reconcile c o db)) =
      (Call.touch o.ID now).apply c (reconcile c o db) := by
  have h : ((Call.touch o.ID now).apply c (reconcile c o db)).operation.map (fun r =>
      if r.ID == o.ID then
        { r with name := o.Name, color := o.Color, comment := MakeNullString o.Comment }
      else r) = ((Call.touch o.ID now).apply c (reconcile c o db)).operation := by
    show (((reconcile c o db).operation.map _).map _) = ((reconcile c o db).operation.map _)
    rw [(reconcile_frame c o db).1]
    simp only [Call.apply, List.map_map]
    apply List.map_congr_left
    intro r _
    by_cases h0 : r.ID = o.ID <;> simp [h0]
  show ({ (Call.touch o.ID now).apply c (reconcile c o db) with
    operation := _ } : DB) = _
  rw [h]

/-- C6: when no store call fails, an authorised `DrawUpdate` applied twice with the same
snapshot returns no error both times, and the second application leaves every table as the
first left it, except that the `modified` column of the operation is stamped again: the
stored portals, markers, links, key records and the name, color and comment are those of
the first application.  `modified` is the time of the first call after the first
application and the time of the second call after the second. -/
theorem DrawUpdate_idempotent (env : Env) (now1 now2 : Nat) (o : Operation) (gid : GoogleID)
    (w : World) (hf : ∀ w c, env.fails w c = false) (hacc : o.WriteAccess gid w.db = true) :
    (DrawUpdate env now1 o.ID (.ok o) gid w).2 = none ∧
    (DrawUpdate env now2 o.ID (.ok o) gid (DrawUpdate env now1 o.ID (.ok o) gid w).1).2
      = none ∧
    (DrawUpdate env now2 o.ID (.ok o) gid (DrawUpdate env now1 o.ID (.ok o) gid w).1).1.db =
      { (DrawUpdate env now1 o.ID (.ok o) gid w).1.db with
        operation := (DrawUpdate env now1 o.ID (.ok o) gid w).1.db.operation.map (fun r =>
          if r.ID == o.ID then { r with modified := now2 } else r) } ∧
    (∀ r ∈ (DrawUpdate env now1 o.ID (.ok o) gid w).1.db.operation,
      r.ID = o.ID → r.modified = now1) ∧
    (∀ r ∈ (DrawUpdate env now2 o.ID (.ok o) gid
        (DrawUpdate env now1 o.ID (.ok o) gid w).1).1.db.operation,
      r.ID = o.ID → r.modified = now2) := by
  obtain ⟨h1, hdb1⟩ := DrawUpdate_reliable hf now1 o gid w hacc
  have hacc1 : o.WriteAccess gid (DrawUpdate env now1 o.ID (.ok o) gid w).1.db = true := by
    rw [← hacc, hdb1]
    apply WriteAccess_congr
    · exact stamped_owner env.cascade o now1 w.db
    · exact (reconcile_frame env.cascade o w.db).2.2.1
    · exact (reconcile_frame env.cascade o w.db).2.2.2
  obtain ⟨h2, hdb2⟩ := DrawUpdate_reliable hf now2 o gid _ hacc1
  have hfix : reconcile env.cascade o (DrawUpdate env now1 o.ID (.ok o) gid w).1.db =
      (DrawUpdate env now1 o.ID (.ok o) gid w).1.db := by
    rw [hdb1]
    rw [reconcile_settled env.cascade o
      ((Call.touch o.ID now1).apply env.cascade (reconcile env.cascade o w.db)) w.db.portal
      (reconcilePortals env.cascade o
        ((Call.updateOperation o.ID o.Name o.Color (MakeNullString o.Comment)).apply
          env.cascade w.db)).marker
      (reconcilePortals env.cascade o
        ((Call.updateOperation o.ID o.Name o.Color (MakeNullString o.Comment)).apply
          env.cascade w.db)).link
      (reconcile_portal env.cascade o w.db) rfl rfl]
    exact update_stamped env.cascade o now1 w.db
  have hstamp : ∀ (now : Nat) (db : DB),
      ∀ r ∈ ((Call.touch o.ID now).apply env.cascade db).operation,
        r.ID = o.ID → r.modified = now := by
    intro now db r hr hid
    simp only [Call.apply, List.mem_map] at hr
    obtain ⟨r0, -, rfl⟩ := hr
    by_cases h0 : r0.ID = o.ID
    · simp [h0]
    · simp [h0] at hid
  refine ⟨h1, h2, ?_, ?_, ?_⟩
  · rw [hdb2, hfix]
    rfl
  · rw [hdb1]
    exact hstamp now1 _
  · rw [hdb2]
    exact hstamp now2 _

/-- Witness for C6: agent G3 submits the same snapshot of operation X at times 9 and 12. -/
theorem DrawUpdate_idempotent_witness :
    ((∀ w c, (Env.reliable true).fails w c = false) ∧
      skipSnapshot.WriteAccess "G3" sampleWorld.db = true) ∧
    ((DrawUpdate (Env.reliable true) 9 skipSnapshot.ID (.ok skipSnapshot) "G3" sampleWorld).2
        = none ∧
      (DrawUpdate (Env.reliable true) 12 skipSnapshot.ID (.ok skipSnapshot) "G3"
        (DrawUpdate (Env.reliable true) 9 skipSnapshot.ID (.ok skipSnapshot) "G3"
          sampleWorld).1).2 = none ∧
      (DrawUpdate (Env.reliable true) 12 skipSnapshot.ID (.ok skipSnapshot) "G3"
        (DrawUpdate (Env.reliable true) 9 skipSnapshot.ID (.ok skipSnapshot) "G3"
          sampleWorld).1).1.db =
        { (DrawUpdate (Env.reliable true) 9 skipSnapshot.ID (.ok skipSnapshot) "G3"
            sampleWorld).1.db with
          operation := (DrawUpdate (Env.reliable true) 9 skipSnapshot.ID (.ok skipSnapshot)
            "G3" sampleWorld).1.db.operation.map (fun r =>
              if r.ID == skipSnapshot.ID then { r with modified := 12 } else r) } ∧
      (∀ r ∈ (DrawUpdate (Env.reliable true) 9 skipSnapshot.ID (.ok skipSnapshot) "G3"
          sampleWorld).1.db.operation, r.ID = skipSnapshot.ID → r.modified = 9) ∧
      (∀ r ∈ (DrawUpdate (Env.reliable true) 12 skipSnapshot.ID (.ok skipSnapshot) "G3"
          (DrawUpdate (Env.reliable true) 9 skipSnapshot.ID (.ok skipSnapshot) "G3"
            sampleWorld).1).1.db.operation, r.ID = skipSnapshot.ID → r.modified = 12)) :=
  ⟨⟨fun _ _ => rfl, by decide⟩,
   DrawUpdate_idempotent (Env.reliable true) 9 12 skipSnapshot "G3" sampleWorld
     (fun _ _ => rfl) (by decide)⟩

/-! ## C13: `OpValidColor` -/

/-- C13: for every string `c`, `OpValidColor c` is `c` when `c` is a key of `OpColorMap`
(main, groupa, groupb, groupc, groupd, groupe, groupf) and "main" otherwise; so its result
is always a key of `OpColorMap`, and applying it twice is applying it once. -/
theorem OpValidColor_spec (c : String) :
    mapKeys OpColorMap = ["main", "groupa", "groupb", "groupc", "groupd", "groupe", "groupf"] ∧
    (c ∈ mapKeys OpColorMap → OpValidColor c = c) ∧
    (c ∉ mapKeys OpColorMap → OpValidColor c = "main") ∧
    OpValidColor c ∈ mapKeys OpColorMap ∧
    OpValidColor (OpValidColor c) = OpValidColor c := by
  have hmain : "main" ∈ mapKeys OpColorMap := by decide
  have g : ∀ x : String, x ∈ mapKeys OpColorMap → OpValidColor x = x := by
    intro x h
    simp [OpValidColor, (mapHas_iff x OpColorMap).mpr h]
  have h1 : c ∈ mapKeys OpColorMap → OpValidColor c = c := g c
  have h2 : c ∉ mapKeys OpColorMap → OpValidColor c = "main" := by
    intro h
    have : mapHas c OpColorMap = false := by
      cases hb : mapHas c OpColorMap
      · rfl
      · exact absurd ((mapHas_iff c OpColorMap).mp hb) h
    simp [OpValidColor, this]
  have h3 : OpValidColor c ∈ mapKeys OpColorMap := by
    by_cases h : c ∈ mapKeys OpColorMap
    · rw [h1 h]; exact h
    · rw [h2 h]; exact hmain
  exact ⟨by decide, h1, h2, h3, g _ h3⟩

/-- Witness for C13: a palette name and a name outside the palette. -/
theorem OpValidColor_spec_witness :
    ("groupc" ∈ mapKeys OpColorMap ∧ OpValidColor "groupc" = "groupc") ∧
    ("purple" ∉ mapKeys OpColorMap ∧ OpValidColor "purple" = "main") :=
  ⟨⟨by decide, (OpValidColor_spec "groupc").2.1 (by decide)⟩,
   ⟨by decide, (OpValidColor_spec "purple").2.2.1 (by decide)⟩⟩

/-! ## C14: `etRole.isValid` -/

/-- C14: `etRole.isValid` returns no error exactly for the roles "read", "write" and
"assignedonly", and the error "Invalid etRole" for every other string; the empty string
and other spellings such as "Read" are among the rejected ones. -/
theorem etRole_isValid_spec (et : etRole) :
    (etRole.isValid et = none ↔ et = "read" ∨ et = "write" ∨ et = "assignedonly") ∧
    (¬ (et = "read" ∨ et = "write" ∨ et = "assignedonly") →
      etRole.isValid et = some "Invalid etRole") ∧
    etRole.isValid "" = some "Invalid etRole" ∧
    etRole.isValid "Read" = some "Invalid etRole" ∧
    etRole.isValid "WRITE" = some "Invalid etRole" := by
  refine ⟨?_, ?_, by decide, by decide, by decide⟩
  · unfold etRole.isValid etRoleRead etRoleWrite etRoleAssignedOnly
    split <;> simp_all
  · intro h
    unfold etRole.isValid etRoleRead etRoleWrite etRoleAssignedOnly
    rw [if_neg h]

/-- Witness for C14: the role "admin" is none of the three. -/
theorem etRole_isValid_spec_witness :
    ¬ (("admin" : etRole) = "read" ∨ ("admin" : etRole) = "write" ∨
        ("admin" : etRole) = "assignedonly") ∧
    etRole.isValid "admin" = some "Invalid etRole" :=
  ⟨by decide, (etRole_isValid_spec "admin").2.1 (by decide)⟩

/-! ## C11: `Operation.Touch` -/

/-- C11: the result of `Operation.Touch` is the outcome of its one store call (the hook
`firebaseMapChange` returns nothing to it).  When the call succeeds, `modified` of the rows
of the operation is the current time whatever it was, no other column, row or table is
changed, and the hook has been invoked exactly once; when the call fails, an error is
returned, nothing is changed and the hook is not invoked. -/
theorem Touch_spec (env : Env) (now : Nat) (o : Operation) (w : World) :
    (o.Touch env now w).2 = (exec env (.touch o.ID now) w).2 ∧
    (env.fails w (.touch o.ID now) = false →
      (o.Touch env now w).2 = none ∧
      (o.Touch env now w).1.db =
        { w.db with operation := w.db.operation.map (fun r =>
            if r.ID == o.ID then { r with modified := now } else r) } ∧
      (∀ r ∈ (o.Touch env now w).1.db.operation, r.ID = o.ID → r.modified = now) ∧
      (o.Touch env now w).1.notified = w.notified ++ [o.ID]) ∧
    (env.fails w (.touch o.ID now) = true →
      (o.Touch env now w).2 ≠ none ∧
      (o.Touch env now w).1.db = w.db ∧
      (o.Touch env now w).1.notified = w.notified) := by
  refine ⟨?_, ?_, ?_⟩
  · unfold Operation.Touch
    split <;> simp_all
  · intro h
    rw [Touch_ok h]
    refine ⟨rfl, rfl, ?_, rfl⟩
    intro r hr hid
    simp only [Call.apply, List.mem_map] at hr
    obtain ⟨r0, -, rfl⟩ := hr
    by_cases h0 : r0.ID = o.ID
    · simp [h0]
    · simp [h0] at hid
  · intro h
    rw [Touch_fail h]
    exact ⟨by simp, rfl, rfl⟩

/-- Witness for C11: a stamp of operation X at time 9 that succeeds, and one that fails. -/
theorem Touch_spec_witness :
    ((Env.reliable true).fails sampleWorld (.touch omitSnapshot.ID 9) = false ∧
      (omitSnapshot.Touch (Env.reliable true) 9 sampleWorld).1.db.operation =
        [⟨"X", "plan", "G0", "main", 9, none⟩, ⟨"Y", "other", "G5", "groupa", 3, none⟩] ∧
      (omitSnapshot.Touch (Env.reliable true) 9 sampleWorld).1.notified =
        sampleWorld.notified ++ [omitSnapshot.ID]) ∧
    ((Env.failingOn (.touch "X" 9)).fails sampleWorld (.touch omitSnapshot.ID 9) = true ∧
      (omitSnapshot.Touch (Env.failingOn (.touch "X" 9)) 9 sampleWorld).2 ≠ none ∧
      (omitSnapshot.Touch (Env.failingOn (.touch "X" 9)) 9 sampleWorld).1.db =
        sampleWorld.db ∧
      (omitSnapshot.Touch (Env.failingOn (.touch "X" 9)) 9 sampleWorld).1.notified =
        sampleWorld.notified) :=
  ⟨⟨by decide,
    ((Touch_spec (Env.reliable true) 9 omitSnapshot sampleWorld).2.1 (by decide)).2.1.symm ▸
      (by decide),
    ((Touch_spec (Env.reliable true) 9 omitSnapshot sampleWorld).2.1 (by decide)).2.2.2⟩,
   ⟨by decide,
    (Touch_spec (Env.failingOn (.touch "X" 9)) 9 omitSnapshot sampleWorld).2.2 (by decide)⟩⟩

/-! ## The creation path -/

theorem insertPortalLoop_replay (env : Env) (op : OperationID) (ps : List Portal) :
    ∀ st : World × List (PortalID × Portal),
      ps.foldl (insertPortalStep env op) st =
        (replay env (ps.map (.insertPortal op)) st.1,
          ps.foldl (fun pm p => mapSet p.ID p pm) st.2) := by
  induction ps with
  | nil => intro st; rfl
  | cons p ps ih =>
    intro st
    rw [List.foldl_cons, ih]
    rfl

theorem insertMarkerLoop_replay (env : Env) (op : OperationID)
    (pm : List (PortalID × Portal)) (ms : List Marker) :
    ∀ w : World,
      ms.foldl (insertMarkerStep env op pm) w =
        replay env ((ms.filter (fun m => mapHas m.PortalID pm)).map (.insertMarker op)) w := by
  induction ms with
  | nil => intro w; rfl
  | cons m ms ih =>
    intro w
    rw [List.foldl_cons, ih]
    cases hv : mapHas m.PortalID pm
    · simp [insertMarkerStep, List.filter_cons, hv]
    · simp [insertMarkerStep, List.filter_cons, hv, replay_cons]

theorem insertLinkLoop_replay (env : Env) (op : OperationID)
    (pm : List (PortalID × Portal)) (ls : List Link) :
    ∀ w : World,
      ls.foldl (insertLinkStep env op pm) w =
        replay env
          ((ls.filter (fun l => mapHas l.From pm && mapHas l.To pm)).map (.insertLink op))
          w := by
  induction ls with
  | nil => intro w; rfl
  | cons l ls ih =>
    intro w
    rw [List.foldl_cons, ih]
    cases hv : mapHas l.From pm
    · simp [insertLinkStep, List.filter_cons, hv]
    · cases hv2 : mapHas l.To pm
      · simp [insertLinkStep, List.filter_cons, hv, hv2]
      · simp [insertLinkStep, List.filter_cons, hv, hv2, replay_cons]

theorem insertKeyLoop_replay (env : Env) (op : OperationID) (ks : List KeyOnHand)
    :
    ∀ w : World,
      ks.foldl (insertKeyStep env op) w = replay env (ks.map (.insertKey op)) w := by
  induction ks with
  | nil => intro w; rfl
  | cons k ks ih =>
    intro w
    rw [List.foldl_cons, ih]
    rfl

/-- After the insert of the operation row, `drawOpInsertWorker` issues the calls of
`insertCalls` whatever their outcome, and returns no error. -/
theorem drawOpInsertWorker_replay (env : Env) (now : Nat) (o : Operation) (gid : GoogleID)
    (w : World)
    (h : env.fails w
      (.insertOperation o.ID o.Name gid o.Color now (MakeNullString o.Comment)) = false) :
    drawOpInsertWorker env now o gid w =
      (replay env
        (.insertOperation o.ID o.Name gid o.Color now (MakeNullString o.Comment) ::
          insertCalls o) w, none) := by
  unfold drawOpInsertWorker
  rw [exec_ok h]
  simp only [insertPortalLoop_replay, insertMarkerLoop_replay, insertLinkLoop_replay,
    insertKeyLoop_replay]
  rw [replay_cons, exec_ok h]
  simp only [insertCalls, replay_append, listedMarkers, listedLinks, portalMapOf]

theorem drawOpInsertWorker_fail (env : Env) (now : Nat) (o : Operation) (gid : GoogleID)
    (w : World)
    (h : env.fails w
      (.insertOperation o.ID o.Name gid o.Color now (MakeNullString o.Comment)) = true) :
    drawOpInsertWorker env now o gid w =
      ({ w with trace := w.trace ++
          [.insertOperation o.ID o.Name gid o.Color now (MakeNullString o.Comment)] },
        some "store error") := by
  unfold drawOpInsertWorker
  rw [exec_fail h]

theorem replay_db_reliable {env : Env} (hf : ∀ w c, env.fails w c = false) (cs : List Call) :
    ∀ w : World, (replay env cs w).db = cs.foldl (fun db c => c.apply env.cascade db) w.db := by
  induction cs with
  | nil => intro w; rfl
  | cons c cs ih =>
    intro w
    rw [replay_cons, ih, exec_ok (hf w c)]
    rfl

theorem apply_insertPortals (b : Bool) (op : OperationID) (ps : List Portal) :
    ∀ db : DB, (ps.map (Call.insertPortal op)).foldl (fun db c => c.apply b db) db =
      { db with portal := db.portal ++ ps.map (fun p => (op, p)) } := by
  induction ps with
  | nil => intro db; simp
  | cons p ps ih =>
    intro db
    rw [List.map_cons, List.foldl_cons, ih]
    simp [Call.apply]

theorem apply_insertMarkers (b : Bool) (op : OperationID) (ms : List Marker) :
    ∀ db : DB, (ms.map (Call.insertMarker op)).foldl (fun db c => c.apply b db) db =
      { db with marker := db.marker ++ ms.map (fun m => (op, m)) } := by
  induction ms with
  | nil => intro db; simp
  | cons m ms ih =>
    intro db
    rw [List.map_cons, List.foldl_cons, ih]
    simp [Call.apply]

theorem apply_insertLinks (b : Bool) (op : OperationID) (ls : List Link) :
    ∀ db : DB, (ls.map (Call.insertLink op)).foldl (fun db c => c.apply b db) db =
      { db with link := db.link ++ ls.map (fun l => (op, l)) } := by
  induction ls with
  | nil => intro db; simp
  | cons l ls ih =>
    intro db
    rw [List.map_cons, List.foldl_cons, ih]
    simp [Call.apply]

theorem apply_insertKeys (b : Bool) (op : OperationID) (ks : List KeyOnHand) :
    ∀ db : DB, (ks.map (Call.insertKey op)).foldl (fun db c => c.apply b db) db =
      { db with opkeys := db.opkeys ++ ks.map (fun k => (op, k)) } := by
  induction ks with
  | nil => intro db; simp
  | cons k ks ih =>
    intro db
    rw [List.map_cons, List.foldl_cons, ih]
    simp [Call.apply]

/-- The tables after the calls of `insertCalls` when none fails. -/
theorem apply_insertCalls (b : Bool) (o : Operation) (db : DB) :
    (insertCalls o).foldl (fun db c => c.apply b db) db =
      { db with
        portal := db.portal ++ o.OpPortals.map (fun p => (o.ID, p))
        marker := db.marker ++ (listedMarkers o).map (fun m => (o.ID, m))
        link := db.link ++ (listedLinks o).map (fun l => (o.ID, l))
        opkeys := db.opkeys ++ o.Keys.map (fun k => (o.ID, k)) } := by
  simp only [insertCalls, List.foldl_append, apply_insertPortals, apply_insertMarkers,
    apply_insertLinks, apply_insertKeys]

theorem insertCalls_not_delete (o : Operation) : ∀ c ∈ insertCalls o, c.isDelete = false := by
  intro c hc
  simp only [insertCalls, List.mem_append, List.mem_map] at hc
  rcases hc with ((⟨p, -, rfl⟩ | ⟨m, -, rfl⟩) | ⟨l, -, rfl⟩) | ⟨k, -, rfl⟩ <;> rfl

/-- When no store call fails and the ID is new, `DrawInsert` returns no error after the
count query, the insert of the operation row and the calls of `insertCalls`. -/
theorem DrawInsert_reliable {env : Env} (hf : ∀ w c, env.fails w c = false) (now : Nat)
    (o : Operation) (gid : GoogleID) (w : World) (hnew : ∀ r ∈ w.db.operation, r.ID ≠ o.ID) :
    DrawInsert env now (.ok o) gid w =
      (replay env
        (.countOperation o.ID ::
          .insertOperation o.ID o.Name gid o.Color now (MakeNullString o.Comment) ::
          insertCalls o) w, none) := by
  have hcount : (w.db.operation.filter (fun r => r.ID == o.ID)).length = 0 := by
    rw [List.length_eq_zero, List.filter_eq_nil_iff]
    intro r hr
    simpa using hnew r hr
  unfold DrawInsert
  simp only [Unmarshal]
  rw [exec_ok (hf w _)]
  simp only [Call.apply, hcount, bne_self_eq_false, Bool.false_eq_true, if_false]
  rw [drawOpInsertWorker_replay env now o gid _ (hf _ _)]
  rw [replay_cons (c := .countOperation o.ID), exec_ok (hf w _)]
  rfl

/-! ## C16: the creation path -/

/-- C16: for a snapshot whose ID is not stored yet and a store of which no call fails,
`DrawInsert` returns no error and adds to the store exactly: the operation row with the
snapshot's name, color and comment (owner the calling agent, `modified` the current time),
every portal of the snapshot, every marker whose portal is listed in the snapshot's
portals, every link whose from and to portals are both listed, and every key record.
Markers and links with an unlisted portal are skipped, and no call issued is a delete. -/
theorem DrawInsert_creates (env : Env) (now : Nat) (o : Operation) (gid : GoogleID)
    (w : World) (hf : ∀ w c, env.fails w c = false)
    (hnew : ∀ r ∈ w.db.operation, r.ID ≠ o.ID) :
    (DrawInsert env now (.ok o) gid w).2 = none ∧
    (DrawInsert env now (.ok o) gid w).1.db =
      { w.db with
        operation := w.db.operation ++
          [⟨o.ID, o.Name, gid, o.Color, now, if o.Comment = "" then none else some o.Comment⟩]
        portal := w.db.portal ++ o.OpPortals.map (fun p => (o.ID, p))
        marker := w.db.marker ++ (listedMarkers o).map (fun m => (o.ID, m))
        link := w.db.link ++ (listedLinks o).map (fun l => (o.ID, l))
        opkeys := w.db.opkeys ++ o.Keys.map (fun k => (o.ID, k)) } ∧
    (∀ m, m ∈ listedMarkers o ↔ m ∈ o.Markers ∧ m.PortalID ∈ o.OpPortals.map Portal.ID) ∧
    (∀ l, l ∈ listedLinks o ↔
      l ∈ o.Links ∧ l.From ∈ o.OpPortals.map Portal.ID ∧ l.To ∈ o.OpPortals.map Portal.ID) ∧
    issued w (DrawInsert env now (.ok o) gid w).1 =
      .countOperation o.ID ::
        .insertOperation o.ID o.Name gid o.Color now (MakeNullString o.Comment) ::
        insertCalls o ∧
    (∀ c ∈ issued w (DrawInsert env now (.ok o) gid w).1, c.isDelete = false) := by
  rw [DrawInsert_reliable hf now o gid w hnew]
  have htrace := issued_eq (replay_trace env
    (.countOperation o.ID ::
      .insertOperation o.ID o.Name gid o.Color now (MakeNullString o.Comment) ::
      insertCalls o) w)
  refine ⟨rfl, ?_, mem_listedMarkers o, mem_listedLinks o, htrace, ?_⟩
  · show (replay env _ w).db = _
    rw [replay_db_reliable hf, List.foldl_cons, List.foldl_cons, apply_insertCalls]
    simp [Call.apply, MakeNullString]
  · intro c hc
    rw [htrace] at hc
    simp only [List.mem_cons] at hc
    rcases hc with rfl | rfl | hc
    · rfl
    · rfl
    · exact insertCalls_not_delete o c hc

/-- Witness for C16: the creation of operation Z on the sample store; its snapshot lists a
marker on the unlisted portal Z and a link to the unlisted portal B. -/
theorem DrawInsert_creates_witness :
    ((∀ w c, (Env.reliable true).fails w c = false) ∧
      (∀ r ∈ sampleWorld.db.operation, r.ID ≠ purpleSnapshot.ID)) ∧
    (DrawInsert (Env.reliable true) 7 (.ok purpleSnapshot) "G7" sampleWorld).2 = none ∧
    (DrawInsert (Env.reliable true) 7 (.ok purpleSnapshot) "G7" sampleWorld).1.db =
      { sampleDB with
        operation := sampleDB.operation ++ [⟨"Z", "fresh", "G7", "purple", 7, some "note"⟩]
        portal := sampleDB.portal ++ [("Z", portalA)]
        marker := [("Z", markerA)]
        opkeys := [("Z", ⟨"A", "G7", 2, "cap"⟩)] } :=
  ⟨⟨fun _ _ => rfl, by decide⟩,
   (DrawInsert_creates (Env.reliable true) 7 purpleSnapshot "G7" sampleWorld (fun _ _ => rfl)
      (by decide)).1,
   (DrawInsert_creates (Env.reliable true) 7 purpleSnapshot "G7" sampleWorld (fun _ _ => rfl)
      (by decide)).2.1.trans (by decide)⟩

/-! ## C12: the stored color -/

/-- C12 fails as stated: on the sample store, with no store failure, the creation of
operation Z with color "purple" and the update of operation X with color "purple" both
succeed and store "purple", which is not a name of the palette of `OpColorMap` and is not
"main"; so not every stored color is a palette name. -/
theorem draw_color_counterexample :
    "purple" ∉ mapKeys OpColorMap ∧
    (DrawInsert (Env.reliable true) 7 (.ok purpleSnapshot) "G7" sampleWorld).2 = none ∧
    (DrawInsert (Env.reliable true) 7 (.ok purpleSnapshot) "G7" sampleWorld).1.db.operation =
      [⟨"X", "plan", "G0", "main", 5, none⟩, ⟨"Y", "other", "G5", "groupa", 3, none⟩,
       ⟨"Z", "fresh", "G7", "purple", 7, some "note"⟩] ∧
    (DrawUpdate (Env.reliable true) 9 "X" (.ok { omitSnapshot with Color := "purple" }) "G0"
      sampleWorld).2 = none ∧
    (DrawUpdate (Env.reliable true) 9 "X" (.ok { omitSnapshot with Color := "purple" }) "G0"
      sampleWorld).1.db.operation =
      [⟨"X", "plan v2", "G0", "purple", 9, none⟩, ⟨"Y", "other", "G5", "groupa", 3, none⟩] ∧
    ¬ (∀ r ∈ (DrawInsert (Env.reliable true) 7 (.ok purpleSnapshot) "G7"
        sampleWorld).1.db.operation, r.color ∈ mapKeys OpColorMap) ∧
    ¬ (∀ r ∈ (DrawUpdate (Env.reliable true) 9 "X" (.ok { omitSnapshot with Color := "purple" })
        "G0" sampleWorld).1.db.operation, r.color ∈ mapKeys OpColorMap) := by
  decide

/-- C12 amended: when no store call fails, the operation row that `DrawInsert` adds for a
new ID carries the color of the snapshot unchanged, and after an authorised `DrawUpdate`
every row of the operation carries the color of the snapshot unchanged, whether or not that
color is a name of the palette. -/
theorem draw_color_stored_verbatim (env : Env) (now : Nat) (o : Operation) (gid : GoogleID)
    (w : World) (hf : ∀ w c, env.fails w c = false) :
    ((∀ r ∈ w.db.operation, r.ID ≠ o.ID) →
      (∃ r ∈ (DrawInsert env now (.ok o) gid w).1.db.operation, r.ID = o.ID) ∧
      ∀ r ∈ (DrawInsert env now (.ok o) gid w).1.db.operation, r.ID = o.ID →
        r.color = o.Color) ∧
    (o.WriteAccess gid w.db = true →
      ∀ r ∈ (DrawUpdate env now o.ID (.ok o) gid w).1.db.operation, r.ID = o.ID →
        r.color = o.Color) := by
  constructor
  · intro hnew
    rw [DrawInsert_reliable hf now o gid w hnew]
    have hdb : (replay env
        (.countOperation o.ID ::
          .insertOperation o.ID o.Name gid o.Color now (MakeNullString o.Comment) ::
          insertCalls o) w).db.operation =
        w.db.operation ++ [⟨o.ID, o.Name, gid, o.Color, now, MakeNullString o.Comment⟩] := by
      rw [replay_db_reliable hf, List.foldl_cons, List.foldl_cons, apply_insertCalls]
      simp [Call.apply]
    show (∃ r ∈ (replay env _ w).db.operation, r.ID = o.ID) ∧
      ∀ r ∈ (replay env _ w).db.operation, r.ID = o.ID → r.color = o.Color
    rw [hdb]
    refine ⟨⟨_, List.mem_append_right _ (List.mem_singleton_self _), rfl⟩, ?_⟩
    intro r hr hid
    rcases List.mem_append.mp hr with h | h
    · exact absurd hid (hnew r h)
    · rw [List.mem_singleton.mp h]
  · intro hacc r hr hid
    rw [(DrawUpdate_reliable hf now o gid w hacc).2] at hr
    have hr2 : r ∈ ((reconcile env.cascade o w.db).operation.map (fun r =>
        if r.ID == o.ID then { r with modified := now } else r)) := hr
    rw [(reconcile_frame env.cascade o w.db).1] at hr2
    simp only [Call.apply, List.map_map, List.mem_map, Function.comp] at hr2
    obtain ⟨r0, -, rfl⟩ := hr2
    by_cases h0 : r0.ID = o.ID
    · simp [h0]
    · simp [h0] at hid

/-- Witness for C12 amended: the creation of Z and the update of X with color "purple". -/
theorem draw_color_stored_verbatim_witness :
    ((∀ w c, (Env.reliable true).fails w c = false) ∧
      (∀ r ∈ sampleWorld.db.operation, r.ID ≠ purpleSnapshot.ID) ∧
      ({ omitSnapshot with Color := "purple" } : Operation).WriteAccess "G0" sampleWorld.db
        = true) ∧
    ((∃ r ∈ (DrawInsert (Env.reliable true) 7 (.ok purpleSnapshot) "G7"
          sampleWorld).1.db.operation, r.ID = purpleSnapshot.ID) ∧
      ∀ r ∈ (DrawInsert (Env.reliable true) 7 (.ok purpleSnapshot) "G7"
          sampleWorld).1.db.operation, r.ID = purpleSnapshot.ID →
        r.color = purpleSnapshot.Color) ∧
    (∀ r ∈ (DrawUpdate (Env.reliable true) 9
        ({ omitSnapshot with Color := "purple" } : Operation).ID
        (.ok { omitSnapshot with Color := "purple" }) "G0" sampleWorld).1.db.operation,
      r.ID = ({ omitSnapshot with Color := "purple" } : Operation).ID →
        r.color = ({ omitSnapshot with Color := "purple" } : Operation).Color) :=
  ⟨⟨fun _ _ => rfl, by decide, by decide⟩,
   (draw_color_stored_verbatim (Env.reliable true) 7 purpleSnapshot "G7" sampleWorld
      (fun _ _ => rfl)).1 (by decide),
   (draw_color_stored_verbatim (Env.reliable true) 9 { omitSnapshot with Color := "purple" }
      "G0" sampleWorld (fun _ _ => rfl)).2 (by decide)⟩

/-! ## Key records and the delete of a portal -/

theorem updateCall_not_onKeys {o : Operation} {c : Call} (h : updateCall o c) :
    c.onKeys = false := by
  unfold updateCall at h
  rcases h with rfl | rfl | rfl | rfl | ⟨p, -, rfl⟩ | ⟨m, -, -, rfl⟩ | ⟨l, -, -, -, rfl⟩ |
    ⟨k, rfl⟩ | ⟨k, rfl⟩ | ⟨k, rfl⟩ <;> rfl

/-- Without the cascade, no call of the update writes table `opkeys`. -/
theorem updateCall_opkeys {o : Operation} {c : Call} (h : updateCall o c) (db : DB) :
    (c.apply false db).opkeys = db.opkeys := by
  unfold updateCall at h
  rcases h with rfl | rfl | rfl | rfl | ⟨p, -, rfl⟩ | ⟨m, -, -, rfl⟩ | ⟨l, -, -, -, rfl⟩ |
    ⟨k, rfl⟩ | ⟨k, rfl⟩ | ⟨k, rfl⟩ <;> rfl

theorem deletePortalRows_opkeys_filter (c : Bool) (op : OperationID) (k : PortalID) (db : DB)
    (p : OperationID × KeyOnHand → Bool)
    (hp : ∀ r, p r = true → ¬ (r.1 = op ∧ r.2.ID = k)) :
    (deletePortalRows c op k db).opkeys.filter p = db.opkeys.filter p ∧
    ∀ r ∈ (deletePortalRows c op k db).opkeys, r ∈ db.opkeys := by
  unfold deletePortalRows
  cases c
  · exact ⟨rfl, fun _ h => h⟩
  · simp only [if_true, List.filter_filter]
    refine ⟨?_, fun r hr => (List.mem_filter.mp hr).1⟩
    apply List.filter_congr
    intro r _
    cases hr : p r
    · simp
    · have := hp r hr
      simp only [Bool.true_and, Bool.not_eq_true', Bool.and_eq_false_iff, beq_eq_false_iff_ne,
        ne_eq]
      tauto

theorem deletePortalsAll_opkeys_filter (c : Bool) (op : OperationID)
    (p : OperationID × KeyOnHand → Bool) (ks : List PortalID) :
    ∀ db : DB, (∀ r, p r = true → ¬ (r.1 = op ∧ r.2.ID ∈ ks)) →
      (deletePortalsAll c op ks db).opkeys.filter p = db.opkeys.filter p ∧
      ∀ r ∈ (deletePortalsAll c op ks db).opkeys, r ∈ db.opkeys := by
  induction ks with
  | nil => intro db _; exact ⟨rfl, fun _ h => h⟩
  | cons k ks ih =>
    intro db hp
    have h1 := deletePortalRows_opkeys_filter c op k db p
      (fun r hr hk => hp r hr ⟨hk.1, hk.2 ▸ List.mem_cons_self _ _⟩)
    have h2 := ih (deletePortalRows c op k db)
      (fun r hr hk => hp r hr ⟨hk.1, List.mem_cons_of_mem _ hk.2⟩)
    have hunf : deletePortalsAll c op (k :: ks) db =
        deletePortalsAll c op ks (deletePortalRows c op k db) := rfl
    rw [hunf]
    exact ⟨h2.1.trans h1.1, fun r hr => h1.2 r (h2.2 r hr)⟩

/-! ## The tables after the delete of an operation -/

theorem deleteOp_idem {α : Type} (id : OperationID) (t : List (OperationID × α)) :
    deleteOp id (deleteOp id t) = deleteOp id t := by
  simp [deleteOp, List.filter_filter]

theorem mem_deleteOp {α : Type} (id : OperationID) (t : List (OperationID × α))
    (r : OperationID × α) : r ∈ deleteOp id t ↔ r ∈ t ∧ r.1 ≠ id := by
  simp [deleteOp, List.mem_filter]

/-- Once the rows of the operation are gone, the follow-up deletes change nothing. -/
theorem followUp_fixed (b : Bool) (id : OperationID) (db : DB) (c : Call)
    (hc : c ∈ followUpDeletes id) : c.apply b (deletedDB id db) = deletedDB id db := by
  simp only [followUpDeletes, List.mem_cons, List.mem_singleton, List.not_mem_nil,
    or_false] at hc
  rcases hc with rfl | rfl | rfl | rfl | rfl | rfl <;>
    simp [Call.apply, deletedDB, deleteOp_idem]

theorem exec_db_fixed (env : Env) (c : Call) (w : World)
    (h : c.apply env.cascade w.db = w.db) : (exec env c w).1.db = w.db := by
  unfold exec
  split
  · rfl
  · exact h

/-- The tables after `Operation.Delete` when the delete of the operation row has
succeeded and the store cascades or the follow-up deletes succeed. -/
theorem Delete_db (env : Env) (o : Operation) (gid : GoogleID) (w : World)
    (hown : OperationID.IsOwner o.ID gid w.db = true)
    (hdel : env.fails w (.deleteOperation o.ID) = false)
    (hrest : env.cascade = true ∨
      ∀ w1 c, c ∈ followUpDeletes o.ID → env.fails w1 c = false) :
    o.Delete env gid w =
      ({ db := deletedDB o.ID w.db,
         trace := w.trace ++ .deleteOperation o.ID :: followUpDeletes o.ID,
         notified := w.notified }, none) := by
  have hshape : o.Delete env gid w =
      (replay env (followUpDeletes o.ID) (exec env (.deleteOperation o.ID) w).1, none) := by
    simp [Operation.Delete, hown, exec_ok hdel, replay, followUpDeletes]
  rw [hshape]
  have htr : (replay env (followUpDeletes o.ID) (exec env (.deleteOperation o.ID) w).1).trace =
      w.trace ++ .deleteOperation o.ID :: followUpDeletes o.ID := by
    rw [replay_trace, exec_trace]
    simp
  have hnot : (replay env (followUpDeletes o.ID)
      (exec env (.deleteOperation o.ID) w).1).notified = w.notified := by
    refine replay_invariant env (fun x => x.notified = w.notified) _ ?_ _
      (exec_notified env _ w)
    intro w1 c _ hw1
    rw [exec_notified, hw1]
  have hdb : (replay env (followUpDeletes o.ID) (exec env (.deleteOperation o.ID) w).1).db =
      deletedDB o.ID w.db := by
    cases hcas : env.cascade
    · have hs : ∀ w1 c, c ∈ followUpDeletes o.ID → env.fails w1 c = false := by
        rcases hrest with h | h
        · rw [hcas] at h; exact absurd h (by decide)
        · exact h
      simp only [replay, followUpDeletes, List.foldl_cons, List.foldl_nil]
      rw [exec_ok (hs _ (.deleteOpteams o.ID) (by simp [followUpDeletes])),
        exec_ok (hs _ (.deleteOpkeys o.ID) (by simp [followUpDeletes])),
        exec_ok (hs _ (.deleteAnchors o.ID) (by simp [followUpDeletes])),
        exec_ok (hs _ (.deletePortals o.ID) (by simp [followUpDeletes])),
        exec_ok (hs _ (.deleteLinks o.ID) (by simp [followUpDeletes])),
        exec_ok (hs _ (.deleteMarkers o.ID) (by simp [followUpDeletes])),
        exec_ok hdel]
      simp [Call.apply, hcas, deletedDB]
    · refine replay_invariant env (fun x => x.db = deletedDB o.ID w.db) _ ?_ _ ?_
      · intro w1 c hc hw1
        show (exec env c w1).1.db = _
        rw [exec_db_fixed env c w1 (by rw [hw1]; exact followUp_fixed _ _ _ c hc), hw1]
      · rw [exec_ok hdel]
        simp [Call.apply, hcas, deletedDB]
  rcases hW : replay env (followUpDeletes o.ID) (exec env (.deleteOperation o.ID) w).1 with
    ⟨db1, tr1, nt1⟩
  rw [hW] at htr hnot hdb
  simp only at htr hnot hdb
  rw [htr, hnot, hdb]

/-! ## C18: `Task.Assign` -/

theorem texec_ok {env : TaskEnv} {c : TaskCall} {w : TaskWorld} (h : env.fails w c = false) :
    texec env c w = ({ store := c.apply w.store, trace := w.trace ++ [(c, false)] }, none) := by
  simp [texec, h]

theorem texec_fail {env : TaskEnv} {c : TaskCall} {w : TaskWorld} (h : env.fails w c = true) :
    texec env c w = ({ w with trace := w.trace ++ [(c, true)] }, some "store error") := by
  simp [texec, h]

/-- The loop of `Task.Assign`: it returns no error exactly when no insert failed, and then
it has appended the non-empty IDs. -/
theorem assignLoop_spec (env : TaskEnv) (t : Task) (gs : List GoogleID) :
    ∀ tx : TaskWorld, ∃ ext,
      (assignLoop env t gs tx).1.trace = tx.trace ++ ext ∧
      ((assignLoop env t gs tx).2 = none ↔ ∀ e ∈ ext, e.2 = false) ∧
      ((assignLoop env t gs tx).2 = none →
        (assignLoop env t gs tx).1.store =
          { tx.store with assignments := (tx.store.assignments ++
              (gs.filter (fun g => g != "")).map (fun g => (t.opID, t.ID, g))) }) := by
  induction gs with
  | nil => intro tx; exact ⟨[], by simp [assignLoop], by simp [assignLoop], by simp [assignLoop]⟩
  | cons g gs ih =>
    intro tx
    by_cases hg : g = ""
    · obtain ⟨ext, h1, h2, h3⟩ := ih tx
      refine ⟨ext, ?_, ?_, ?_⟩
      · simpa [assignLoop, hg] using h1
      · simpa [assignLoop, hg] using h2
      · simpa [assignLoop, hg] using h3
    · cases hf : env.fails tx (.insertAssignment t.opID t.ID g)
      · obtain ⟨ext, h1, h2, h3⟩ := ih
          { store := (TaskCall.insertAssignment t.opID t.ID g).apply tx.store,
            trace := tx.trace ++ [(.insertAssignment t.opID t.ID g, false)] }
        have hstep : assignLoop env t (g :: gs) tx = assignLoop env t gs
            { store := (TaskCall.insertAssignment t.opID t.ID g).apply tx.store,
              trace := tx.trace ++ [(.insertAssignment t.opID t.ID g, false)] } := by
          simp [assignLoop, hg, texec_ok hf]
        rw [hstep]
        refine ⟨(.insertAssignment t.opID t.ID g, false) :: ext, ?_, ?_, ?_⟩
        · rw [h1]; simp
        · rw [h2]; simp
        · intro hn
          rw [h3 hn]
          have : (g != "") = true := by simpa using hg
          simp [TaskCall.apply, List.filter_cons, this]
      · have hstep : assignLoop env t (g :: gs) tx =
            ({ tx with trace := tx.trace ++ [(.insertAssignment t.opID t.ID g, true)] },
              some "store error") := by
          simp [assignLoop, hg, texec_fail hf]
        rw [hstep]
        exact ⟨[(.insertAssignment t.opID t.ID g, true)], rfl, by simp, by simp⟩

/-- The statements of `Task.Assign`: no error exactly when none failed, and then the rows
of the task are the non-empty IDs and the other rows are as before. -/
theorem assignBody_spec (env : TaskEnv) (t : Task) (gs : List GoogleID) (tx : TaskWorld) :
    ∃ ext,
      (assignBody env t gs tx).1.trace = tx.trace ++ ext ∧
      ((assignBody env t gs tx).2 = none ↔ ∀ e ∈ ext, e.2 = false) ∧
      ((assignBody env t gs tx).2 = none →
        (assignBody env t gs tx).1.store =
          { tx.store with assignments := (otherAssignments t tx.store ++
              (gs.filter (fun g => g != "")).map (fun g => (t.opID, t.ID, g))) }) := by
  cases hf : env.fails tx (.deleteAssignments t.opID t.ID)
  · obtain ⟨ext, h1, h2, h3⟩ := assignLoop_spec env t gs
      { store := (TaskCall.deleteAssignments t.opID t.ID).apply tx.store,
        trace := tx.trace ++ [(.deleteAssignments t.opID t.ID, false)] }
    have hstep : assignBody env t gs tx = assignLoop env t gs
        { store := (TaskCall.deleteAssignments t.opID t.ID).apply tx.store,
          trace := tx.trace ++ [(.deleteAssignments t.opID t.ID, false)] } := by
      simp [assignBody, texec_ok hf]
    rw [hstep]
    refine ⟨(.deleteAssignments t.opID t.ID, false) :: ext, ?_, ?_, ?_⟩
    · rw [h1]; simp
    · rw [h2]; simp
    · intro hn
      rw [h3 hn]
      rfl
  · have hstep : assignBody env t gs tx =
        ({ tx with trace := tx.trace ++ [(.deleteAssignments t.opID t.ID, true)] },
          some "store error") := by
      simp [assignBody, texec_fail hf]
    rw [hstep]
    exact ⟨[(.deleteAssignments t.opID t.ID, true)], rfl, by simp, by simp⟩

theorem tissued_eq {w w1 : TaskWorld} {ext : List (TaskCall × Bool)}
    (h : w1.trace = w.trace ++ ext) : tissued w w1 = ext := by
  simp [tissued, h]

theorem assignees_replaced (t : Task) (s : TaskStore) (gs : List GoogleID) :
    assignees t { s with assignments := (otherAssignments t s ++
        gs.map (fun g => (t.opID, t.ID, g))) } = gs ∧
    otherAssignments t { s with assignments := (otherAssignments t s ++
        gs.map (fun g => (t.opID, t.ID, g))) } = otherAssignments t s := by
  constructor
  · simp only [assignees, otherAssignments, List.filter_append, List.filter_filter,
      List.map_append]
    have h1 : s.assignments.filter (fun r =>
        (r.1 == t.opID && r.2.1 == t.ID) && !(r.1 == t.opID && r.2.1 == t.ID)) = [] := by
      rw [List.filter_eq_nil_iff]
      intro r _
      simp
    have h2 : (gs.map (fun g => (t.opID, t.ID, g))).filter
        (fun r => r.1 == t.opID && r.2.1 == t.ID) = gs.map (fun g => (t.opID, t.ID, g)) := by
      rw [List.filter_eq_self]
      intro r hr
      obtain ⟨g, -, rfl⟩ := List.mem_map.mp hr
      simp
    rw [h1, h2]
    simp [List.map_map, Function.comp_def]
  · simp only [otherAssignments, List.filter_append, List.filter_filter]
    have h2 : (gs.map (fun g => (t.opID, t.ID, g))).filter
        (fun r => !(r.1 == t.opID && r.2.1 == t.ID)) = [] := by
      rw [List.filter_eq_nil_iff]
      intro r hr
      obtain ⟨g, -, rfl⟩ := List.mem_map.mp hr
      simp
    rw [h2, List.append_nil]
    apply List.filter_congr
    intro r _
    simp

/-- C18: `Task.Assign(gs, nil)` replaces the assignees of the task atomically.  It returns
no error exactly when none of its statements (the delete, the inserts, the commit) failed,
and then the stored assignees of the task are exactly the non-empty IDs of `gs`, in order;
when it returns an error the committed tables are exactly what they were before the call.
In both cases the assignments of every other task and table `depends` are unchanged. -/
theorem Assign_atomic (env : TaskEnv) (t : Task) (gs : List GoogleID) (w : TaskWorld) :
    ((Task.Assign env t gs none w).2 = none ↔
      ∀ e ∈ tissued w (Task.Assign env t gs none w).1.1, e.2 = false) ∧
    ((Task.Assign env t gs none w).2 = none →
      assignees t (Task.Assign env t gs none w).1.1.store = gs.filter (fun g => g != "")) ∧
    (∀ err, (Task.Assign env t gs none w).2 = some err →
      (Task.Assign env t gs none w).1.1.store = w.store) ∧
    otherAssignments t (Task.Assign env t gs none w).1.1.store = otherAssignments t w.store ∧
    (Task.Assign env t gs none w).1.1.store.depends = w.store.depends := by
  obtain ⟨ext, h1, h2, h3⟩ := assignBody_spec env t gs w
  rcases hB : assignBody env t gs w with ⟨tx, _ | err⟩
  · rw [hB] at h1 h2 h3
    simp only [true_iff, forall_true_left] at h1 h2 h3
    cases hc : env.fails tx .commit
    · have hA : Task.Assign env t gs none w =
          (({ store := tx.store, trace := tx.trace ++ [(.commit, false)] }, none), none) := by
        simp [Task.Assign, hB, texec_ok hc, TaskCall.apply]
      rw [hA]
      have htr : tissued w ({ store := tx.store, trace := tx.trace ++ [(.commit, false)] } :
          TaskWorld) = ext ++ [(.commit, false)] :=
        tissued_eq (by rw [h1, List.append_assoc])
      refine ⟨?_, ?_, ?_, ?_, ?_⟩
      · rw [htr]
        simp only [true_iff, List.mem_append, List.mem_singleton]
        rintro e (he | rfl)
        · exact h2 e he
        · rfl
      · intro _
        show assignees t tx.store = _
        rw [h3]
        exact (assignees_replaced t w.store _).1
      · intro err herr
        exact absurd herr (by simp)
      · show otherAssignments t tx.store = _
        rw [h3]
        exact (assignees_replaced t w.store _).2
      · show tx.store.depends = _
        rw [h3]
    · have hA : Task.Assign env t gs none w =
          (({ w with trace := tx.trace ++ [(.commit, true)] }, none), some "store error") := by
        simp [Task.Assign, hB, texec_fail hc]
      rw [hA]
      have htr : tissued w ({ w with trace := tx.trace ++ [(.commit, true)] } : TaskWorld) =
          ext ++ [(.commit, true)] :=
        tissued_eq (by rw [h1, List.append_assoc])
      refine ⟨?_, by simp, fun _ _ => rfl, rfl, rfl⟩
      rw [htr]
      constructor
      · intro h
        exact absurd h (by simp)
      · intro h
        have := h (.commit, true) (by simp)
        exact absurd this (by simp)
  · rw [hB] at h1 h2 h3
    simp only at h1
    have hA : Task.Assign env t gs none w =
        (({ w with trace := tx.trace }, none), some err) := by
      simp [Task.Assign, hB]
    rw [hA]
    have htr : tissued w ({ w with trace := tx.trace } : TaskWorld) = ext :=
      tissued_eq h1
    refine ⟨?_, by simp, fun _ _ => rfl, rfl, rfl⟩
    rw [htr]
    simpa using h2

/-- Witness for C18: task M1 of X, assigned to G1, is reassigned to G3 and G4 (an empty ID
is skipped); the same call with the insert of G4 failing leaves M1 assigned to G1. -/
theorem Assign_atomic_witness :
    (Task.Assign TaskEnv.reliable taskM1 ["G3", "", "G4"] none sampleTasks).2 = none ∧
    assignees taskM1
        (Task.Assign TaskEnv.reliable taskM1 ["G3", "", "G4"] none sampleTasks).1.1.store =
      ["G3", "G4"] ∧
    (Task.Assign TaskEnv.reliable taskM1 ["G3", "", "G4"] none sampleTasks).1.1.store =
      { assignments := [("X", "L1", "G2"), ("X", "M1", "G3"), ("X", "M1", "G4")] } ∧
    (Task.Assign (TaskEnv.failingOn (.insertAssignment "X" "M1" "G4")) taskM1
        ["G3", "", "G4"] none sampleTasks).2 = some "store error" ∧
    (Task.Assign (TaskEnv.failingOn (.insertAssignment "X" "M1" "G4")) taskM1
        ["G3", "", "G4"] none sampleTasks).1.1.store = sampleTasks.store :=
  ⟨by decide,
   (Assign_atomic TaskEnv.reliable taskM1 ["G3", "", "G4"] sampleTasks).2.1 (by decide),
   by decide, by decide,
   (Assign_atomic (TaskEnv.failingOn (.insertAssignment "X" "M1" "G4")) taskM1
      ["G3", "", "G4"] sampleTasks).2.2.1 "store error" (by decide)⟩

/-! ## C19: `Operation.Populate` -/

theorem access_congr (o1 o2 : Operation) (gid : GoogleID) (db : DB) (h : o1.ID = o2.ID) :
    o1.ReadAccess gid db = o2.ReadAccess gid db ∧
    o1.AssignedOnlyAccess gid db = o2.AssignedOnlyAccess gid db := by
  unfold Operation.ReadAccess Operation.AssignedOnlyAccess
  rw [h]
  exact ⟨rfl, rfl⟩

/-- The helper `PopulateTeams` reads only, and fills nothing but the team list. -/
theorem PopulateTeams_frame (env : Env) (o : Operation) (w : World) :
    (o.PopulateTeams env w).1.db = w.db ∧
    (o.PopulateTeams env w).2.1.ID = o.ID ∧
    (o.PopulateTeams env w).2.1.OpPortals = o.OpPortals ∧
    (o.PopulateTeams env w).2.1.Markers = o.Markers ∧
    (o.PopulateTeams env w).2.1.Links = o.Links ∧
    (o.PopulateTeams env w).2.1.Anchors = o.Anchors ∧
    (o.PopulateTeams env w).2.1.Keys = o.Keys := by
  unfold Operation.PopulateTeams
  cases hf : env.fails w (.populateTeams o.ID)
  · rw [exec_ok hf]
    exact ⟨rfl, rfl, rfl, rfl, rfl, rfl, rfl⟩
  · rw [exec_fail hf]
    exact ⟨rfl, rfl, rfl, rfl, rfl, rfl, rfl⟩

/-- When no store call fails, the read branch fills the five lists with the stored rows of
the operation. -/
theorem populateAll_reliable {env : Env} (hf : ∀ w c, env.fails w c = false)
    (fetched : String) (o : Operation) (w : World) :
    (populateAll env fetched o w).2.2 = none ∧
    (populateAll env fetched o w).1.db = w.db ∧
    (populateAll env fetched o w).2.1 =
      { o with
        OpPortals := rowsOf o.ID w.db.portal
        Markers := rowsOf o.ID w.db.marker
        Links := rowsOf o.ID w.db.link
        Anchors := rowsOf o.ID w.db.anchor
        Keys := rowsOf o.ID w.db.opkeys
        Fetched := fetched } := by
  simp only [populateAll, Operation.PopulatePortals, Operation.PopulateMarkers,
    Operation.PopulateLinks, Operation.PopulateAnchors, Operation.PopulateKeys,
    exec_ok (hf _ _), Call.apply, and_self]

/-- C19: let the query of the operation row succeed.  For an operation ID that is not
stored, `Operation.Populate` returns the error "operation not found" and fills nothing.
For a stored operation: an agent without read access and with assigned-only access gets
exactly the result of `PopulateAssignedOnly` (called on the operation with its lists still
as given), which when no call fails holds the tasks assigned to the agent only; an agent
with neither gets the unauthorized error with the portal, marker, link, anchor and key
lists as given; and an agent with read access gets, when no call fails, no error and the
five lists filled with all stored rows of the operation. -/
theorem Populate_access (env : Env) (fetched : String) (o : Operation) (gid : GoogleID)
    (w : World) (hsel : env.fails w (.selectOperation o.ID) = false) :
    ((∀ r ∈ w.db.operation, r.ID ≠ o.ID) →
      (o.Populate env fetched gid w).2.2 = some "operation not found" ∧
      (o.Populate env fetched gid w).2.1 = o) ∧
    ((∃ r ∈ w.db.operation, r.ID = o.ID) →
      (o.ReadAccess gid w.db = false → o.AssignedOnlyAccess gid w.db = true →
        (∃ (w1 : World) (o1 : Operation),
          o.Populate env fetched gid w = o1.PopulateAssignedOnly env gid w1 ∧
          w1.db = w.db ∧ o1.ID = o.ID ∧ o1.OpPortals = o.OpPortals ∧
          o1.Markers = o.Markers ∧ o1.Links = o.Links ∧ o1.Anchors = o.Anchors ∧
          o1.Keys = o.Keys) ∧
        ((∀ w c, env.fails w c = false) →
          (o.Populate env fetched gid w).2.2 = none ∧
          (o.Populate env fetched gid w).2.1.Markers = assignedMarkers o.ID gid w.db ∧
          (o.Populate env fetched gid w).2.1.Links = assignedLinks o.ID gid w.db)) ∧
      (o.ReadAccess gid w.db = false → o.AssignedOnlyAccess gid w.db = false →
        (o.Populate env fetched gid w).2.2 = some (unauthorizedError gid o.ID) ∧
        (o.Populate env fetched gid w).2.1.OpPortals = o.OpPortals ∧
        (o.Populate env fetched gid w).2.1.Markers = o.Markers ∧
        (o.Populate env fetched gid w).2.1.Links = o.Links ∧
        (o.Populate env fetched gid w).2.1.Anchors = o.Anchors ∧
        (o.Populate env fetched gid w).2.1.Keys = o.Keys) ∧
      (o.ReadAccess gid w.db = true → (∀ w c, env.fails w c = false) →
        (o.Populate env fetched gid w).2.2 = none ∧
        (o.Populate env fetched gid w).2.1.OpPortals = rowsOf o.ID w.db.portal ∧
        (o.Populate env fetched gid w).2.1.Markers = rowsOf o.ID w.db.marker ∧
        (o.Populate env fetched gid w).2.1.Links = rowsOf o.ID w.db.link ∧
        (o.Populate env fetched gid w).2.1.Anchors = rowsOf o.ID w.db.anchor ∧
        (o.Populate env fetched gid w).2.1.Keys = rowsOf o.ID w.db.opkeys)) := by
  constructor
  · intro hno
    have hfind : w.db.operation.find? (fun r => r.ID == o.ID) = none := by
      rw [List.find?_eq_none]
      intro r hr
      simpa using hno r hr
    simp [Operation.Populate, exec_ok hsel, Call.apply, hfind]
  · rintro ⟨r, hr, hid⟩
    rcases hfind : w.db.operation.find? (fun r => r.ID == o.ID) with _ | r0
    · rw [List.find?_eq_none] at hfind
      exact absurd (by simpa using hid) (hfind r hr)
    have hT := PopulateTeams_frame env
      { o with Name := r0.name, Gid := r0.gid, Color := r0.color,
               Modified := formatTime r0.modified }
      { w with db := (Call.selectOperation o.ID).apply env.cascade w.db,
               trace := w.trace ++ [.selectOperation o.ID] }
    rcases hP : Operation.PopulateTeams env
      { o with Name := r0.name, Gid := r0.gid, Color := r0.color,
               Modified := formatTime r0.modified }
      { w with db := (Call.selectOperation o.ID).apply env.cascade w.db,
               trace := w.trace ++ [.selectOperation o.ID] } with ⟨w2, o2, e2⟩
    rw [hP] at hT
    obtain ⟨hdb, hID, hps, hms, hls, has, hks⟩ := hT
    simp only at hdb hID hps hms hls has hks
    have hdb2 : w2.db = w.db := hdb
    have hshape : o.Populate env fetched gid w =
        if !o2.ReadAccess gid w2.db then
          if o2.AssignedOnlyAccess gid w2.db then o2.PopulateAssignedOnly env gid w2
          else (w2, o2, some (unauthorizedError gid o2.ID))
        else
          populateAll env fetched
            (match r0.comment with
             | some c => { o2 with Comment := c }
             | none => o2) w2 := by
      have hfind2 : ((Call.selectOperation o.ID).apply env.cascade w.db).operation.find?
          (fun r => r.ID == o.ID) = some r0 := hfind
      unfold Operation.Populate
      rw [exec_ok hsel]
      simp only [hfind2, hP]
      try rfl
    have hacc := access_congr o2 o gid w.db hID
    rw [hshape, hdb2, hacc.1, hacc.2]
    refine ⟨?_, ?_, ?_⟩
    · intro h1 h2
      simp only [h1, h2, Bool.not_false, if_true]
      refine ⟨⟨w2, o2, rfl, hdb2, hID, hps, hms, hls, has, hks⟩, ?_⟩
      intro hf
      simp only [Operation.PopulateAssignedOnly, exec_ok (hf _ _), Call.apply, hdb2, hID]
      refine ⟨?_, ?_, ?_⟩ <;> trivial
    · intro h1 h2
      simp only [h1, h2, Bool.not_false, if_true, Bool.false_eq_true, if_false, hID]
      refine ⟨?_, hps, hms, hls, has, hks⟩
      trivial
    · intro h1 hf
      simp only [h1, Bool.not_true, Bool.false_eq_true, if_false]
      obtain ⟨g1, g2, g3⟩ := populateAll_reliable hf fetched
        (match r0.comment with
         | some c => { o2 with Comment := c }
         | none => o2) w2
      have hID2 : (match r0.comment with
         | some c => { o2 with Comment := c }
         | none => o2).ID = o.ID := by
        cases r0.comment <;> exact hID
      rw [g3, hID2, hdb2]
      exact ⟨g1, rfl, rfl, rfl, rfl, rfl⟩

/-- Witness for C19: on the store where G2 reads X through a team and G4 only has marker M1
assigned: an unknown operation Q, the reader G2, the assignee G4 and the stranger G9. -/
theorem Populate_access_witness :
    ((Env.reliable true).fails accessWorld (.selectOperation (onlyID "Q").ID) = false ∧
      (∀ r ∈ accessWorld.db.operation, r.ID ≠ (onlyID "Q").ID)) ∧
    (Operation.Populate (Env.reliable true) "now" (onlyID "Q") "G2" accessWorld).2.2 =
      some "operation not found" ∧
    ((∃ r ∈ accessWorld.db.operation, r.ID = (onlyID "X").ID) ∧
      (onlyID "X").ReadAccess "G2" accessWorld.db = true ∧
      (∀ w c, (Env.reliable true).fails w c = false)) ∧
    (Operation.Populate (Env.reliable true) "now" (onlyID "X") "G2" accessWorld).2.1.Markers =
      rowsOf (onlyID "X").ID accessWorld.db.marker ∧
    ((onlyID "X").ReadAccess "G4" accessWorld.db = false ∧
      (onlyID "X").AssignedOnlyAccess "G4" accessWorld.db = true) ∧
    (Operation.Populate (Env.reliable true) "now" (onlyID "X") "G4" accessWorld).2.1.Markers =
      assignedMarkers (onlyID "X").ID "G4" accessWorld.db ∧
    ((onlyID "X").ReadAccess "G9" accessWorld.db = false ∧
      (onlyID "X").AssignedOnlyAccess "G9" accessWorld.db = false) ∧
    (Operation.Populate (Env.reliable true) "now" (onlyID "X") "G9" accessWorld).2.2 =
      some (unauthorizedError "G9" (onlyID "X").ID) ∧
    rowsOf "X" accessWorld.db.marker = [{ markerA with AssignedTo := "G4" }, markerZ] ∧
    assignedMarkers "X" "G4" accessWorld.db = [{ markerA with AssignedTo := "G4" }] :=
  ⟨⟨rfl, by decide⟩,
   ((Populate_access (Env.reliable true) "now" (onlyID "Q") "G2" accessWorld rfl).1
      (by decide)).1,
   ⟨⟨⟨"X", "plan", "G0", "main", 5, none⟩, by decide, by decide⟩, by decide, fun _ _ => rfl⟩,
   (((Populate_access (Env.reliable true) "now" (onlyID "X") "G2" accessWorld rfl).2
      ⟨⟨"X", "plan", "G0", "main", 5, none⟩, by decide, by decide⟩).2.2 (by decide)
      (fun _ _ => rfl)).2.2.1,
   ⟨by decide, by decide⟩,
   ((((Populate_access (Env.reliable true) "now" (onlyID "X") "G4" accessWorld rfl).2
      ⟨⟨"X", "plan", "G0", "main", 5, none⟩, by decide, by decide⟩).1 (by decide)
      (by decide)).2 (fun _ _ => rfl)).2.1,
   ⟨by decide, by decide⟩,
   ((((Populate_access (Env.reliable true) "now" (onlyID "X") "G9" accessWorld rfl).2
      ⟨⟨"X", "plan", "G0", "main", 5, none⟩, by decide, by decide⟩).2.1 (by decide)
      (by decide))).1,
   by decide, by decide⟩

/-! ## C20: `Operation.Copy` -/

theorem goCopy_nil {α : Type} (src : List α) : goCopy ([] : List α) src = [] := by
  simp [goCopy]

theorem insertCalls_copyOf (o : Operation) (tmpid : String) :
    insertCalls (copyOf o tmpid) = [] := by
  simp [insertCalls, copyOf, goCopy_nil, listedMarkers, listedLinks, Operation.zero]

/-- C20, as the code has it: the operation that `Operation.Copy` builds has empty portal,
anchor, link, marker and team lists whatever the source holds (`copy` into the nil slices
of the zero value copies nothing).  For a populated source, `Copy` with `complete` set
stores nothing at all and still returns the generated ID; with `complete` unset, when the
insert of the operation row succeeds, it adds the row named "<source name> COPY" with the
source's color and leaves the portal, marker, link and key tables as they were. -/
theorem Copy_copies_nothing :
    (∀ (o : Operation) (tmpid : String),
      (copyOf o tmpid).OpPortals = [] ∧ (copyOf o tmpid).Anchors = [] ∧
      (copyOf o tmpid).Links = [] ∧ (copyOf o tmpid).Markers = [] ∧
      (copyOf o tmpid).Teams = []) ∧
    (∀ (env : Env) (now : Nat) (fetched tmpid : String) (o : Operation) (gid : GoogleID)
        (w : World), o.Name ≠ "" →
      o.Copy env now fetched (.ok tmpid) gid true w = (w, o, tmpid, none)) ∧
    (∀ (env : Env) (now : Nat) (fetched tmpid : String) (o : Operation) (gid : GoogleID)
        (w : World), o.Name ≠ "" →
      env.fails w (.insertOperation tmpid (o.Name ++ " " ++ "COPY") gid o.Color now none)
        = false →
      (o.Copy env now fetched (.ok tmpid) gid false w).2.2 = (tmpid, none) ∧
      (o.Copy env now fetched (.ok tmpid) gid false w).1.db =
        { w.db with operation := w.db.operation ++
            [⟨tmpid, o.Name ++ " " ++ "COPY", gid, o.Color, now, none⟩] }) ∧
    (populatedX.OpPortals = [portalA, portalB] ∧ populatedX.Links = [linkAB] ∧
      (populatedX.Copy (Env.reliable true) 9 "now" (.ok "N1") "G0" false sampleWorld).2.2 =
        ("N1", none) ∧
      (populatedX.Copy (Env.reliable true) 9 "now" (.ok "N1") "G0" false sampleWorld).1.db =
        { sampleDB with operation := sampleDB.operation ++
            [⟨"N1", "plan COPY", "G0", "main", 9, none⟩] } ∧
      rowsOf "N1" (populatedX.Copy (Env.reliable true) 9 "now" (.ok "N1") "G0" false
        sampleWorld).1.db.portal = [] ∧
      rowsOf "N1" (populatedX.Copy (Env.reliable true) 9 "now" (.ok "N1") "G0" false
        sampleWorld).1.db.link = [] ∧
      (populatedX.Copy (Env.reliable true) 9 "now" (.ok "N1") "G0" true sampleWorld).1 =
        sampleWorld) := by
  refine ⟨?_, ?_, ?_, ?_⟩
  · intro o tmpid
    simp [copyOf, goCopy_nil, Operation.zero]
  · intro env now fetched tmpid o gid w hname
    simp [Operation.Copy, hname, copyOf]
  · intro env now fetched tmpid o gid w hname hins
    have hins2 : env.fails w (.insertOperation (copyOf o tmpid).ID (copyOf o tmpid).Name gid
        (copyOf o tmpid).Color now (MakeNullString (copyOf o tmpid).Comment)) = false := hins
    have hW := drawOpInsertWorker_replay env now (copyOf o tmpid) gid w hins2
    rw [insertCalls_copyOf, replay_cons, replay_nil, exec_ok hins2] at hW
    simp only [Operation.Copy, hname, if_false, Bool.not_false, if_true, hW]
    exact ⟨rfl, rfl⟩
  · decide

/-- Witness for C20: the copy of the populated operation X of the sample store. -/
theorem Copy_copies_nothing_witness :
    (populatedX.Name ≠ "" ∧
      (Env.reliable true).fails sampleWorld
        (.insertOperation "N1" (populatedX.Name ++ " " ++ "COPY") "G0" populatedX.Color 9 none)
        = false) ∧
    populatedX.Copy (Env.reliable true) 9 "now" (.ok "N1") "G0" true sampleWorld =
      (sampleWorld, populatedX, "N1", none) ∧
    (populatedX.Copy (Env.reliable true) 9 "now" (.ok "N1") "G0" false sampleWorld).1.db =
      { sampleWorld.db with operation := sampleWorld.db.operation ++
          [⟨"N1", populatedX.Name ++ " " ++ "COPY", "G0", populatedX.Color, 9, none⟩] } :=
  ⟨⟨by decide, rfl⟩,
   Copy_copies_nothing.2.1 (Env.reliable true) 9 "now" "N1" populatedX "G0" sampleWorld
     (by decide),
   (Copy_copies_nothing.2.2.1 (Env.reliable true) 9 "now" "N1" populatedX "G0" sampleWorld
     (by decide) rfl).2⟩

/-! ## C21: the guard of `pDrawPortalHardnessRoute` -/

/-- C21: the guard of `pDrawPortalHardnessRoute` is inverted.  For an identified agent, the
handler answers an agent that HAS write access with the forbidden response "write access
required to set portal hardness", calling nothing and changing nothing, and it calls
`PortalHardness` for the requested portal exactly when the agent has NO write access. -/
theorem pDrawPortalHardnessRoute_inverted (m : ModelLayer) (req : Request) (gid : GoogleID)
    (s : Site) (hag : req.agent = .ok gid) :
    ((onlyID (mapGet "document" req.vars)).WriteAccess gid s.db = true →
      pDrawPortalHardnessRoute m req s =
        (s, .error "write access required to set portal hardness" StatusForbidden)) ∧
    ((onlyID (mapGet "document" req.vars)).WriteAccess gid s.db = false →
      (pDrawPortalHardnessRoute m req s).1.calls =
          s.calls ++ [.PortalHardness (mapGet "document" req.vars) (mapGet "portal" req.vars)
            (mapGet "hardness" req.form)] ∧
        (pDrawPortalHardnessRoute m req s).1.db =
          (m.PortalHardness (mapGet "document" req.vars) (mapGet "portal" req.vars)
            (mapGet "hardness" req.form) s.db).1) ∧
    ((pDrawPortalHardnessRoute m req s).1.calls ≠ s.calls ↔
      (onlyID (mapGet "document" req.vars)).WriteAccess gid s.db = false) := by
  have hcall : (onlyID (mapGet "document" req.vars)).WriteAccess gid s.db = false →
      (pDrawPortalHardnessRoute m req s).1 =
        ⟨(m.PortalHardness (mapGet "document" req.vars) (mapGet "portal" req.vars)
            (mapGet "hardness" req.form) s.db).1,
          s.calls ++ [.PortalHardness (mapGet "document" req.vars) (mapGet "portal" req.vars)
            (mapGet "hardness" req.form)]⟩ := by
    intro h
    have hid : (onlyID (mapGet "document" req.vars)).ID = mapGet "document" req.vars := rfl
    simp only [pDrawPortalHardnessRoute, hag, h, hid]
    rcases hm : m.PortalHardness (mapGet "document" req.vars) (mapGet "portal" req.vars)
      (mapGet "hardness" req.form) s.db with ⟨db, _ | err⟩ <;> simp
  refine ⟨?_, ?_, ?_⟩
  · intro h
    simp [pDrawPortalHardnessRoute, hag, h]
  · intro h
    rw [hcall h]
    exact ⟨rfl, rfl⟩
  · cases h : (onlyID (mapGet "document" req.vars)).WriteAccess gid s.db
    · rw [hcall h]
      simp
    · simp [pDrawPortalHardnessRoute, hag, h]

/-- Witness for C21: the owner G0 of the sample operation X is refused, and the agent G9,
who has no access to X, gets `PortalHardness` called. -/
theorem pDrawPortalHardnessRoute_inverted_witness :
    (hardnessRequest "G0").agent = .ok "G0" ∧
    (onlyID "X").WriteAccess "G0" sampleDB = true ∧
    pDrawPortalHardnessRoute idleModel (hardnessRequest "G0") ⟨sampleDB, []⟩ =
      (⟨sampleDB, []⟩, .error "write access required to set portal hardness" StatusForbidden) ∧
    (onlyID "X").WriteAccess "G9" sampleDB = false ∧
    (pDrawPortalHardnessRoute idleModel (hardnessRequest "G9") ⟨sampleDB, []⟩).1.calls =
      [.PortalHardness "X" "A" "hard"] :=
  ⟨rfl, by decide,
   (pDrawPortalHardnessRoute_inverted idleModel (hardnessRequest "G0") "G0" ⟨sampleDB, []⟩
      rfl).1 (by decide),
   by decide,
   ((pDrawPortalHardnessRoute_inverted idleModel (hardnessRequest "G9") "G9" ⟨sampleDB, []⟩
      rfl).2.1 (by decide)).1⟩
/-! ## C22: the conditional fetch of `pDrawGetRoute` -/

theorem skipsending_iff (clock : Clock) (lm : Time) (ims : String) :
    skipsending clock lm ims = true ↔
      ims ≠ "" ∧ ims ≠ "null" ∧ ∃ t, clock.parseRFC1123 ims = .ok t ∧ lm < t := by
  unfold skipsending
  by_cases h1 : ims = ""
  · simp [h1]
  · by_cases h2 : ims = "null"
    · simp [h2]
    · rcases hp : clock.parseRFC1123 ims with e | t <;> simp [h1, h2]

/-- The response of `pDrawGetRoute` once the access check and `Populate` have succeeded. -/
theorem pDrawGetRoute_populated (env : Env) (clock : Clock) (fetched : String) (req : Request)
    (gid : GoogleID) (w w1 : World) (o1 : Operation) (hag : req.agent = .ok gid)
    (hacc : (onlyID (mapGet "document" req.vars)).ReadAccess gid w.db = true ∨
      (onlyID (mapGet "document" req.vars)).AssignedOnlyAccess gid w.db = true)
    (hpop : (onlyID (mapGet "document" req.vars)).Populate env fetched gid w = (w1, o1, none)) :
    pDrawGetRoute env clock fetched req w =
      (w1, if skipsending clock (lastModifiedOf clock o1.Modified)
          (mapGet "If-Modified-Since" req.header) then .notModified else .document o1) := by
  have hg : (!(onlyID (mapGet "document" req.vars)).ReadAccess gid w.db &&
      !(onlyID (mapGet "document" req.vars)).AssignedOnlyAccess gid w.db) = false := by
    rcases hacc with h | h <;> simp [h]
  simp only [pDrawGetRoute, hag, hg, hpop]
  cases skipsending clock (lastModifiedOf clock o1.Modified)
    (mapGet "If-Modified-Since" req.header) <;> simp

/-- Counterexample for C22: the sample operation X was modified at second 5 and its owner
sends a well-formed last-seen timestamp of second 5, so the modified time is not later than
the timestamp; the handler sends the full document all the same. -/
theorem pDrawGetRoute_equal_counterexample :
    sampleClock.parseRFC1123 "Thu, 01 Jan 0001 00:00:05 UTC" = .ok 5 ∧
    (Operation.Populate (Env.reliable true) "now" (onlyID "X") "G0" sampleWorld).2.1.Modified
      = "5" ∧
    lastModifiedOf sampleClock "5" = 5 ∧
    (pDrawGetRoute (Env.reliable true) sampleClock "now"
      (getRequest "G0" "Thu, 01 Jan 0001 00:00:05 UTC") sampleWorld).2 ≠ .notModified ∧
    (pDrawGetRoute (Env.reliable true) sampleClock "now"
      (getRequest "G0" "Thu, 01 Jan 0001 00:00:05 UTC") sampleWorld).2 =
      .document (Operation.Populate (Env.reliable true) "now" (onlyID "X") "G0"
        sampleWorld).2.1 := by
  refine ⟨rfl, by decide, rfl, by decide, by decide⟩

/-- C22: for an identified agent allowed to read the operation (read access or
assigned-only access) whose `Populate` succeeds, `pDrawGetRoute` signals not-modified, with
no document, exactly when the header `If-Modified-Since` is neither empty nor "null",
parses, and the parsed modified time of the operation is STRICTLY earlier than the parsed
timestamp; in every other case, among them equal timestamps, a modified time after the
timestamp, an absent header, the value "null" and an unparsable value, it sends the full
document as populated. -/
theorem pDrawGetRoute_conditional (env : Env) (clock : Clock) (fetched : String)
    (req : Request) (gid : GoogleID) (w w1 : World) (o1 : Operation)
    (hag : req.agent = .ok gid)
    (hacc : (onlyID (mapGet "document" req.vars)).ReadAccess gid w.db = true ∨
      (onlyID (mapGet "document" req.vars)).AssignedOnlyAccess gid w.db = true)
    (hpop : (onlyID (mapGet "document" req.vars)).Populate env fetched gid w = (w1, o1, none)) :
    (∀ t, mapGet "If-Modified-Since" req.header ≠ "" →
      mapGet "If-Modified-Since" req.header ≠ "null" →
      clock.parseRFC1123 (mapGet "If-Modified-Since" req.header) = .ok t →
      (lastModifiedOf clock o1.Modified < t →
        pDrawGetRoute env clock fetched req w = (w1, .notModified)) ∧
      (t ≤ lastModifiedOf clock o1.Modified →
        pDrawGetRoute env clock fetched req w = (w1, .document o1))) ∧
    ((mapGet "If-Modified-Since" req.header = "" ∨
        mapGet "If-Modified-Since" req.header = "null" ∨
        (∃ e, clock.parseRFC1123 (mapGet "If-Modified-Since" req.header) = .error e)) →
      pDrawGetRoute env clock fetched req w = (w1, .document o1)) := by
  rw [pDrawGetRoute_populated env clock fetched req gid w w1 o1 hag hacc hpop]
  refine ⟨?_, ?_⟩
  · intro t h1 h2 hp
    refine ⟨?_, ?_⟩
    · intro hlt
      rw [(skipsending_iff clock _ _).2 ⟨h1, h2, t, hp, hlt⟩]
      rfl
    · intro hle
      have hn : skipsending clock (lastModifiedOf clock o1.Modified)
          (mapGet "If-Modified-Since" req.header) = false := by
        rw [Bool.eq_false_iff]
        intro hs
        obtain ⟨-, -, t1, hp1, hlt⟩ := (skipsending_iff clock _ _).1 hs
        rw [hp] at hp1
        cases hp1
        exact absurd hlt (not_lt.mpr hle)
      rw [hn]
      rfl
  · intro h
    have hn : skipsending clock (lastModifiedOf clock o1.Modified)
        (mapGet "If-Modified-Since" req.header) = false := by
      rw [Bool.eq_false_iff]
      intro hs
      obtain ⟨h1, h2, t1, hp1, -⟩ := (skipsending_iff clock _ _).1 hs
      rcases h with h | h | ⟨e, h⟩
      · exact h1 h
      · exact h2 h
      · rw [h] at hp1
        cases hp1
    rw [hn]
    rfl

/-- Witness for C22: the owner G0 of the sample operation X, modified at second 5, is told
"not modified" for a timestamp of second 6 and is sent the document for a timestamp of
second 4 and for the header value "null". -/
theorem pDrawGetRoute_conditional_witness :
    (getRequest "G0" "Thu, 01 Jan 0001 00:00:06 UTC").agent = .ok "G0" ∧
    (onlyID "X").ReadAccess "G0" sampleWorld.db = true ∧
    lastModifiedOf sampleClock
      (Operation.Populate (Env.reliable true) "now" (onlyID "X") "G0" sampleWorld).2.1.Modified
      = 5 ∧
    pDrawGetRoute (Env.reliable true) sampleClock "now"
        (getRequest "G0" "Thu, 01 Jan 0001 00:00:06 UTC") sampleWorld =
      ((Operation.Populate (Env.reliable true) "now" (onlyID "X") "G0" sampleWorld).1,
        .notModified) ∧
    pDrawGetRoute (Env.reliable true) sampleClock "now"
        (getRequest "G0" "Thu, 01 Jan 0001 00:00:04 UTC") sampleWorld =
      ((Operation.Populate (Env.reliable true) "now" (onlyID "X") "G0" sampleWorld).1,
        .document
          (Operation.Populate (Env.reliable true) "now" (onlyID "X") "G0" sampleWorld).2.1) ∧
    pDrawGetRoute (Env.reliable true) sampleClock "now" (getRequest "G0" "null") sampleWorld =
      ((Operation.Populate (Env.reliable true) "now" (onlyID "X") "G0" sampleWorld).1,
        .document
          (Operation.Populate (Env.reliable true) "now" (onlyID "X") "G0" sampleWorld).2.1) :=
  ⟨rfl, by decide, by decide,
   ((pDrawGetRoute_conditional (Env.reliable true) sampleClock "now"
      (getRequest "G0" "Thu, 01 Jan 0001 00:00:06 UTC") "G0" sampleWorld
      (Operation.Populate (Env.reliable true) "now" (onlyID "X") "G0" sampleWorld).1
      (Operation.Populate (Env.reliable true) "now" (onlyID "X") "G0" sampleWorld).2.1 rfl
      (Or.inl (by decide)) (by decide)).1 6 (by decide) (by decide) rfl).1 (by decide),
   ((pDrawGetRoute_conditional (Env.reliable true) sampleClock "now"
      (getRequest "G0" "Thu, 01 Jan 0001 00:00:04 UTC") "G0" sampleWorld
      (Operation.Populate (Env.reliable true) "now" (onlyID "X") "G0" sampleWorld).1
      (Operation.Populate (Env.reliable true) "now" (onlyID "X") "G0" sampleWorld).2.1 rfl
      (Or.inl (by decide)) (by decide)).1 4 (by decide) (by decide) rfl).2 (by decide),
   (pDrawGetRoute_conditional (Env.reliable true) sampleClock "now"
      (getRequest "G0" "null") "G0" sampleWorld
      (Operation.Populate (Env.reliable true) "now" (onlyID "X") "G0" sampleWorld).1
      (Operation.Populate (Env.reliable true) "now" (onlyID "X") "G0" sampleWorld).2.1 rfl
      (Or.inl (by decide)) (by decide)).2 (Or.inr (Or.inl rfl))⟩

/-! ## C23: the count of `pDrawPortalKeysRoute` -/

theorem digitChar_digit (d : Nat) (h : d < 10) :
    (Nat.digitChar d).isDigit = true ∧ (Nat.digitChar d).toNat - 48 = d := by
  interval_cases d <;> exact ⟨by decide, by decide⟩

theorem valFrom_append (acc : Nat) (a b : List Char) :
    valFrom acc (a ++ b) = valFrom (valFrom acc a) b := by
  simp [valFrom, List.foldl_append]

theorem valFrom_ge (ds : List Char) : ∀ acc, acc ≤ valFrom acc ds := by
  induction ds with
  | nil => intro acc; exact le_refl _
  | cons c cs ih =>
    intro acc
    have h := ih (acc * 10 + (c.toNat - 48))
    show acc ≤ valFrom (acc * 10 + (c.toNat - 48)) cs
    omega

/-- The digits that `Nat.toDigits 10` produces: a non-empty string of decimal digits whose
positional value is the number. -/
theorem toDigitsCore_spec (fuel : Nat) : ∀ (n : Nat) (ds : List Char), n < fuel →
    ∃ pre, Nat.toDigitsCore 10 fuel n ds = pre ++ ds ∧ pre ≠ [] ∧
      (∀ c ∈ pre, c.isDigit = true) ∧ valFrom 0 pre = n := by
  induction fuel with
  | zero => intro n ds h; omega
  | succ fuel ih =>
    intro n ds h
    have hd := digitChar_digit (n % 10) (Nat.mod_lt _ (by decide))
    unfold Nat.toDigitsCore
    by_cases h0 : n / 10 = 0
    · refine ⟨[Nat.digitChar (n % 10)], by simp [h0], by simp, by simpa using hd.1, ?_⟩
      simp only [valFrom, List.foldl_cons, List.foldl_nil, hd.2]
      omega
    · have hlt : n / 10 < fuel := by omega
      obtain ⟨pre, h1, h2, h3, h4⟩ := ih (n / 10) (Nat.digitChar (n % 10) :: ds) hlt
      refine ⟨pre ++ [Nat.digitChar (n % 10)], by simp [h0, h1], by simp, ?_, ?_⟩
      · intro c hc
        simp only [List.mem_append, List.mem_singleton] at hc
        rcases hc with hc | rfl
        · exact h3 c hc
        · exact hd.1
      · rw [valFrom_append, h4]
        simp only [valFrom, List.foldl_cons, List.foldl_nil, hd.2]
        omega

theorem toString_digits (n : Nat) :
    ∃ c cs, (toString n).toList = c :: cs ∧ (∀ x ∈ c :: cs, x.isDigit = true) ∧
      valFrom 0 (c :: cs) = n := by
  obtain ⟨pre, h1, h2, h3, h4⟩ := toDigitsCore_spec (n + 1) n [] (by omega)
  rw [List.append_nil] at h1
  have hs : (toString n).toList = pre := by
    show (Nat.repr n).toList = pre
    simp [Nat.repr, Nat.toDigits, h1, List.asString]
  cases pre with
  | nil => exact absurd rfl h2
  | cons c cs => exact ⟨c, cs, hs, h3, h4⟩

theorem parseUintLoop_digits (ds : List Char) : ∀ acc, acc < 2 ^ 64 →
    (∀ c ∈ ds, c.isDigit = true) →
    parseUintLoop ds acc =
      if valFrom acc ds < 2 ^ 64 then (valFrom acc ds, none) else (2 ^ 64 - 1, some ErrRange) := by
  induction ds with
  | nil =>
    intro acc h _
    have hv : valFrom acc [] = acc := rfl
    rw [hv, if_pos h]
    rfl
  | cons c cs ih =>
    intro acc h hd
    have hc : c.isDigit = true := hd c (List.mem_cons_self _ _)
    have hcs : ∀ x ∈ cs, x.isDigit = true := fun x hx => hd x (List.mem_cons_of_mem _ hx)
    unfold parseUintLoop
    simp only [hc, Bool.not_true, Bool.false_eq_true, if_false]
    have hv : valFrom acc (c :: cs) = valFrom (acc * 10 + (c.toNat - 48)) cs := rfl
    by_cases hov : acc * 10 + (c.toNat - 48) ≥ 2 ^ 64
    · have := valFrom_ge cs (acc * 10 + (c.toNat - 48))
      have hn : ¬ valFrom acc (c :: cs) < 2 ^ 64 := by rw [hv]; omega
      rw [if_pos hov, if_neg hn]
    · rw [if_neg hov, ih _ (by omega) hcs, hv]

theorem digit_not_sign {c : Char} (h : c.isDigit = true) : c ≠ '+' ∧ c ≠ '-' := by
  constructor <;> (rintro rfl; exact absurd h (by decide))

/-- Function `ParseInt` on a string that starts with no sign. -/
theorem ParseInt_unsigned (s : String) (c : Char) (cs : List Char) (u : Nat × Option Error)
    (hs : s.toList = c :: cs) (hp : (c == '+') = false) (hm : (c == '-') = false)
    (hu : ParseUint (c :: cs) = u) (he : u.2 ≠ some ErrSyntax) :
    ParseInt s = if u.1 ≥ 2 ^ 63 then (2 ^ 63 - 1, some ErrRange) else ((u.1 : Int), none) := by
  unfold ParseInt
  rw [hs]
  simp only [hp, hm, Bool.or_false, Bool.false_eq_true, if_false, hu, Bool.not_false,
    Bool.true_and, Bool.false_and, decide_eq_true_eq, beq_iff_eq, he]

/-- Function `ParseInt` on a string that starts with a minus sign. -/
theorem ParseInt_minus (s : String) (cs : List Char) (u : Nat × Option Error)
    (hs : s.toList = '-' :: cs)
    (hu : ParseUint cs = u) (he : u.2 ≠ some ErrSyntax) :
    ParseInt s = if u.1 > 2 ^ 63 then (-(2 ^ 63), some ErrRange) else (-(u.1 : Int), none) := by
  unfold ParseInt
  rw [hs]
  simp only [beq_self_eq_true, Bool.or_true, if_true, hu, Bool.not_true,
    Bool.true_and, Bool.false_and, decide_eq_true_eq, beq_iff_eq, he, Bool.false_eq_true,
    if_false]

theorem ParseUint_digits (n : Nat) (c : Char) (cs : List Char)
    (h2 : ∀ x ∈ c :: cs, x.isDigit = true) (h3 : valFrom 0 (c :: cs) = n) :
    ParseUint (c :: cs) = if n < 2 ^ 64 then (n, none) else (2 ^ 64 - 1, some ErrRange) := by
  unfold ParseUint
  rw [if_neg (List.cons_ne_nil _ _), parseUintLoop_digits _ 0 (by norm_num) h2, h3]

/-- What `Atoi` makes of the decimal text of a natural number. -/
theorem Atoi_toString (n : Nat) :
    Atoi (toString n) =
      if n < 2 ^ 63 then ((n : Int), none) else (2 ^ 63 - 1, some ErrRange) := by
  obtain ⟨c, cs, h1, h2, h3⟩ := toString_digits n
  have hc := digit_not_sign (h2 c (List.mem_cons_self _ _))
  have hu := ParseUint_digits n c cs h2 h3
  unfold Atoi
  rw [ParseInt_unsigned _ c cs _ h1 (by simpa using hc.1) (by simpa using hc.2) hu
    (by split <;> simp [ErrSyntax, ErrRange])]
  by_cases h64 : n < 2 ^ 64
  · rw [if_pos h64]
    by_cases h63 : n < 2 ^ 63
    · rw [if_pos h63, if_neg (by simpa using h63)]
    · rw [if_neg h63, if_pos (by simpa using h63)]
  · have h63 : ¬ n < 2 ^ 63 := by omega
    rw [if_neg h64, if_neg h63]
    exact if_pos (by norm_num)

/-- What `Atoi` makes of a minus sign followed by the decimal text of a natural number. -/
theorem Atoi_neg_toString (n : Nat) :
    Atoi ("-" ++ toString n) =
      if n ≤ 2 ^ 63 then (-(n : Int), none) else (-(2 ^ 63), some ErrRange) := by
  obtain ⟨c, cs, h1, h2, h3⟩ := toString_digits n
  have hu := ParseUint_digits n c cs h2 h3
  have hl : ("-" ++ toString n).toList = '-' :: c :: cs := by
    rw [← h1]
    rfl
  unfold Atoi
  rw [ParseInt_minus _ (c :: cs) _ hl hu (by split <;> simp [ErrSyntax, ErrRange])]
  by_cases h64 : n < 2 ^ 64
  · rw [if_pos h64]
    by_cases h63 : n ≤ 2 ^ 63
    · rw [if_pos h63, if_neg (by simpa using h63)]
    · rw [if_neg h63, if_pos (by simpa using h63)]
  · have h63 : ¬ n ≤ 2 ^ 63 := by omega
    rw [if_neg h64, if_neg h63]
    exact if_pos (by norm_num)

theorem int32_small (v : Int) (h0 : 0 ≤ v) (h1 : v ≤ 3000) : int32 v = v := by
  unfold int32
  norm_num
  omega

theorem onhandOf_eq (s : String) :
    onhandOf s = if (Atoi s).2.isSome = true ∨ (Atoi s).1 < 0 then 0
      else if (Atoi s).1 > 3000 then 3000 else (Atoi s).1 := by
  unfold onhandOf
  rcases hA : Atoi s with ⟨v, _ | e⟩
  · simp only [Option.isSome_none, Bool.false_eq_true, if_false, false_or]
    by_cases h0 : v < 0
    · simp only [h0, if_true]
      exact int32_small 0 (by norm_num) (by norm_num)
    · simp only [h0, if_false]
      by_cases h1 : v > 3000
      · simp only [h1, if_true]
        exact int32_small 3000 (by norm_num) (by norm_num)
      · simp only [h1, if_false]
        exact int32_small v (by omega) (by omega)
  · simp only [Option.isSome_some, if_true, true_or]
    exact int32_small 0 (by norm_num) (by norm_num)

theorem onhandOf_toString (n : Nat) :
    onhandOf (toString n) =
      if n ≤ 3000 then (n : Int) else if n < 2 ^ 63 then 3000 else 0 := by
  rw [onhandOf_eq, Atoi_toString]
  by_cases h63 : n < 2 ^ 63
  · rw [if_pos h63]
    by_cases h3 : n ≤ 3000
    · have h1 : ¬ ((none : Option Error).isSome = true ∨ (n : Int) < 0) := by simp
      have h2 : ¬ ((n : Int) > 3000) := by omega
      simp only [h1, h2, h3, if_true, if_false]
    · have h1 : ¬ ((none : Option Error).isSome = true ∨ (n : Int) < 0) := by simp
      have h2 : (n : Int) > 3000 := by omega
      simp only [h1, h2, h3, h63, if_true, if_false]
  · have h3 : ¬ n ≤ 3000 := by omega
    rw [if_neg h63, if_neg h3, if_neg h63]
    simp

theorem onhandOf_neg_toString (n : Nat) : onhandOf ("-" ++ toString n) = 0 := by
  rw [onhandOf_eq, Atoi_neg_toString]
  by_cases h63 : n ≤ 2 ^ 63
  · rw [if_pos h63]
    by_cases h0 : n = 0
    · subst h0
      simp
    · have h1 : (none : Option Error).isSome = true ∨ -(n : Int) < 0 := Or.inr (by omega)
      simp only [h1, if_true]
  · rw [if_neg h63]
    simp

/-- Counterexample for C23: the decimal integer 9223372036854775808, which is above 3000,
gives the count 0 and not 3000, because `Atoi` reports it as out of range. -/
theorem onhandOf_huge_counterexample :
    toString (9223372036854775808 : Nat) = "9223372036854775808" ∧
    (9223372036854775808 : Nat) > 3000 ∧
    Atoi "9223372036854775808" = (9223372036854775807, some ErrRange) ∧
    onhandOf "9223372036854775808" = 0 ∧
    (pDrawPortalKeysRoute idleModel (keysRequest "9223372036854775808") {}).1.calls =
      [.KeyOnHand "X" "G1" "A" 0 "cap"] := by
  refine ⟨by decide, by decide, by decide, by decide, by decide⟩

/-- C23: for an identified agent, `pDrawPortalKeysRoute` calls `KeyOnHand` once, with the
count computed from the form value `onhand`.  For every form value this count lies between
0 and 3000 inclusive.  It is 0 whenever `Atoi` reports an error (a value that is not
numeric, or a number outside the range of a 64-bit `int`) and for every negative decimal
integer; for the decimal text of a natural number n it is n when n is at most 3000, it is
3000 when n is above 3000 and below 2^63, and it is 0 when n is 2^63 or more. -/
theorem pDrawPortalKeysRoute_count (m : ModelLayer) (req : Request) (gid : GoogleID) (s : Site)
    (hag : req.agent = .ok gid) :
    (pDrawPortalKeysRoute m req s).1.calls =
      s.calls ++ [.KeyOnHand (mapGet "document" req.vars) gid (mapGet "portal" req.vars)
        (onhandOf (mapGet "onhand" req.form)) (mapGet "capsule" req.form)] ∧
    (0 ≤ onhandOf (mapGet "onhand" req.form) ∧ onhandOf (mapGet "onhand" req.form) ≤ 3000) ∧
    ((Atoi (mapGet "onhand" req.form)).2 ≠ none → onhandOf (mapGet "onhand" req.form) = 0) ∧
    (∀ n : Nat, mapGet "onhand" req.form = "-" ++ toString n →
      onhandOf (mapGet "onhand" req.form) = 0) ∧
    (∀ n : Nat, mapGet "onhand" req.form = toString n →
      onhandOf (mapGet "onhand" req.form) =
        if n ≤ 3000 then (n : Int) else if n < 2 ^ 63 then 3000 else 0) := by
  refine ⟨?_, ?_, ?_, ?_, ?_⟩
  · have hid : (onlyID (mapGet "document" req.vars)).ID = mapGet "document" req.vars := rfl
    simp only [pDrawPortalKeysRoute, hag, hid]
    rcases hm : m.KeyOnHand (mapGet "document" req.vars) gid (mapGet "portal" req.vars)
      (onhandOf (mapGet "onhand" req.form)) (mapGet "capsule" req.form) s.db
      with ⟨db, _ | err⟩ <;> simp
  · rw [onhandOf_eq]
    split
    · exact ⟨le_refl _, by norm_num⟩
    · rename_i h
      split
      · exact ⟨by norm_num, le_refl _⟩
      · rename_i h1
        constructor <;> omega
  · intro he
    rw [onhandOf_eq]
    have h : (Atoi (mapGet "onhand" req.form)).2.isSome = true := by
      cases h2 : (Atoi (mapGet "onhand" req.form)).2 with
      | none => exact absurd h2 he
      | some e => rfl
    simp [h]
  · intro n hn
    rw [hn]
    exact onhandOf_neg_toString n
  · intro n hn
    rw [hn]
    exact onhandOf_toString n

/-- Witness for C23: the form values "5000", "2600", "-3" and "many" give the counts 3000,
2600, 0 and 0. -/
theorem pDrawPortalKeysRoute_count_witness :
    (keysRequest "5000").agent = .ok "G1" ∧
    (pDrawPortalKeysRoute idleModel (keysRequest "5000") {}).1.calls =
      [] ++ [.KeyOnHand (mapGet "document" (keysRequest "5000").vars) "G1"
        (mapGet "portal" (keysRequest "5000").vars)
        (onhandOf (mapGet "onhand" (keysRequest "5000").form))
        (mapGet "capsule" (keysRequest "5000").form)] ∧
    onhandOf "5000" = 3000 ∧ onhandOf "2600" = 2600 ∧ onhandOf "-3" = 0 ∧
    onhandOf "many" = 0 :=
  ⟨rfl, (pDrawPortalKeysRoute_count idleModel (keysRequest "5000") "G1" {} rfl).1,
   by decide, by decide, by decide, by decide⟩

/-! ## C24: `GoogleID.InsertDefensiveKey` -/

theorem InsertDefensiveKey_eq {F : Type} (fails : List DefensiveRow → DefensiveCall → Bool)
    (lib : FloatLib F) (gid : GoogleID) (dk : DefensiveKey) (t : List DefensiveRow) :
    GoogleID.InsertDefensiveKey fails lib gid dk t =
      dexec fails (if dk.Count < 1 then .delete gid dk.PortalID
        else .insertOrUpdate gid dk.PortalID dk.CapID dk.Count dk.Name (pointOf lib dk)) t := by
  unfold GoogleID.InsertDefensiveKey
  split
  · split <;> simp_all
  · split <;> simp_all

theorem insertOrUpdate_apply (gid : GoogleID) (p : PortalID) (cap : String) (n : Int)
    (name point : String) (t : List DefensiveRow) :
    (DefensiveCall.insertOrUpdate gid p cap n name point).apply t =
      if t.any (fun r => r.gid == gid && r.portalID == p) then
        t.map (fun r =>
          if r.gid == gid && r.portalID == p then { r with capID := cap, count := n } else r)
      else t ++ [⟨gid, p, cap, n, name, point⟩] := rfl

theorem update_others (gid : GoogleID) (p : PortalID) (cap : String) (n : Int)
    (t : List DefensiveRow) :
    (t.map (fun r =>
        if r.gid == gid && r.portalID == p then { r with capID := cap, count := n }
        else r)).filter (fun r => !r.isFor gid p) = t.filter (fun r => !r.isFor gid p) := by
  induction t with
  | nil => rfl
  | cons r t ih =>
    rw [List.map_cons, List.filter_cons, List.filter_cons, ih]
    by_cases h : (r.gid == gid && r.portalID == p) = true
    · have h1 : DefensiveRow.isFor gid p r = true := h
      have h2 : DefensiveRow.isFor gid p { r with capID := cap, count := n } = true := h
      simp only [h, if_true, h1, h2, Bool.not_true, Bool.false_eq_true, if_false]
    · have h1 : DefensiveRow.isFor gid p r = false := by simpa [DefensiveRow.isFor] using h
      simp only [h, if_false, h1, Bool.not_false, if_true, Bool.false_eq_true]

theorem update_own (gid : GoogleID) (p : PortalID) (cap : String) (n : Int)
    (t : List DefensiveRow) :
    (t.map (fun r =>
        if r.gid == gid && r.portalID == p then { r with capID := cap, count := n }
        else r)).filter (fun r => r.isFor gid p) =
      (t.filter (fun r => r.isFor gid p)).map (fun r => { r with capID := cap, count := n }) := by
  induction t with
  | nil => rfl
  | cons r t ih =>
    rw [List.map_cons, List.filter_cons, List.filter_cons, ih]
    by_cases h : (r.gid == gid && r.portalID == p) = true
    · have h1 : DefensiveRow.isFor gid p r = true := h
      have h2 : DefensiveRow.isFor gid p { r with capID := cap, count := n } = true := h
      simp only [h, if_true, h1, h2, List.map_cons]
    · have h1 : DefensiveRow.isFor gid p r = false := by simpa [DefensiveRow.isFor] using h
      simp only [h, if_false, h1, Bool.false_eq_true, if_false]

theorem insertOrUpdate_others (gid : GoogleID) (p : PortalID) (cap : String) (n : Int)
    (name point : String) (t : List DefensiveRow) :
    ((DefensiveCall.insertOrUpdate gid p cap n name point).apply t).filter
        (fun r => !r.isFor gid p) = t.filter (fun r => !r.isFor gid p) := by
  rw [insertOrUpdate_apply]
  split
  · exact update_others gid p cap n t
  · simp [List.filter_append, DefensiveRow.isFor]

theorem insertOrUpdate_own (gid : GoogleID) (p : PortalID) (cap : String) (n : Int)
    (name point : String) (t : List DefensiveRow) :
    ((DefensiveCall.insertOrUpdate gid p cap n name point).apply t).filter
        (fun r => r.isFor gid p) =
      if t.filter (fun r => r.isFor gid p) = [] then [⟨gid, p, cap, n, name, point⟩]
      else (t.filter (fun r => r.isFor gid p)).map
        (fun r => { r with capID := cap, count := n }) := by
  rw [insertOrUpdate_apply]
  by_cases hany : t.any (fun r => r.gid == gid && r.portalID == p) = true
  · have hne : t.filter (fun r => r.isFor gid p) ≠ [] := by
      obtain ⟨r, hr, hk⟩ := List.any_eq_true.1 hany
      intro he
      have : r ∈ t.filter (fun r => r.isFor gid p) := List.mem_filter.2 ⟨hr, hk⟩
      rw [he] at this
      simp at this
    rw [if_pos hany, if_neg hne]
    exact update_own gid p cap n t
  · have he : t.filter (fun r => r.isFor gid p) = [] := by
      rw [List.filter_eq_nil_iff]
      intro r hr hk
      exact hany (List.any_eq_true.2 ⟨r, hr, hk⟩)
    rw [if_neg hany, if_pos he, List.filter_append, he]
    simp [DefensiveRow.isFor]

/-- C24: `GoogleID.InsertDefensiveKey` issues one statement; when it fails the error is
returned and the table is unchanged.  When it succeeds, the records of other agents and
other portals are unchanged, and for the agent and the portal: with Count < 1 no record is
left; with Count >= 1 and no record before, the one record left holds the given capsule ID,
count and name and the location built from the given coordinates; with Count >= 1 and one
record before, the one record left is that record with the capsule ID and the count
replaced by the given ones. -/
theorem InsertDefensiveKey_spec {F : Type} (fails : List DefensiveRow → DefensiveCall → Bool)
    (lib : FloatLib F) (gid : GoogleID) (dk : DefensiveKey) (t : List DefensiveRow) :
    ((GoogleID.InsertDefensiveKey fails lib gid dk t).2 ≠ none →
      (GoogleID.InsertDefensiveKey fails lib gid dk t).1 = t) ∧
    ((GoogleID.InsertDefensiveKey fails lib gid dk t).2 = none →
      (GoogleID.InsertDefensiveKey fails lib gid dk t).1.filter
          (fun r => !r.isFor gid dk.PortalID) = t.filter (fun r => !r.isFor gid dk.PortalID) ∧
      (dk.Count < 1 →
        (GoogleID.InsertDefensiveKey fails lib gid dk t).1.filter
          (fun r => r.isFor gid dk.PortalID) = []) ∧
      (1 ≤ dk.Count →
        (t.filter (fun r => r.isFor gid dk.PortalID) = [] →
          (GoogleID.InsertDefensiveKey fails lib gid dk t).1.filter
              (fun r => r.isFor gid dk.PortalID) =
            [⟨gid, dk.PortalID, dk.CapID, dk.Count, dk.Name, pointOf lib dk⟩]) ∧
        (∀ r0, t.filter (fun r => r.isFor gid dk.PortalID) = [r0] →
          (GoogleID.InsertDefensiveKey fails lib gid dk t).1.filter
              (fun r => r.isFor gid dk.PortalID) =
            [{ r0 with capID := dk.CapID, count := dk.Count }]))) := by
  rw [InsertDefensiveKey_eq]
  unfold dexec
  by_cases hf : fails t (if dk.Count < 1 then DefensiveCall.delete gid dk.PortalID
      else .insertOrUpdate gid dk.PortalID dk.CapID dk.Count dk.Name (pointOf lib dk)) = true
  · rw [if_pos hf]
    exact ⟨fun _ => rfl, fun h => absurd h (by simp)⟩
  · rw [if_neg hf]
    refine ⟨fun h => absurd rfl h, fun _ => ?_⟩
    by_cases hc : dk.Count < 1
    · rw [if_pos hc]
      refine ⟨?_, fun _ => ?_, fun h1 => absurd hc (by omega)⟩
      · simp only [DefensiveCall.apply, DefensiveRow.isFor, List.filter_filter, Bool.and_self]
      · simp only [DefensiveCall.apply, DefensiveRow.isFor, List.filter_filter]
        rw [List.filter_eq_nil_iff]
        intro r _
        simp
    · rw [if_neg hc]
      refine ⟨insertOrUpdate_others _ _ _ _ _ _ t, fun h1 => absurd h1 hc, fun _ => ⟨?_, ?_⟩⟩
      · intro he
        rw [insertOrUpdate_own, if_pos he]
      · intro r0 he
        rw [insertOrUpdate_own, if_neg (by rw [he]; simp), he]
        rfl

/-- Witness for C24: in the sample table agent G1 reports 5 keys of portal A in capsule
"c2", then none, and then 3 keys of portal B under the name Beta; the record of agent G2
stays as it is all along. -/
theorem InsertDefensiveKey_spec_witness :
    GoogleID.InsertDefensiveKey (fun _ _ => false) sampleFloats "G1"
        ⟨"G1", "A", "c2", 5, "renamed", "garbage", "11"⟩ sampleDefensive =
      ([⟨"G1", "A", "c2", 5, "Alpha", "POINT(11.0000000 48.0000000)"⟩,
        ⟨"G2", "A", "c9", 1, "Alpha", "POINT(11.0000000 48.0000000)"⟩], none) ∧
    GoogleID.InsertDefensiveKey (fun _ _ => false) sampleFloats "G1"
        ⟨"G1", "A", "c2", 0, "Alpha", "48", "11"⟩ sampleDefensive =
      ([⟨"G2", "A", "c9", 1, "Alpha", "POINT(11.0000000 48.0000000)"⟩], none) ∧
    GoogleID.InsertDefensiveKey (fun _ _ => false) sampleFloats "G1"
        ⟨"G1", "B", "c3", 3, "Beta", "garbage", "11"⟩ sampleDefensive =
      (sampleDefensive ++ [⟨"G1", "B", "c3", 3, "Beta", "POINT(11.0000000 0.0000000)"⟩],
        none) ∧
    (GoogleID.InsertDefensiveKey (fun _ _ => false) sampleFloats "G1"
        ⟨"G1", "B", "c3", 3, "Beta", "garbage", "11"⟩ sampleDefensive).1.filter
        (fun r => !r.isFor "G1" "B") = sampleDefensive.filter (fun r => !r.isFor "G1" "B") :=
  ⟨by decide, by decide, by decide,
   ((InsertDefensiveKey_spec (fun _ _ => false) sampleFloats "G1"
      ⟨"G1", "B", "c3", 3, "Beta", "garbage", "11"⟩ sampleDefensive).2 (by decide)).1⟩

/-! ## C25: `Task.Depends` -/

theorem dependsLoop_blank (scan : TaskID → Option Error) (rows : List TaskID) :
    ∀ y ∈ dependsLoop scan rows, y = "" := by
  unfold dependsLoop
  refine foldl_invariant _ (fun tmp : List TaskID => ∀ y ∈ tmp, y = "") ?_ _ _ ?_
  · intro tmp row h
    simp only
    split
    · exact h
    · intro y hy
      simp only [List.mem_append, List.mem_singleton] at hy
      rcases hy with hy | rfl
      · exact h y hy
      · rfl
  · intro y hy
    simp at hy

theorem dependsLoop_scan_fails (rows : List TaskID) : dependsLoop scanIntoTask rows = [] := by
  unfold dependsLoop
  refine foldl_invariant _ (fun tmp : List TaskID => tmp = []) ?_ _ _ rfl
  intro tmp row h
  simpa [scanIntoTask] using h

theorem mem_dependsRows (t : Task) (s : TaskStore) (x : TaskID) :
    x ∈ dependsRows t s ↔ (t.opID, t.ID, x) ∈ s.depends := by
  unfold dependsRows
  rw [(List.perm_insertionSort _ _).mem_iff]
  simp only [List.mem_map, List.mem_filter, Bool.and_eq_true, beq_iff_eq]
  constructor
  · rintro ⟨⟨a, b, c⟩, ⟨hm, h1, h2⟩, rfl⟩
    simp only at h1 h2
    subst h1 h2
    exact hm
  · intro h
    exact ⟨(t.opID, t.ID, x), ⟨h, rfl, rfl⟩, rfl⟩

theorem Depends_blank (env : TaskEnv) (scan : TaskID → Option Error) (t : Task)
    (w : TaskWorld) : ∀ y ∈ (t.Depends env scan w).2.1, y = "" := by
  unfold Task.Depends
  split
  · intro y hy; simp at hy
  · exact dependsLoop_blank scan _

/-- C25: the round trip fails, because `Task.Depends` scans every row into the receiver
`t` and appends the variable `tt`, which is never assigned.  After `t.AddDepend(x)` has
succeeded, x is among the stored dependsOn IDs of t, but whatever the outcome of the scan
the list that `t.Depends()` returns holds empty IDs only, so it does not contain x when x
is not empty; with the scan of the Go library, which fails on every row, the list is
empty.  After `t.DelDepend(x)` has succeeded, x is not among the stored dependsOn IDs of
t. -/
theorem Depends_returns_no_dependency (env : TaskEnv) (scan : TaskID → Option Error)
    (t : Task) (x : String) (w : TaskWorld) :
    ((t.AddDepend env x w).2 = none →
      x ∈ dependsRows t (t.AddDepend env x w).1.store ∧
      (∀ y ∈ (t.Depends env scan (t.AddDepend env x w).1).2.1, y = "") ∧
      (x ≠ "" → x ∉ (t.Depends env scan (t.AddDepend env x w).1).2.1) ∧
      (t.Depends env scanIntoTask (t.AddDepend env x w).1).2.1 = []) ∧
    ((t.DelDepend env x w).2 = none →
      x ∉ dependsRows t (t.DelDepend env x w).1.store ∧
      (x ≠ "" → x ∉ (t.Depends env scan (t.DelDepend env x w).1).2.1)) := by
  refine ⟨?_, ?_⟩
  · intro h
    refine ⟨?_, Depends_blank env scan t _, ?_, ?_⟩
    · rw [mem_dependsRows]
      unfold Task.AddDepend at h ⊢
      by_cases hf : env.fails w (.insertDepend t.opID t.ID x) = true
      · rw [texec_fail hf] at h
        simp at h
      · rw [texec_ok (by simpa using hf)]
        simp [TaskCall.apply]
    · intro hx hm
      exact hx (Depends_blank env scan t _ x hm)
    · unfold Task.Depends
      split
      · rfl
      · exact dependsLoop_scan_fails _
  · intro h
    refine ⟨?_, fun hx hm => hx (Depends_blank env scan t _ x hm)⟩
    rw [mem_dependsRows]
    unfold Task.DelDepend at h ⊢
    by_cases hf : env.fails w (.deleteDepend t.opID t.ID x) = true
    · rw [texec_fail hf] at h
      simp at h
    · rw [texec_ok (by simpa using hf)]
      simp [TaskCall.apply]

/-- Witness for C25: task M1 of operation X gets the dependency "M2" in the sample store,
where no statement fails; "M2" is stored, and `Depends` returns the empty list without an
error. -/
theorem Depends_returns_no_dependency_witness :
    (taskM1.AddDepend TaskEnv.reliable "M2" sampleTasks).2 = none ∧
    dependsRows taskM1 (taskM1.AddDepend TaskEnv.reliable "M2" sampleTasks).1.store = ["M2"] ∧
    (taskM1.Depends TaskEnv.reliable scanIntoTask
      (taskM1.AddDepend TaskEnv.reliable "M2" sampleTasks).1).2 = ([], none) ∧
    "M2" ∉ (taskM1.Depends TaskEnv.reliable scanIntoTask
      (taskM1.AddDepend TaskEnv.reliable "M2" sampleTasks).1).2.1 :=
  ⟨by decide, by decide, by decide,
   ((Depends_returns_no_dependency TaskEnv.reliable scanIntoTask taskM1 "M2" sampleTasks).1
      (by decide)).2.2.1 (by decide)⟩

/-! ## C26: the key lookup of `vTeamRoute` -/

theorem vTeamLoop_calls (lib : VLayer) (teams : List TeamID) :
    ∀ (keys : List (String × String)) (tr : List VCall),
      (∀ g, mapGet g keys = "") →
      (∀ c ∈ tr, c.isLookup = false ∧ c.isKeyedSync = false) →
      ∀ c ∈ (vTeamLoop lib teams keys tr).1, c.isLookup = false ∧ c.isKeyedSync = false := by
  induction teams with
  | nil => intro keys tr _ htr; exact htr
  | cons t rest ih =>
    intro keys tr hk htr
    have hext : ∀ c ∈ tr ++ [VCall.Owner t, VCall.Sync t ""],
        c.isLookup = false ∧ c.isKeyedSync = false := by
      intro c hc
      simp only [List.mem_append, List.mem_cons, List.mem_singleton, List.not_mem_nil,
        or_false] at hc
      rcases hc with hc | rfl | rfl
      · exact htr c hc
      · exact ⟨rfl, rfl⟩
      · exact ⟨rfl, rfl⟩
    unfold vTeamLoop
    rcases ho : lib.Owner t with e | gid
    · refine ih keys _ hk ?_
      intro c hc
      simp only [List.mem_append, List.mem_singleton] at hc
      rcases hc with hc | rfl
      · exact htr c hc
      · exact ⟨rfl, rfl⟩
    · simp only [hk gid, bne_self_eq_false, Bool.false_eq_true, if_false]
      rcases hs : lib.Sync t "" with _ | err
      · exact ih keys _ hk hext
      · exact hext

theorem vTeamLoop_plain (lib : VLayer) (teams : List TeamID) :
    ∀ (keys : List (String × String)) (tr : List VCall),
      (∀ g, mapGet g keys = "") →
      (∀ t ∈ teams, ∃ g, lib.Owner t = .ok g) → (∀ t ∈ teams, lib.Sync t "" = none) →
      vTeamLoop lib teams keys tr = (tr ++ plainSyncs teams, none) := by
  induction teams with
  | nil => intro keys tr _ _ _; simp [vTeamLoop, plainSyncs]
  | cons t rest ih =>
    intro keys tr hk ho hs
    obtain ⟨g, hg⟩ := ho t (List.mem_cons_self _ _)
    unfold vTeamLoop
    simp only [hg, hk g, bne_self_eq_false, Bool.false_eq_true, if_false,
      hs t (List.mem_cons_self _ _)]
    rw [ih keys _ hk (fun x hx => ho x (List.mem_cons_of_mem _ hx))
      (fun x hx => hs x (List.mem_cons_of_mem _ hx))]
    simp [plainSyncs, List.flatMap_cons]

/-- C26: `vTeamRoute` never looks a V API key up and never passes one to `v.Sync`: in every
request no call of `VAPIkey` is made and every call of `v.Sync` carries the empty key,
because the lookup is guarded by `key != ""` on a map that starts empty.  When the team
list is found, every owner is found and the syncs with the empty key succeed, the handler
syncs every team linked to the V team with the empty key, also a team whose owner has no
V API key, and answers OK. -/
theorem vTeamRoute_never_looks_up (lib : VLayer) (req : Request) :
    (∀ c ∈ (vTeamRoute lib req).1, c.isLookup = false ∧ c.isKeyedSync = false) ∧
    (∀ vteam teams, mapGet "teamID" req.vars ≠ "" →
      ParseInt (mapGet "teamID" req.vars) = (vteam, none) →
      lib.GetTeamsByVID vteam = .ok teams →
      (∀ t ∈ teams, ∃ g, lib.Owner t = .ok g) → (∀ t ∈ teams, lib.Sync t "" = none) →
      vTeamRoute lib req = (.GetTeamsByVID vteam :: plainSyncs teams, .statusOK)) := by
  refine ⟨?_, ?_⟩
  · unfold vTeamRoute
    simp only
    split
    · intro c hc; simp at hc
    · split
      · intro c hc; simp at hc
      · rename_i vteam hp
        split
        · intro c hc
          simp only [List.mem_singleton] at hc
          subst hc
          exact ⟨rfl, rfl⟩
        · rename_i teams hteams
          have h := vTeamLoop_calls lib teams [] [.GetTeamsByVID vteam] (fun _ => rfl)
            (by
              intro c hc
              simp only [List.mem_singleton] at hc
              subst hc
              exact ⟨rfl, rfl⟩)
          split
          · rename_i tr err heq
            rw [heq] at h
            exact h
          · rename_i tr heq
            rw [heq] at h
            exact h
  · intro vteam teams hid hp hteams ho hs
    unfold vTeamRoute
    simp only [hid, if_false, hp, hteams, vTeamLoop_plain lib teams [] _ (fun _ => rfl) ho hs]
    rfl

/-- Witness for C26: in the sample, the owner G1 of team T1 has the key "k1" and the owner
G2 of team T2 has none; the handler asks for no key and syncs both teams with the empty
key. -/
theorem vTeamRoute_never_looks_up_witness :
    (mapGet "teamID" vRequest.vars ≠ "" ∧
      ParseInt (mapGet "teamID" vRequest.vars) = (7, none) ∧
      sampleV.GetTeamsByVID 7 = .ok ["T1", "T2"] ∧
      sampleV.Owner "T1" = .ok "G1" ∧ sampleV.VAPIkey "G1" = .ok "k1" ∧
      sampleV.Owner "T2" = .ok "G2" ∧ sampleV.VAPIkey "G2" = .ok "") ∧
    vTeamRoute sampleV vRequest =
      ([.GetTeamsByVID 7, .Owner "T1", .Sync "T1" "", .Owner "T2", .Sync "T2" ""],
        .statusOK) :=
  ⟨⟨by decide, by decide, rfl, rfl, rfl, rfl, rfl⟩,
   (vTeamRoute_never_looks_up sampleV vRequest).2 7 ["T1", "T2"] (by decide) (by decide) rfl
     (by intro t ht; simp only [List.mem_cons, List.mem_singleton, List.not_mem_nil,
           or_false] at ht
         rcases ht with rfl | rfl
         · exact ⟨"G1", rfl⟩
         · exact ⟨"G2", rfl⟩)
     (fun _ _ => rfl)⟩

/-! ## C27: the slice of `agentTargetRouteOld` -/

theorem splitLoop_length (sep : Char) (cs : List Char) :
    ∀ cur, (splitLoop sep cs cur).length = cs.count sep + 1 := by
  induction cs with
  | nil => intro cur; rfl
  | cons c cs ih =>
    intro cur
    unfold splitLoop
    by_cases h : c = sep
    · subst h
      simp [ih]
    · have h1 : (c == sep) = false := by simpa using h
      simp [h1, ih, List.count_cons, h]

theorem splitLoop_no_sep (sep : Char) (cs : List Char) (h : sep ∉ cs) :
    ∀ cur, splitLoop sep cs cur = [String.mk (cur.reverse ++ cs)] := by
  induction cs with
  | nil => intro cur; simp [splitLoop]
  | cons c cs ih =>
    intro cur
    have hc : (c == sep) = false := by
      simp only [List.mem_cons, not_or] at h
      simpa using fun e => h.1 e.symm
    have hcs : sep ∉ cs := fun hm => h (List.mem_cons_of_mem _ hm)
    unfold splitLoop
    simp [hc, ih hcs]

theorem targetLatLon_isSome (ll : String) :
    (targetLatLon ll).isSome = true ↔ ',' ∈ ll.toList := by
  have hlen := splitLoop_length ',' ll.toList []
  unfold targetLatLon GoSlice.upTo Split
  simp only
  by_cases hc : ',' ∈ ll.toList
  · have h2 : 2 ≤ (splitLoop ',' ll.toList []).length := by
      rw [hlen]
      have := List.count_pos_iff.2 hc
      omega
    rw [if_pos h2]
    simp only [GoSlice.index, hc, iff_true]
    rcases hs : splitLoop ',' ll.toList [] with _ | ⟨a, _ | ⟨b, t⟩⟩
    · rw [hs] at h2; simp at h2
    · rw [hs] at h2; simp at h2
    · simp
  · have h2 : ¬ 2 ≤ (splitLoop ',' ll.toList []).length := by
      rw [hlen, List.count_eq_zero_of_not_mem hc]
      omega
    rw [if_neg h2]
    simpa using hc

/-- C27: the slice expression `lls[:2]` of `agentTargetRouteOld` is in bounds exactly when
the form value `ll` contains a comma.  For a value without a comma, the empty value apart,
`strings.Split` returns a slice of length and capacity 1, the expression `lls[:2]` panics,
and the handler ends in a run-time failure without an answer; for a value with a comma the
two accesses are in bounds and the handler answers. -/
theorem agentTargetRouteOld_slice (lib : MessageLayer) (req : Request) (gid togid : GoogleID)
    (hag : req.agent = .ok gid) (hto : lib.ToGid (mapGet "id" req.vars) = .ok togid)
    (hportal : mapGet "portal" req.form ≠ "") (hll : mapGet "ll" req.form ≠ "") :
    (',' ∉ (mapGet "ll" req.form).toList →
      Split (mapGet "ll" req.form) ',' = ⟨[mapGet "ll" req.form], 1⟩ ∧
      (Split (mapGet "ll" req.form) ',').upTo 2 = none ∧
      agentTargetRouteOld lib req = none) ∧
    (',' ∈ (mapGet "ll" req.form).toList →
      (targetLatLon (mapGet "ll" req.form)).isSome = true ∧
      (agentTargetRouteOld lib req).isSome = true) := by
  refine ⟨?_, ?_⟩
  · intro hc
    have hs : splitLoop ',' (mapGet "ll" req.form).toList [] = [mapGet "ll" req.form] := by
      rw [splitLoop_no_sep ',' _ hc []]
      rfl
    have ht : targetLatLon (mapGet "ll" req.form) = none := by
      have := targetLatLon_isSome (mapGet "ll" req.form)
      cases h : targetLatLon (mapGet "ll" req.form) with
      | none => rfl
      | some x => rw [h] at this; exact absurd (this.1 rfl) hc
    refine ⟨?_, ?_, ?_⟩
    · unfold Split
      rw [hs]
      rfl
    · unfold Split GoSlice.upTo
      rw [hs]
      rfl
    · simp [agentTargetRouteOld, hag, hto, hportal, hll, ht]
  · intro hc
    have ht := (targetLatLon_isSome (mapGet "ll" req.form)).2 hc
    refine ⟨ht, ?_⟩
    rcases hx : targetLatLon (mapGet "ll" req.form) with _ | ⟨lat, lon⟩
    · rw [hx] at ht; exact absurd ht (by simp)
    · simp only [agentTargetRouteOld, hag, hto, hportal, hll, hx, if_false]
      rcases lib.SendMessage togid _ with ⟨_ | _, _ | e⟩ <;> rfl

/-- Witness for C27: the value "48.1" holds no comma and the handler panics; the value
"48.1,11.5" gives latitude "48.1" and longitude "11.5" and the handler answers. -/
theorem agentTargetRouteOld_slice_witness :
    ((targetRequest "48.1").agent = .ok "G1" ∧
      idleMessages.ToGid (mapGet "id" (targetRequest "48.1").vars) = .ok "G2" ∧
      mapGet "portal" (targetRequest "48.1").form ≠ "" ∧
      mapGet "ll" (targetRequest "48.1").form ≠ "" ∧
      ',' ∉ (mapGet "ll" (targetRequest "48.1").form).toList) ∧
    agentTargetRouteOld idleMessages (targetRequest "48.1") = none ∧
    targetLatLon "48.1,11.5" = some ("48.1", "11.5") ∧
    agentTargetRouteOld idleMessages (targetRequest "48.1,11.5") = some .statusOK :=
  ⟨⟨rfl, rfl, by decide, by decide, by decide⟩,
   ((agentTargetRouteOld_slice idleMessages (targetRequest "48.1") "G1" "G2" rfl rfl
      (by decide) (by decide)).1 (by decide)).2.2,
   by decide, by decide⟩

/-! ## C29: the creator field of a snapshot -/

theorem insertCalls_perEntity (o : Operation) : ∀ c ∈ insertCalls o, c.perEntity = true := by
  intro c hc
  simp only [insertCalls, List.mem_append, List.mem_map] at hc
  rcases hc with ((⟨p, -, rfl⟩ | ⟨m, -, rfl⟩) | ⟨l, -, rfl⟩) | ⟨k, -, rfl⟩ <;> rfl

theorem exec_operation_any (env : Env) (c : Call) (w : World) :
    (∀ db, (c.apply env.cascade db).operation = db.operation) →
    (exec env c w).1.db.operation = w.db.operation := by
  intro h
  unfold exec
  split
  · rfl
  · exact h _

/-- The table `operation` after a worker run that returns no error: the new row is
appended, with the calling agent as the owner. -/
theorem drawOpInsertWorker_operation (env : Env) (now : Nat) (o : Operation) (gid : GoogleID)
    (w : World) (h : (drawOpInsertWorker env now o gid w).2 = none) :
    (drawOpInsertWorker env now o gid w).1.db.operation =
      w.db.operation ++ [⟨o.ID, o.Name, gid, o.Color, now, MakeNullString o.Comment⟩] := by
  by_cases hi : env.fails w
      (.insertOperation o.ID o.Name gid o.Color now (MakeNullString o.Comment)) = true
  · rw [drawOpInsertWorker_fail _ _ _ _ _ hi] at h
    simp at h
  · have hi1 : env.fails w
        (.insertOperation o.ID o.Name gid o.Color now (MakeNullString o.Comment)) = false := by
      simpa using hi
    rw [drawOpInsertWorker_replay _ _ _ _ _ hi1]
    simp only
    rw [replay_cons, exec_ok hi1]
    apply replay_invariant env
      (fun x : World => x.db.operation =
        w.db.operation ++
          [(⟨o.ID, o.Name, gid, o.Color, now, MakeNullString o.Comment⟩ : OpRow)])
      (insertCalls o)
    · intro w1 c hc hw1
      show (exec env c w1).1.db.operation = _
      rw [exec_operation env c w1 (Or.inl (insertCalls_perEntity o c hc))]
      exact hw1
    · rfl

/-- The table `operation` after a creation that returns no error. -/
theorem DrawInsert_operation (env : Env) (now : Nat) (o : Operation) (gid : GoogleID)
    (w : World) (h : (DrawInsert env now (.ok o) gid w).2 = none) :
    (DrawInsert env now (.ok o) gid w).1.db.operation =
      w.db.operation ++ [⟨o.ID, o.Name, gid, o.Color, now, MakeNullString o.Comment⟩] := by
  unfold DrawInsert at h ⊢
  simp only [Unmarshal] at h ⊢
  rcases hx : exec env (.countOperation o.ID) w with ⟨w1, _ | e⟩
  · have hdb : w1.db.operation = w.db.operation := by
      have := exec_operation_any env (.countOperation o.ID) w
      rw [hx] at this
      exact this (fun _ => rfl)
    rw [hx] at h
    simp only at h ⊢
    split at h
    · simp at h
    · rename_i hcount
      rw [if_neg hcount]
      rcases hW : drawOpInsertWorker env now o gid w1 with ⟨w2, _ | e⟩
      · have := drawOpInsertWorker_operation env now o gid w1 (by rw [hW])
        rw [hW] at this
        simp only at this ⊢
        rw [this, hdb]
      · rw [hW] at h
        simp at h
  · rw [hx] at h
    simp at h

theorem owners_updateOperation (b : Bool) (id : OperationID) (name color : String)
    (comment : Option String) (db : DB) :
    owners ((Call.updateOperation id name color comment).apply b db) = owners db := by
  simp only [owners, Call.apply, List.map_map]
  apply List.map_congr_left
  intro r _
  by_cases h : r.ID = id <;> simp [h]

theorem owners_touch (b : Bool) (id : OperationID) (now : Nat) (db : DB) :
    owners ((Call.touch id now).apply b db) = owners db := by
  simp only [owners, Call.apply, List.map_map]
  apply List.map_congr_left
  intro r _
  by_cases h : r.ID = id <;> simp [h]

theorem exec_owners (env : Env) (c : Call) (w : World)
    (h : ∀ db, owners (c.apply env.cascade db) = owners db) :
    owners (exec env c w).1.db = owners w.db := by
  unfold exec
  split
  · rfl
  · exact h _

theorem drawOpUpdateWorker_owners (env : Env) (o : Operation) (w : World) :
    owners (drawOpUpdateWorker env o w).1.db = owners w.db := by
  have h := drawOpUpdateWorker_operation env o w
  have h1 := exec_owners env
    (.updateOperation o.ID o.Name o.Color (MakeNullString o.Comment)) w
    (owners_updateOperation _ _ _ _ _)
  unfold owners at h1 ⊢
  rw [h, h1]

theorem Touch_owners (env : Env) (now : Nat) (o : Operation) (w : World) :
    owners (o.Touch env now w).1.db = owners w.db := by
  have h1 := exec_owners env (.touch o.ID now) w (owners_touch _ _ _)
  unfold Operation.Touch
  split
  · rename_i w1 err heq
    rw [heq] at h1
    exact h1
  · rename_i w1 heq
    rw [heq] at h1
    exact h1

/-- The owner column is the same after `DrawUpdate` as before it, whatever the outcome. -/
theorem DrawUpdate_owners (env : Env) (now : Nat) (opID : OperationID) (op : RawMessage)
    (gid : GoogleID) (w : World) :
    owners (DrawUpdate env now opID op gid w).1.db = owners w.db := by
  unfold DrawUpdate
  rcases op with e | o
  · rfl
  · simp only [Unmarshal]
    split
    · rfl
    · split
      · rfl
      · have hW := drawOpUpdateWorker_owners env { o with Teams := [] } w
        rcases hx : drawOpUpdateWorker env { o with Teams := [] } w with ⟨w1, _ | e⟩
        · rw [hx] at hW
          have hT := Touch_owners env now { o with Teams := [] } w1
          simp only
          rcases hy : Operation.Touch env now { o with Teams := [] } w1 with ⟨w2, _ | e⟩
          · rw [hy] at hT
            simp only
            rw [hT, hW]
          · rw [hy] at hT
            simp only
            rw [hT, hW]
        · rw [hx] at hW
          exact hW

/-- C29: the field `Gid` (JSON `creator`) of a snapshot is never read.  Replacing it by any
other value changes neither the outcome of `DrawInsert` nor that of `DrawUpdate`, so two
snapshots that differ only in the creator produce the same stored state; a `DrawInsert`
that returns no error appends the operation row with the agent passed by the caller as the
owner; and after `DrawUpdate`, whatever its outcome, every stored operation has the owner
it had before. -/
theorem creator_never_read (env : Env) (now : Nat) (opID : OperationID) (o : Operation)
    (g gid : GoogleID) (w : World) :
    DrawInsert env now (.ok { o with Gid := g }) gid w = DrawInsert env now (.ok o) gid w ∧
    DrawUpdate env now opID (.ok { o with Gid := g }) gid w =
      DrawUpdate env now opID (.ok o) gid w ∧
    ((DrawInsert env now (.ok o) gid w).2 = none →
      (DrawInsert env now (.ok o) gid w).1.db.operation =
        w.db.operation ++ [⟨o.ID, o.Name, gid, o.Color, now, MakeNullString o.Comment⟩]) ∧
    owners (DrawUpdate env now opID (.ok o) gid w).1.db = owners w.db :=
  ⟨rfl, rfl, DrawInsert_operation env now o gid w, DrawUpdate_owners env now opID (.ok o) gid w⟩

/-- Witness for C29: agent G7 creates operation Z from a snapshot whose creator is G9, and
is recorded as the owner; the owner G0 of operation X stays the owner after an update by
the writer G3 with a snapshot whose creator is G9. -/
theorem creator_never_read_witness :
    purpleSnapshot.Gid = "G9" ∧
    (DrawInsert (Env.reliable true) 9 (.ok purpleSnapshot) "G7" sampleWorld).2 = none ∧
    (DrawInsert (Env.reliable true) 9 (.ok purpleSnapshot) "G7" sampleWorld).1.db.operation =
      sampleWorld.db.operation ++ [⟨"Z", "fresh", "G7", "purple", 9, some "note"⟩] ∧
    omitSnapshot.Gid = "G9" ∧
    (DrawUpdate (Env.reliable true) 9 "X" (.ok omitSnapshot) "G3" sampleWorld).2 = none ∧
    owners (DrawUpdate (Env.reliable true) 9 "X" (.ok omitSnapshot) "G3" sampleWorld).1.db =
      [("X", "G0"), ("Y", "G5")] :=
  ⟨rfl, by decide,
   (creator_never_read (Env.reliable true) 9 "X" purpleSnapshot "G1" "G7" sampleWorld).2.2.1
     (by decide),
   rfl, by decide, by decide⟩

/-! ## C30: the rows of other operations -/

theorem deleteOp_filter_within {α : Type} (X : OperationID) (q : OperationID × α → Bool)
    (t : List (OperationID × α)) :
    deleteOp X (t.filter (fun r => !(r.1 == X && q r))) = deleteOp X t := by
  unfold deleteOp
  rw [List.filter_filter]
  apply List.filter_congr
  intro r _
  by_cases h : r.1 = X <;> simp [h]

theorem deleteOp_deleteRow {α : Type} (key : α → String) (X : OperationID) (k : String)
    (t : List (OperationID × α)) : deleteOp X (deleteRow key X k t) = deleteOp X t :=
  deleteOp_filter_within X (fun r => key r.2 == k) t

theorem deleteOp_append_own {α : Type} (X : OperationID) (v : α)
    (t : List (OperationID × α)) : deleteOp X (t ++ [(X, v)]) = deleteOp X t := by
  simp [deleteOp, List.filter_append]

theorem deleteOp_upsertRow {α : Type} (key : α → String) (X : OperationID) (v : α)
    (t : List (OperationID × α)) : deleteOp X (upsertRow key X v t) = deleteOp X t := by
  have hmap : deleteOp X (t.map (fun r => if r.1 == X && key r.2 == key v then (X, v) else r))
      = deleteOp X t := by
    unfold deleteOp
    induction t with
    | nil => rfl
    | cons r t ih =>
      rw [List.map_cons, List.filter_cons, List.filter_cons, ih]
      by_cases h : r.1 = X
      · by_cases h2 : key r.2 = key v <;> simp [h, h2]
      · simp [h]
  unfold upsertRow
  split
  · exact hmap
  · exact deleteOp_append_own X v t

theorem opFilter_map (X : OperationID) (f : OpRow → OpRow) (l : List OpRow)
    (hf : ∀ r, (if r.ID == X then f r else r).ID = r.ID) :
    (l.map (fun r => if r.ID == X then f r else r)).filter (fun r => r.ID != X) =
      l.filter (fun r => r.ID != X) := by
  induction l with
  | nil => rfl
  | cons r l ih =>
    rw [List.map_cons, List.filter_cons, List.filter_cons, ih, hf r]
    by_cases h : r.ID = X <;> simp [h]

theorem deletePortalRows_foreign (b : Bool) (X : OperationID) (k : PortalID) (db : DB) :
    deletedDB X (deletePortalRows b X k db) = deletedDB X db := by
  unfold deletePortalRows
  cases b
  · simp only [Bool.false_eq_true, if_false, deletedDB, deleteOp_deleteRow]
  · simp only [if_true, deletedDB, deleteOp_deleteRow]
    rw [deleteOp_filter_within X (fun r : OperationID × Marker => r.2.PortalID == k),
      deleteOp_filter_within X (fun r : OperationID × Link => r.2.From == k || r.2.To == k),
      deleteOp_filter_within X (fun r : OperationID × KeyOnHand => r.2.ID == k)]

/-- Every store call leaves the rows of the operations it does not address as they are. -/
theorem apply_foreign (b : Bool) (c : Call) (db : DB) :
    deletedDB c.opID (c.apply b db) = deletedDB c.opID db := by
  cases c with
  | deletePortal id k => exact deletePortalRows_foreign b id k db
  | deleteOperation id =>
    cases b <;>
      simp [Call.apply, Call.opID, deletedDB, deleteOp_idem, List.filter_filter]
  | updateOperation id name color comment =>
    simp only [Call.apply, Call.opID, deletedDB]
    rw [opFilter_map id (fun r => { r with name := name, color := color, comment := comment })
      _ (fun r => by split <;> rfl)]
  | setComment id info =>
    simp only [Call.apply, Call.opID, deletedDB]
    rw [opFilter_map id (fun r => { r with comment := some info }) _
      (fun r => by split <;> rfl)]
  | touch id now =>
    simp only [Call.apply, Call.opID, deletedDB]
    rw [opFilter_map id (fun r => { r with modified := now }) _ (fun r => by split <;> rfl)]
  | rename id name =>
    simp only [Call.apply, Call.opID, deletedDB]
    rw [opFilter_map id (fun r => { r with name := name }) _ (fun r => by split <;> rfl)]
  | insertOperation id name gid color now comment =>
    simp [Call.apply, Call.opID, deletedDB, List.filter_append]
  | _ =>
    simp [Call.apply, Call.opID, deletedDB, deleteOp_idem, deleteOp_append_own,
      deleteOp_upsertRow, deleteOp_deleteRow]

theorem exec_foreign (env : Env) (c : Call) (w : World) :
    deletedDB c.opID (exec env c w).1.db = deletedDB c.opID w.db := by
  unfold exec
  split
  · rfl
  · exact apply_foreign _ _ _

theorem replay_foreign (env : Env) (X : OperationID) (cs : List Call)
    (h : ∀ c ∈ cs, c.opID = X) (w : World) :
    deletedDB X (replay env cs w).db = deletedDB X w.db := by
  apply replay_invariant env (fun x : World => deletedDB X x.db = deletedDB X w.db) cs
  · intro w1 c hc hw1
    have := exec_foreign env c w1
    rw [h c hc] at this
    show deletedDB X (exec env c w1).1.db = _
    rw [this, hw1]
  · rfl

theorem updateCall_opID {o : Operation} {c : Call} (h : updateCall o c) : c.opID = o.ID := by
  rcases h with rfl | rfl | rfl | rfl | ⟨p, -, rfl⟩ | ⟨m, -, -, rfl⟩ | ⟨l, -, -, -, rfl⟩ |
    ⟨k, rfl⟩ | ⟨k, rfl⟩ | ⟨k, rfl⟩ <;> rfl

theorem insertCalls_opID (o : Operation) : ∀ c ∈ insertCalls o, c.opID = o.ID := by
  intro c hc
  simp only [insertCalls, List.mem_append, List.mem_map] at hc
  rcases hc with ((⟨p, -, rfl⟩ | ⟨m, -, rfl⟩) | ⟨l, -, rfl⟩) | ⟨k, -, rfl⟩ <;> rfl

theorem drawOpInsertWorker_foreign (env : Env) (now : Nat) (o : Operation) (gid : GoogleID)
    (w : World) :
    deletedDB o.ID (drawOpInsertWorker env now o gid w).1.db = deletedDB o.ID w.db := by
  by_cases hi : env.fails w
      (.insertOperation o.ID o.Name gid o.Color now (MakeNullString o.Comment)) = true
  · rw [drawOpInsertWorker_fail _ _ _ _ _ hi]
  · rw [drawOpInsertWorker_replay _ _ _ _ _ (by simpa using hi)]
    apply replay_foreign
    intro c hc
    simp only [List.mem_cons] at hc
    rcases hc with rfl | hc
    · rfl
    · exact insertCalls_opID o c hc

theorem DrawInsert_foreign (env : Env) (now : Nat) (op : RawMessage) (gid : GoogleID)
    (w : World) (X : OperationID) (hX : ∀ o, op = .ok o → o.ID = X) :
    deletedDB X (DrawInsert env now op gid w).1.db = deletedDB X w.db := by
  unfold DrawInsert
  rcases op with e | o
  · rfl
  · have hid : o.ID = X := hX o rfl
    subst hid
    simp only [Unmarshal]
    have hc := exec_foreign env (.countOperation o.ID) w
    rcases hx : exec env (.countOperation o.ID) w with ⟨w1, _ | e⟩
    · rw [hx] at hc
      simp only at hc ⊢
      split
      · exact hc
      · have hW := drawOpInsertWorker_foreign env now o gid w1
        rcases hy : drawOpInsertWorker env now o gid w1 with ⟨w2, _ | e⟩
        · rw [hy] at hW
          simp only at hW ⊢
          rw [hW]
          exact hc
        · rw [hy] at hW
          simp only at hW ⊢
          rw [hW]
          exact hc
    · rw [hx] at hc
      exact hc

theorem drawOpUpdateWorker_foreign (env : Env) (o : Operation) (w : World) :
    deletedDB o.ID (drawOpUpdateWorker env o w).1.db = deletedDB o.ID w.db := by
  obtain ⟨ext, h1, h2, -⟩ := drawOpUpdateWorker_calls env o w
  rw [h1]
  exact replay_foreign env o.ID ext (fun c hc => updateCall_opID (h2 c hc)) w

theorem Touch_foreign (env : Env) (now : Nat) (o : Operation) (w : World) :
    deletedDB o.ID (o.Touch env now w).1.db = deletedDB o.ID w.db := by
  have h1 := exec_foreign env (.touch o.ID now) w
  unfold Operation.Touch
  split
  · rename_i w1 err heq
    rw [heq] at h1
    exact h1
  · rename_i w1 heq
    rw [heq] at h1
    exact h1

theorem DrawUpdate_foreign (env : Env) (now : Nat) (opID : OperationID) (op : RawMessage)
    (gid : GoogleID) (w : World) :
    deletedDB opID (DrawUpdate env now opID op gid w).1.db = deletedDB opID w.db := by
  unfold DrawUpdate
  rcases op with e | o
  · rfl
  · simp only [Unmarshal]
    split
    · rfl
    · rename_i hid
      have hid1 : opID = o.ID := by simpa using hid
      subst hid1
      split
      · rfl
      · have hW := drawOpUpdateWorker_foreign env { o with Teams := [] } w
        rcases hx : drawOpUpdateWorker env { o with Teams := [] } w with ⟨w1, _ | e⟩
        · rw [hx] at hW
          have hT := Touch_foreign env now { o with Teams := [] } w1
          simp only
          rcases hy : Operation.Touch env now { o with Teams := [] } w1 with ⟨w2, _ | e⟩
          · rw [hy] at hT
            simp only at hT hW ⊢
            rw [hT, hW]
          · rw [hy] at hT
            simp only at hT hW ⊢
            rw [hT, hW]
        · rw [hx] at hW
          exact hW

theorem rowsOf_of_deleteOp {α : Type} (X Y : OperationID) (hY : Y ≠ X)
    (t1 t2 : List (OperationID × α)) (h : deleteOp X t1 = deleteOp X t2) :
    rowsOf Y t1 = rowsOf Y t2 := by
  have key : ∀ t : List (OperationID × α), rowsOf Y t = rowsOf Y (deleteOp X t) := by
    intro t
    unfold rowsOf deleteOp
    rw [List.filter_filter]
    congr 1
    apply List.filter_congr
    intro r _
    by_cases h1 : r.1 = Y
    · have : r.1 ≠ X := fun e => hY (h1.symm.trans e)
      simp [h1, hY]
    · simp [h1]
  rw [key t1, key t2, h]

theorem opView_of_deletedDB (X Y : OperationID) (hY : Y ≠ X) (db1 db2 : DB)
    (h : deletedDB X db1 = deletedDB X db2) : opView Y db1 = opView Y db2 := by
  have hop : db1.operation.filter (fun r => r.ID == Y) =
      db2.operation.filter (fun r => r.ID == Y) := by
    have key : ∀ l : List OpRow, l.filter (fun r => r.ID == Y) =
        (l.filter (fun r => r.ID != X)).filter (fun r => r.ID == Y) := by
      intro l
      rw [List.filter_filter]
      apply List.filter_congr
      intro r _
      by_cases h1 : r.ID = Y
      · simp [h1, hY]
      · simp [h1]
    rw [key db1.operation, key db2.operation]
    exact congrArg (fun d : DB => d.operation.filter (fun r => r.ID == Y)) h
  unfold opView
  rw [hop, rowsOf_of_deleteOp X Y hY _ _ (congrArg DB.portal h),
    rowsOf_of_deleteOp X Y hY _ _ (congrArg DB.marker h),
    rowsOf_of_deleteOp X Y hY _ _ (congrArg DB.link h),
    rowsOf_of_deleteOp X Y hY _ _ (congrArg DB.opkeys h)]

/-- C30: `DrawInsert` of a snapshot with ID X and `DrawUpdate` for the operation X write
rows of X only.  Whatever store calls fail and whether the call returns an error or not,
the store without the rows of X is the same after the call as before it; in particular,
for every other operation Y the row of table `operation` (name, owner, color, modified
time, comment) and the portals, markers, links and key records of Y are unchanged. -/
theorem Draw_frame (env : Env) (now : Nat) (X : OperationID) (o : Operation)
    (op : RawMessage) (gid : GoogleID) (w : World) :
    (o.ID = X →
      deletedDB X (DrawInsert env now (.ok o) gid w).1.db = deletedDB X w.db ∧
      ∀ Y, Y ≠ X → opView Y (DrawInsert env now (.ok o) gid w).1.db = opView Y w.db) ∧
    deletedDB X (DrawUpdate env now X op gid w).1.db = deletedDB X w.db ∧
    (∀ Y, Y ≠ X → opView Y (DrawUpdate env now X op gid w).1.db = opView Y w.db) := by
  refine ⟨fun hX => ?_, DrawUpdate_foreign env now X op gid w,
    fun Y hY => opView_of_deletedDB X Y hY _ _ (DrawUpdate_foreign env now X op gid w)⟩
  have h := DrawInsert_foreign env now (.ok o) gid w X (fun o1 ho1 => by cases ho1; exact hX)
  exact ⟨h, fun Y hY => opView_of_deletedDB X Y hY _ _ h⟩

/-- Witness for C30: on the sample store with keys, markers and anchors, the creation of
operation Z and an update of operation X that deletes portal B with its cascade leave
operation Y with its row, its portal A, its marker and its key record. -/
theorem Draw_frame_witness :
    (purpleSnapshot.ID = "Z" ∧ "Y" ≠ "Z" ∧ "Y" ≠ "X") ∧
    opView "Y" (DrawInsert (Env.reliable true) 9 (.ok purpleSnapshot) "G7" fullWorld).1.db =
      opView "Y" fullWorld.db ∧
    (DrawUpdate (Env.reliable true) 9 "X" (.ok omitSnapshot) "G0" fullWorld).2 = none ∧
    opView "Y" (DrawUpdate (Env.reliable true) 9 "X" (.ok omitSnapshot) "G0" fullWorld).1.db =
      opView "Y" fullWorld.db ∧
    opView "Y" fullWorld.db =
      ([⟨"Y", "other", "G5", "groupa", 3, none⟩], [portalA], [markerA], [],
        [⟨"A", "G5", 2, ""⟩]) :=
  ⟨⟨rfl, by decide, by decide⟩,
   ((Draw_frame (Env.reliable true) 9 "Z" purpleSnapshot (.ok purpleSnapshot) "G7"
      fullWorld).1 rfl).2 "Y" (by decide),
   by decide,
   (Draw_frame (Env.reliable true) 9 "X" omitSnapshot (.ok omitSnapshot) "G0"
      fullWorld).2.2 "Y" (by decide),
   by decide⟩

/-! ## C28: a failed upsert leaves the ID to the cleanup -/

/-- Once a call of the list has made `A` true, and every call of the list keeps it true,
`A` is true after the list. -/
theorem replay_establish (env : Env) (A : World → Prop) (c0 : Call) (cs : List Call)
    (h0 : ∀ w, A (exec env c0 w).1)
    (hk : ∀ w c, c ∈ cs → A w → A (exec env c w).1) (hm : c0 ∈ cs) :
    ∀ w, A (replay env cs w) := by
  induction cs with
  | nil => simp at hm
  | cons c cs ih =>
    intro w
    rw [replay_cons]
    by_cases hc : c0 ∈ cs
    · exact ih (fun w1 c1 h1 => hk w1 c1 (List.mem_cons_of_mem _ h1)) hc _
    · have : c0 = c := by
        simp only [List.mem_cons] at hm
        rcases hm with h | h
        · exact h
        · exact absurd h hc
      subst this
      exact replay_invariant env A cs
        (fun w1 c1 h1 => hk w1 c1 (List.mem_cons_of_mem _ h1)) _ (h0 w)

/-- The working set after the link loop still holds an ID all of whose upserts fail. -/
theorem linkLoop_keeps (env : Env) (op : OperationID) (pm : List (PortalID × Portal))
    (k : LinkID) (hup : ∀ w l, l.ID = k → env.fails w (.updateLink op l) = true)
    (ls : List Link) (st : World × List (LinkID × LinkID)) (h : k ∈ mapKeys st.2) :
    k ∈ mapKeys (ls.foldl (updateLinkStep env op pm) st).2 := by
  refine foldl_invariant (updateLinkStep env op pm)
    (fun x : World × List (LinkID × LinkID) => k ∈ mapKeys x.2) ?_ ls st h
  intro s l hs
  unfold updateLinkStep
  split
  · exact hs
  · split
    · exact hs
    · by_cases hf : env.fails s.1 (.updateLink op l) = true
      · rw [exec_fail hf]
        exact hs
      · rw [exec_ok (by simpa using hf)]
        have hne : k ≠ l.ID := fun e => hf (hup s.1 l e.symm)
        exact (mem_mapKeys_mapDel k l.ID s.2).2 ⟨hne, hs⟩

theorem markerLoop_keeps (env : Env) (op : OperationID) (pm : List (PortalID × Portal))
    (k : MarkerID) (hup : ∀ w m, m.ID = k → env.fails w (.updateMarker op m) = true)
    (ms : List Marker) (st : World × List (MarkerID × MarkerID)) (h : k ∈ mapKeys st.2) :
    k ∈ mapKeys (ms.foldl (updateMarkerStep env op pm) st).2 := by
  refine foldl_invariant (updateMarkerStep env op pm)
    (fun x : World × List (MarkerID × MarkerID) => k ∈ mapKeys x.2) ?_ ms st h
  intro s m hs
  unfold updateMarkerStep
  split
  · exact hs
  · by_cases hf : env.fails s.1 (.updateMarker op m) = true
    · rw [exec_fail hf]
      exact hs
    · rw [exec_ok (by simpa using hf)]
      have hne : k ≠ m.ID := fun e => hf (hup s.1 m e.symm)
      exact (mem_mapKeys_mapDel k m.ID s.2).2 ⟨hne, hs⟩

theorem portalLoop_keeps (env : Env) (op : OperationID)
    (k : PortalID) (hup : ∀ w p, p.ID = k → env.fails w (.updatePortal op p) = true)
    (ps : List Portal) (st : PortalPass) (h : k ∈ mapKeys st.curPortals) :
    k ∈ mapKeys (ps.foldl (updatePortalStep env op) st).curPortals := by
  refine foldl_invariant (updatePortalStep env op)
    (fun x : PortalPass => k ∈ mapKeys x.curPortals) ?_ ps st h
  intro s p hs
  unfold updatePortalStep
  by_cases hf : env.fails s.w (.updatePortal op p) = true
  · rw [exec_fail hf]
    exact hs
  · rw [exec_ok (by simpa using hf)]
    have hne : k ≠ p.ID := fun e => hf (hup s.w p e.symm)
    exact (mem_mapKeys_mapDel k p.ID s.curPortals).2 ⟨hne, hs⟩

/-- The calls of the link part: calls on the links of the operation, among them the delete
of every stored ID all of whose upserts fail. -/
theorem linkPass_ext (env : Env) (o : Operation) (pm : List (PortalID × Portal)) (w : World) :
    ∃ ext, (linkPass env o pm w).1 = replay env ext w ∧ (∀ c ∈ ext, linkCall o.ID c) ∧
      (∀ k, env.fails w (.selectLinkIDs o.ID) = false →
        (∀ w1 l, l.ID = k → env.fails w1 (.updateLink o.ID l) = true) →
        k ∈ storedLinkIDs o.ID w.db → Call.deleteLink o.ID k ∈ ext) := by
  unfold linkPass
  by_cases hq : env.fails w (.selectLinkIDs o.ID) = true
  · refine ⟨[.selectLinkIDs o.ID], ?_, ?_, ?_⟩
    · rw [replay_cons, replay_nil, exec_fail hq]
    · intro c hc
      simp only [List.mem_singleton] at hc
      exact Or.inl hc
    · intro k h
      rw [hq] at h
      exact absurd h (by simp)
  · have hq1 : env.fails w (.selectLinkIDs o.ID) = false := by simpa using hq
    rw [exec_ok hq1]
    simp only
    rw [deleteLoop_replay_link, linkLoop_replay]
    refine ⟨[.selectLinkIDs o.ID] ++
      ((o.Links.filter (fun l => mapHas l.From pm && mapHas l.To pm)).map (.updateLink o.ID) ++
        (mapKeys (o.Links.foldl (updateLinkStep env o.ID pm)
          (({ w with db := (Call.selectLinkIDs o.ID).apply env.cascade w.db,
                     trace := w.trace ++ [.selectLinkIDs o.ID] } : World),
            stash (storedLinkIDs o.ID w.db))).2).map (.deleteLink o.ID)), ?_, ?_, ?_⟩
    · rw [replay_append, replay_append, replay_cons, replay_nil, exec_ok hq1]
      rfl
    · intro c hc
      simp only [List.mem_append, List.mem_singleton, List.mem_map] at hc
      rcases hc with rfl | ⟨l, -, rfl⟩ | ⟨k, -, rfl⟩
      · exact Or.inl rfl
      · exact Or.inr (Or.inl ⟨l, rfl⟩)
      · exact Or.inr (Or.inr ⟨k, rfl⟩)
    · intro k _ hup hst
      apply List.mem_append_right
      apply List.mem_append_right
      refine List.mem_map.2 ⟨k, ?_, rfl⟩
      exact linkLoop_keeps env o.ID pm k hup _ _ ((mem_mapKeys_stash k _).2 hst)

/-- The calls of the marker part and of the link part that follows it. -/
theorem markerPass_ext (env : Env) (o : Operation) (pm : List (PortalID × Portal))
    (w : World) :
    ∃ ext, (markerPass env o pm w).1 = replay env ext w ∧
      (∀ c ∈ ext, markerCall o.ID c ∨ linkCall o.ID c) ∧
      (∀ k, env.fails w (.selectMarkerIDs o.ID) = false →
        (∀ w1 m, m.ID = k → env.fails w1 (.updateMarker o.ID m) = true) →
        k ∈ storedMarkerIDs o.ID w.db → Call.deleteMarker o.ID k ∈ ext) := by
  unfold markerPass
  by_cases hq : env.fails w (.selectMarkerIDs o.ID) = true
  · refine ⟨[.selectMarkerIDs o.ID], ?_, ?_, ?_⟩
    · rw [replay_cons, replay_nil, exec_fail hq]
    · intro c hc
      simp only [List.mem_singleton] at hc
      exact Or.inl (Or.inl hc)
    · intro k h
      rw [hq] at h
      exact absurd h (by simp)
  · have hq1 : env.fails w (.selectMarkerIDs o.ID) = false := by simpa using hq
    rw [exec_ok hq1]
    simp only
    rw [deleteLoop_replay_marker, markerLoop_replay]
    obtain ⟨extL, hL1, hL2, -⟩ := linkPass_ext env o pm
      (replay env
        ((mapKeys (o.Markers.foldl (updateMarkerStep env o.ID pm)
          (({ w with db := (Call.selectMarkerIDs o.ID).apply env.cascade w.db,
                     trace := w.trace ++ [.selectMarkerIDs o.ID] } : World),
            stash (storedMarkerIDs o.ID w.db))).2).map (.deleteMarker o.ID))
        (replay env
          ((o.Markers.filter (fun m => mapHas m.PortalID pm)).map (.updateMarker o.ID))
          ({ w with db := (Call.selectMarkerIDs o.ID).apply env.cascade w.db,
                    trace := w.trace ++ [.selectMarkerIDs o.ID] } : World)))
    refine ⟨[.selectMarkerIDs o.ID] ++
      ((o.Markers.filter (fun m => mapHas m.PortalID pm)).map (.updateMarker o.ID) ++
        ((mapKeys (o.Markers.foldl (updateMarkerStep env o.ID pm)
          (({ w with db := (Call.selectMarkerIDs o.ID).apply env.cascade w.db,
                     trace := w.trace ++ [.selectMarkerIDs o.ID] } : World),
            stash (storedMarkerIDs o.ID w.db))).2).map (.deleteMarker o.ID) ++ extL)),
      ?_, ?_, ?_⟩
    · rw [replay_append, replay_append, replay_append, replay_cons, replay_nil, exec_ok hq1]
      exact hL1
    · intro c hc
      simp only [List.mem_append, List.mem_singleton, List.mem_map] at hc
      rcases hc with rfl | ⟨m, -, rfl⟩ | ⟨k, -, rfl⟩ | hc
      · exact Or.inl (Or.inl rfl)
      · exact Or.inl (Or.inr (Or.inl ⟨m, rfl⟩))
      · exact Or.inl (Or.inr (Or.inr ⟨k, rfl⟩))
      · exact Or.inr (hL2 c hc)
    · intro k _ hup hst
      apply List.mem_append_right
      apply List.mem_append_right
      apply List.mem_append_left
      refine List.mem_map.2 ⟨k, ?_, rfl⟩
      exact markerLoop_keeps env o.ID pm k hup _ _ ((mem_mapKeys_stash k _).2 hst)

/-- The calls of the portal part and of the marker and link parts that follow it. -/
theorem portalPass_ext (env : Env) (o : Operation) (w : World) :
    ∃ ext, (portalPass env o w).1 = replay env ext w ∧
      (∀ c ∈ ext, portalCall o.ID c ∨ markerCall o.ID c ∨ linkCall o.ID c) ∧
      (∀ k, env.fails w (.selectPortalIDs o.ID) = false →
        (∀ w1 p, p.ID = k → env.fails w1 (.updatePortal o.ID p) = true) →
        k ∈ storedPortalIDs o.ID w.db → Call.deletePortal o.ID k ∈ ext) := by
  unfold portalPass
  by_cases hq : env.fails w (.selectPortalIDs o.ID) = true
  · refine ⟨[.selectPortalIDs o.ID], ?_, ?_, ?_⟩
    · rw [replay_cons, replay_nil, exec_fail hq]
    · intro c hc
      simp only [List.mem_singleton] at hc
      exact Or.inl (Or.inl hc)
    · intro k h
      rw [hq] at h
      exact absurd h (by simp)
  · have hq1 : env.fails w (.selectPortalIDs o.ID) = false := by simpa using hq
    rw [exec_ok hq1]
    simp only
    rw [deleteLoop_replay_portal, portalLoop_replay]
    obtain ⟨extM, hM1, hM2, -⟩ := markerPass_ext env o
      (o.OpPortals.foldl (updatePortalStep env o.ID)
        ⟨({ w with db := (Call.selectPortalIDs o.ID).apply env.cascade w.db,
                   trace := w.trace ++ [.selectPortalIDs o.ID] } : World), [],
          stash (storedPortalIDs o.ID w.db)⟩).portalMap
      (replay env
        ((mapKeys (o.OpPortals.foldl (updatePortalStep env o.ID)
          ⟨({ w with db := (Call.selectPortalIDs o.ID).apply env.cascade w.db,
                     trace := w.trace ++ [.selectPortalIDs o.ID] } : World), [],
            stash (storedPortalIDs o.ID w.db)⟩).curPortals).map (.deletePortal o.ID))
        (replay env (o.OpPortals.map (.updatePortal o.ID))
          ({ w with db := (Call.selectPortalIDs o.ID).apply env.cascade w.db,
                    trace := w.trace ++ [.selectPortalIDs o.ID] } : World)))
    refine ⟨[.selectPortalIDs o.ID] ++
      (o.OpPortals.map (.updatePortal o.ID) ++
        ((mapKeys (o.OpPortals.foldl (updatePortalStep env o.ID)
          ⟨({ w with db := (Call.selectPortalIDs o.ID).apply env.cascade w.db,
                     trace := w.trace ++ [.selectPortalIDs o.ID] } : World), [],
            stash (storedPortalIDs o.ID w.db)⟩).curPortals).map (.deletePortal o.ID) ++ extM)),
      ?_, ?_, ?_⟩
    · rw [replay_append, replay_append, replay_append, replay_cons, replay_nil, exec_ok hq1]
      exact hM1
    · intro c hc
      simp only [List.mem_append, List.mem_singleton, List.mem_map] at hc
      rcases hc with rfl | ⟨p, -, rfl⟩ | ⟨k, -, rfl⟩ | hc
      · exact Or.inl (Or.inl rfl)
      · exact Or.inl (Or.inr (Or.inl ⟨p, rfl⟩))
      · exact Or.inl (Or.inr (Or.inr ⟨k, rfl⟩))
      · exact Or.inr (hM2 c hc)
    · intro k _ hup hst
      apply List.mem_append_right
      apply List.mem_append_right
      apply List.mem_append_left
      refine List.mem_map.2 ⟨k, ?_, rfl⟩
      exact portalLoop_keeps env o.ID k hup _ _ ((mem_mapKeys_stash k _).2 hst)

theorem absent_filter {α : Type} (key : α → String) (op : OperationID) (k : String)
    (q : OperationID × α → Bool) (t : List (OperationID × α))
    (h : k ∉ selectIDs key op t) : k ∉ selectIDs key op (t.filter q) := by
  intro hm
  obtain ⟨r, hr, h1, h2⟩ := (mem_selectIDs key op k _).1 hm
  exact h ((mem_selectIDs key op k t).2 ⟨r, (List.mem_filter.1 hr).1, h1, h2⟩)

theorem deleted_absent {α : Type} (key : α → String) (op : OperationID) (k : String)
    (t : List (OperationID × α)) : k ∉ selectIDs key op (deleteRow key op k t) := by
  intro hm
  obtain ⟨r, hr, h1, h2⟩ := (mem_selectIDs key op k _).1 hm
  exact ((mem_deleteRow key op k t r).1 hr).2 ⟨h1, h2⟩

theorem absent_upsertRow {α : Type} (key : α → String) (op : OperationID) (k : String)
    (v : α) (t : List (OperationID × α)) (hne : k ≠ key v)
    (h : k ∉ selectIDs key op t) : k ∉ selectIDs key op (upsertRow key op v t) := by
  intro hm
  rcases (selectIDs_upsertRow key op v t k).1 hm with h1 | h1
  · exact hne h1
  · exact h h1

/-- A call on the links of the operation stores no link under an ID all of whose upserts
fail. -/
theorem exec_link_absent (env : Env) (id : OperationID) (k : LinkID)
    (hup : ∀ w l, l.ID = k → env.fails w (.updateLink id l) = true)
    (c : Call) (hc : linkCall id c) (w : World) (h : k ∉ storedLinkIDs id w.db) :
    k ∉ storedLinkIDs id (exec env c w).1.db := by
  unfold exec
  split
  · exact h
  · rename_i hf
    rcases hc with rfl | ⟨l, rfl⟩ | ⟨k1, rfl⟩
    · exact h
    · have hne : k ≠ l.ID := fun e => hf (hup w l e.symm)
      exact absent_upsertRow Link.ID id k l _ hne h
    · exact absent_filter Link.ID id k _ _ h

theorem exec_link_deleted (env : Env) (id : OperationID) (k : LinkID)
    (hdel : ∀ w, env.fails w (.deleteLink id k) = false) (w : World) :
    k ∉ storedLinkIDs id (exec env (.deleteLink id k) w).1.db := by
  rw [exec_ok (hdel w)]
  exact deleted_absent Link.ID id k _

theorem exec_marker_absent (env : Env) (id : OperationID) (k : MarkerID)
    (hup : ∀ w m, m.ID = k → env.fails w (.updateMarker id m) = true)
    (c : Call) (hc : markerCall id c ∨ linkCall id c) (w : World)
    (h : k ∉ storedMarkerIDs id w.db) :
    k ∉ storedMarkerIDs id (exec env c w).1.db := by
  unfold exec
  split
  · exact h
  · rename_i hf
    rcases hc with (rfl | ⟨m, rfl⟩ | ⟨k1, rfl⟩) | (rfl | ⟨l, rfl⟩ | ⟨k1, rfl⟩)
    · exact h
    · have hne : k ≠ m.ID := fun e => hf (hup w m e.symm)
      exact absent_upsertRow Marker.ID id k m _ hne h
    · exact absent_filter Marker.ID id k _ _ h
    · exact h
    · exact h
    · exact h

theorem exec_marker_deleted (env : Env) (id : OperationID) (k : MarkerID)
    (hdel : ∀ w, env.fails w (.deleteMarker id k) = false) (w : World) :
    k ∉ storedMarkerIDs id (exec env (.deleteMarker id k) w).1.db := by
  rw [exec_ok (hdel w)]
  exact deleted_absent Marker.ID id k _

theorem deletePortalRows_absent (b : Bool) (id : OperationID) (k k1 : PortalID) (db : DB)
    (h : k ∉ storedPortalIDs id db) : k ∉ storedPortalIDs id (deletePortalRows b id k1 db) := by
  unfold deletePortalRows
  cases b
  · exact absent_filter Portal.ID id k _ _ h
  · exact absent_filter Portal.ID id k _ _ h

theorem exec_portal_absent (env : Env) (id : OperationID) (k : PortalID)
    (hup : ∀ w p, p.ID = k → env.fails w (.updatePortal id p) = true)
    (c : Call) (hc : portalCall id c ∨ markerCall id c ∨ linkCall id c) (w : World)
    (h : k ∉ storedPortalIDs id w.db) :
    k ∉ storedPortalIDs id (exec env c w).1.db := by
  unfold exec
  split
  · exact h
  · rename_i hf
    rcases hc with (rfl | ⟨p, rfl⟩ | ⟨k1, rfl⟩) | (rfl | ⟨m, rfl⟩ | ⟨k1, rfl⟩) |
      (rfl | ⟨l, rfl⟩ | ⟨k1, rfl⟩)
    · exact h
    · have hne : k ≠ p.ID := fun e => hf (hup w p e.symm)
      exact absent_upsertRow Portal.ID id k p _ hne h
    · exact deletePortalRows_absent _ id k k1 _ h
    all_goals exact h

theorem exec_portal_deleted (env : Env) (id : OperationID) (k : PortalID)
    (hdel : ∀ w, env.fails w (.deletePortal id k) = false) (w : World) :
    k ∉ storedPortalIDs id (exec env (.deletePortal id k) w).1.db := by
  rw [exec_ok (hdel w)]
  show k ∉ storedPortalIDs id (deletePortalRows env.cascade id k w.db)
  unfold deletePortalRows
  cases env.cascade
  · exact deleted_absent Portal.ID id k _
  · exact deleted_absent Portal.ID id k _

theorem linkPass_cleanup (env : Env) (o : Operation) (pm : List (PortalID × Portal))
    (k : LinkID) (w : World)
    (hup : ∀ w1 l, l.ID = k → env.fails w1 (.updateLink o.ID l) = true)
    (hdel : ∀ w1, env.fails w1 (.deleteLink o.ID k) = false) :
    (env.fails w (.selectLinkIDs o.ID) = false → k ∈ storedLinkIDs o.ID w.db →
      Call.deleteLink o.ID k ∈ issued w (linkPass env o pm w).1) ∧
    (env.fails w (.selectLinkIDs o.ID) = false →
      k ∉ storedLinkIDs o.ID (linkPass env o pm w).1.db) := by
  obtain ⟨ext, h1, h2, h3⟩ := linkPass_ext env o pm w
  rw [h1]
  refine ⟨fun hq hst => ?_, fun hq => ?_⟩
  · rw [issued_eq (replay_trace env ext w)]
    exact h3 k hq hup hst
  · by_cases hst : k ∈ storedLinkIDs o.ID w.db
    · exact replay_establish env (fun x => k ∉ storedLinkIDs o.ID x.db) _ ext
        (exec_link_deleted env o.ID k hdel)
        (fun w1 c hc => exec_link_absent env o.ID k hup c (h2 c hc) w1) (h3 k hq hup hst) w
    · exact replay_invariant env (fun x => k ∉ storedLinkIDs o.ID x.db) ext
        (fun w1 c hc => exec_link_absent env o.ID k hup c (h2 c hc) w1) w hst

theorem markerPass_cleanup (env : Env) (o : Operation) (pm : List (PortalID × Portal))
    (k : MarkerID) (w : World)
    (hup : ∀ w1 m, m.ID = k → env.fails w1 (.updateMarker o.ID m) = true)
    (hdel : ∀ w1, env.fails w1 (.deleteMarker o.ID k) = false) :
    (env.fails w (.selectMarkerIDs o.ID) = false → k ∈ storedMarkerIDs o.ID w.db →
      Call.deleteMarker o.ID k ∈ issued w (markerPass env o pm w).1) ∧
    (env.fails w (.selectMarkerIDs o.ID) = false →
      k ∉ storedMarkerIDs o.ID (markerPass env o pm w).1.db) := by
  obtain ⟨ext, h1, h2, h3⟩ := markerPass_ext env o pm w
  rw [h1]
  refine ⟨fun hq hst => ?_, fun hq => ?_⟩
  · rw [issued_eq (replay_trace env ext w)]
    exact h3 k hq hup hst
  · by_cases hst : k ∈ storedMarkerIDs o.ID w.db
    · exact replay_establish env (fun x => k ∉ storedMarkerIDs o.ID x.db) _ ext
        (exec_marker_deleted env o.ID k hdel)
        (fun w1 c hc => exec_marker_absent env o.ID k hup c (h2 c hc) w1) (h3 k hq hup hst) w
    · exact replay_invariant env (fun x => k ∉ storedMarkerIDs o.ID x.db) ext
        (fun w1 c hc => exec_marker_absent env o.ID k hup c (h2 c hc) w1) w hst

theorem portalPass_cleanup (env : Env) (o : Operation) (k : PortalID) (w : World)
    (hup : ∀ w1 p, p.ID = k → env.fails w1 (.updatePortal o.ID p) = true)
    (hdel : ∀ w1, env.fails w1 (.deletePortal o.ID k) = false) :
    (env.fails w (.selectPortalIDs o.ID) = false → k ∈ storedPortalIDs o.ID w.db →
      Call.deletePortal o.ID k ∈ issued w (portalPass env o w).1) ∧
    (env.fails w (.selectPortalIDs o.ID) = false →
      k ∉ storedPortalIDs o.ID (portalPass env o w).1.db) := by
  obtain ⟨ext, h1, h2, h3⟩ := portalPass_ext env o w
  rw [h1]
  refine ⟨fun hq hst => ?_, fun hq => ?_⟩
  · rw [issued_eq (replay_trace env ext w)]
    exact h3 k hq hup hst
  · by_cases hst : k ∈ storedPortalIDs o.ID w.db
    · exact replay_establish env (fun x => k ∉ storedPortalIDs o.ID x.db) _ ext
        (exec_portal_deleted env o.ID k hdel)
        (fun w1 c hc => exec_portal_absent env o.ID k hup c (h2 c hc) w1) (h3 k hq hup hst) w
    · exact replay_invariant env (fun x => k ∉ storedPortalIDs o.ID x.db) ext
        (fun w1 c hc => exec_portal_absent env o.ID k hup c (h2 c hc) w1) w hst

/-- When its query succeeds, the portal part hands over to the marker part. -/
theorem portalPass_tail (env : Env) (o : Operation) (w : World)
    (hq : env.fails w (.selectPortalIDs o.ID) = false) :
    ∃ pm w2, portalPass env o w = markerPass env o pm w2 := by
  unfold portalPass
  rw [exec_ok hq]
  exact ⟨_, _, rfl⟩

/-- When its query succeeds, the marker part hands over to the link part. -/
theorem markerPass_tail (env : Env) (o : Operation) (pm : List (PortalID × Portal))
    (w : World) (hq : env.fails w (.selectMarkerIDs o.ID) = false) :
    ∃ w3, markerPass env o pm w = linkPass env o pm w3 := by
  unfold markerPass
  rw [exec_ok hq]
  exact ⟨_, rfl⟩

/-- When its first statement succeeds, the worker is the portal part on the state that
statement leaves, in which the entity tables are as before. -/
theorem drawOpUpdateWorker_head (env : Env) (o : Operation) (w : World)
    (hu : env.fails w
      (.updateOperation o.ID o.Name o.Color (MakeNullString o.Comment)) = false) :
    ∃ w1, drawOpUpdateWorker env o w = portalPass env o w1 ∧ w1.db.portal = w.db.portal ∧
      w1.trace = w.trace ++ [.updateOperation o.ID o.Name o.Color (MakeNullString o.Comment)] := by
  unfold drawOpUpdateWorker
  rw [exec_ok hu]
  exact ⟨_, rfl, rfl, rfl⟩

/-- C28: in `drawOpUpdateWorker` a failed upsert leaves the working set of stored IDs as it
is (portal, marker and link loop alike).  Hence, for an ID k all of whose upserts fail and
whose delete succeeds: when the top-level update and the portal query succeed and a portal
k was stored, the worker issues the delete of portal k and no portal k is stored after the
call, although the snapshot may list it; from a marker query that succeeds in a state that
stores a marker k, the delete of marker k is issued and no marker k is stored after the
call, and likewise for links; and when the top-level update and the three queries succeed,
no marker k and no link k is stored after the call. -/
theorem failed_upsert_left_to_cleanup (env : Env) (o : Operation) (k : String) :
    (∀ st p, env.fails st.w (.updatePortal o.ID p) = true →
      (updatePortalStep env o.ID st p).curPortals = st.curPortals) ∧
    (∀ pm st m, env.fails st.1 (.updateMarker o.ID m) = true →
      (updateMarkerStep env o.ID pm st m).2 = st.2) ∧
    (∀ pm st l, env.fails st.1 (.updateLink o.ID l) = true →
      (updateLinkStep env o.ID pm st l).2 = st.2) ∧
    (∀ w, env.fails w (.updateOperation o.ID o.Name o.Color (MakeNullString o.Comment)) = false →
      (∀ w1, env.fails w1 (.selectPortalIDs o.ID) = false) →
      (∀ w1 p, p.ID = k → env.fails w1 (.updatePortal o.ID p) = true) →
      (∀ w1, env.fails w1 (.deletePortal o.ID k) = false) →
      k ∈ storedPortalIDs o.ID w.db →
      Call.deletePortal o.ID k ∈ issued w (drawOpUpdateWorker env o w).1 ∧
      k ∉ storedPortalIDs o.ID (drawOpUpdateWorker env o w).1.db) ∧
    (∀ pm w, env.fails w (.selectMarkerIDs o.ID) = false →
      (∀ w1 m, m.ID = k → env.fails w1 (.updateMarker o.ID m) = true) →
      (∀ w1, env.fails w1 (.deleteMarker o.ID k) = false) →
      k ∈ storedMarkerIDs o.ID w.db →
      Call.deleteMarker o.ID k ∈ issued w (markerPass env o pm w).1 ∧
      k ∉ storedMarkerIDs o.ID (markerPass env o pm w).1.db) ∧
    (∀ pm w, env.fails w (.selectLinkIDs o.ID) = false →
      (∀ w1 l, l.ID = k → env.fails w1 (.updateLink o.ID l) = true) →
      (∀ w1, env.fails w1 (.deleteLink o.ID k) = false) →
      k ∈ storedLinkIDs o.ID w.db →
      Call.deleteLink o.ID k ∈ issued w (linkPass env o pm w).1 ∧
      k ∉ storedLinkIDs o.ID (linkPass env o pm w).1.db) ∧
    (∀ w, env.fails w (.updateOperation o.ID o.Name o.Color (MakeNullString o.Comment)) = false →
      (∀ w1 c, c.idQuery = true → env.fails w1 c = false) →
      ((∀ w1 m, m.ID = k → env.fails w1 (.updateMarker o.ID m) = true) →
        (∀ w1, env.fails w1 (.deleteMarker o.ID k) = false) →
        k ∉ storedMarkerIDs o.ID (drawOpUpdateWorker env o w).1.db) ∧
      ((∀ w1 l, l.ID = k → env.fails w1 (.updateLink o.ID l) = true) →
        (∀ w1, env.fails w1 (.deleteLink o.ID k) = false) →
        k ∉ storedLinkIDs o.ID (drawOpUpdateWorker env o w).1.db)) := by
  refine ⟨?_, ?_, ?_, ?_, ?_, ?_, ?_⟩
  · intro st p hf
    unfold updatePortalStep
    rw [exec_fail hf]
  · intro pm st m hf
    unfold updateMarkerStep
    split
    · rfl
    · rw [exec_fail hf]
  · intro pm st l hf
    unfold updateLinkStep
    split
    · rfl
    · split
      · rfl
      · rw [exec_fail hf]
  · intro w hu hq hup hdel hst
    obtain ⟨w1, h1, h2, h3⟩ := drawOpUpdateWorker_head env o w hu
    have hst1 : k ∈ storedPortalIDs o.ID w1.db := by
      unfold storedPortalIDs at hst ⊢
      rw [h2]
      exact hst
    obtain ⟨ext, e1, -, e3⟩ := portalPass_ext env o w1
    refine ⟨?_, ?_⟩
    · have ht : (drawOpUpdateWorker env o w).1.trace = w.trace ++
          ([.updateOperation o.ID o.Name o.Color (MakeNullString o.Comment)] ++ ext) := by
        rw [h1, e1, replay_trace, h3, List.append_assoc]
      rw [issued_eq ht]
      exact List.mem_append_right _ (e3 k (hq w1) hup hst1)
    · rw [h1]
      exact (portalPass_cleanup env o k w1 hup hdel).2 (hq w1)
  · intro pm w hq hup hdel hst
    exact ⟨(markerPass_cleanup env o pm k w hup hdel).1 hq hst,
      (markerPass_cleanup env o pm k w hup hdel).2 hq⟩
  · intro pm w hq hup hdel hst
    exact ⟨(linkPass_cleanup env o pm k w hup hdel).1 hq hst,
      (linkPass_cleanup env o pm k w hup hdel).2 hq⟩
  · intro w hu hq
    obtain ⟨w1, h1, -, -⟩ := drawOpUpdateWorker_head env o w hu
    obtain ⟨pm, w2, h2⟩ := portalPass_tail env o w1 (hq w1 _ rfl)
    obtain ⟨w3, h3⟩ := markerPass_tail env o pm w2 (hq w2 _ rfl)
    refine ⟨fun hup hdel => ?_, fun hup hdel => ?_⟩
    · rw [h1, h2]
      exact (markerPass_cleanup env o pm k w2 hup hdel).2 (hq w2 _ rfl)
    · rw [h1, h2, h3]
      exact (linkPass_cleanup env o pm k w3 hup hdel).2 (hq w3 _ rfl)

/-- Witness for C28: the full snapshot of operation X lists portals A and B, marker M1 and
link L1, all of them stored; the upserts of A, M1 and L1 fail.  The worker returns no
error, issues the delete of portal A, and leaves the store without portal A, marker M1 and
link L1; portal B stays. -/
theorem failed_upsert_left_to_cleanup_witness :
    (Env.upsertFailing.fails fullWorld
        (.updateOperation fullSnapshot.ID fullSnapshot.Name fullSnapshot.Color
          (MakeNullString fullSnapshot.Comment)) = false ∧
      "A" ∈ storedPortalIDs fullSnapshot.ID fullWorld.db ∧
      portalA ∈ fullSnapshot.OpPortals ∧ markerA ∈ fullSnapshot.Markers ∧
      linkAB ∈ fullSnapshot.Links ∧
      "M1" ∈ storedMarkerIDs "X" fullWorld.db ∧ "L1" ∈ storedLinkIDs "X" fullWorld.db) ∧
    (Call.deletePortal fullSnapshot.ID "A" ∈
        issued fullWorld (drawOpUpdateWorker Env.upsertFailing fullSnapshot fullWorld).1 ∧
      "A" ∉ storedPortalIDs fullSnapshot.ID
        (drawOpUpdateWorker Env.upsertFailing fullSnapshot fullWorld).1.db) ∧
    "M1" ∉ storedMarkerIDs fullSnapshot.ID
      (drawOpUpdateWorker Env.upsertFailing fullSnapshot fullWorld).1.db ∧
    "L1" ∉ storedLinkIDs fullSnapshot.ID
      (drawOpUpdateWorker Env.upsertFailing fullSnapshot fullWorld).1.db ∧
    (drawOpUpdateWorker Env.upsertFailing fullSnapshot fullWorld).2 = none ∧
    storedPortalIDs "X" (drawOpUpdateWorker Env.upsertFailing fullSnapshot fullWorld).1.db =
      ["B"] :=
  ⟨⟨rfl, by decide, by decide, by decide, by decide, by decide, by decide⟩,
   (failed_upsert_left_to_cleanup Env.upsertFailing fullSnapshot "A").2.2.2.1 fullWorld rfl
     (fun _ => rfl)
     (fun _ p h => by simp [Env.upsertFailing, fullSnapshot, snapshotX, h])
     (fun _ => rfl) (by decide),
   ((failed_upsert_left_to_cleanup Env.upsertFailing fullSnapshot "M1").2.2.2.2.2.2 fullWorld
     rfl (fun _ c hc => by cases c <;> first | rfl | simp [Call.idQuery] at hc)).1
     (fun _ m h => by simp [Env.upsertFailing, fullSnapshot, snapshotX, h])
     (fun _ => rfl),
   ((failed_upsert_left_to_cleanup Env.upsertFailing fullSnapshot "L1").2.2.2.2.2.2 fullWorld
     rfl (fun _ c hc => by cases c <;> first | rfl | simp [Call.idQuery] at hc)).2
     (fun _ l h => by simp [Env.upsertFailing, fullSnapshot, snapshotX, h])
     (fun _ => rfl),
   by decide, by decide⟩

/-! ## C15: the key records -/

/-- The key records after the worker: none is added, and those that satisfy a test `p` are
unchanged when the worker issues no delete for the portal of any record of the operation
that passes the test. -/
theorem worker_opkeys_filter (env : Env) (o : Operation) (w : World)
    (p : OperationID × KeyOnHand → Bool)
    (hp : ∀ r, p r = true → r.1 = o.ID →
      Call.deletePortal o.ID r.2.ID ∉ issued w (drawOpUpdateWorker env o w).1) :
    (drawOpUpdateWorker env o w).1.db.opkeys.filter p = w.db.opkeys.filter p ∧
    ∀ r ∈ (drawOpUpdateWorker env o w).1.db.opkeys, r ∈ w.db.opkeys := by
  obtain ⟨ext, h1, h2, -⟩ := drawOpUpdateWorker_calls env o w
  rw [issued_eq (h1 ▸ replay_trace env ext w)] at hp
  rw [h1]
  refine replay_invariant env
    (fun x => x.db.opkeys.filter p = w.db.opkeys.filter p ∧
      ∀ r ∈ x.db.opkeys, r ∈ w.db.opkeys) ext ?_ w ⟨rfl, fun _ h => h⟩
  intro w1 c hmem hw1
  show (exec env c w1).1.db.opkeys.filter p = _ ∧ ∀ r ∈ (exec env c w1).1.db.opkeys, _
  unfold exec
  split
  · exact hw1
  · show (c.apply env.cascade w1.db).opkeys.filter p = _ ∧
      ∀ r ∈ (c.apply env.cascade w1.db).opkeys, _
    have hsame : (c.apply env.cascade w1.db).opkeys = w1.db.opkeys →
        (c.apply env.cascade w1.db).opkeys.filter p = w.db.opkeys.filter p ∧
        ∀ r ∈ (c.apply env.cascade w1.db).opkeys, r ∈ w.db.opkeys := by
      intro h
      rw [h]
      exact hw1
    rcases h2 c hmem with rfl | rfl | rfl | rfl | ⟨q, -, rfl⟩ | ⟨m, -, -, rfl⟩ |
      ⟨l, -, -, -, rfl⟩ | ⟨k, rfl⟩ | ⟨k, rfl⟩ | ⟨k, rfl⟩
    · exact hsame rfl
    · exact hsame rfl
    · exact hsame rfl
    · exact hsame rfl
    · exact hsame rfl
    · exact hsame rfl
    · exact hsame rfl
    · have hd := deletePortalRows_opkeys_filter env.cascade o.ID k w1.db p
        (fun r hr hk => hp r hr hk.1 (hk.2 ▸ hmem))
      exact ⟨hd.1.trans hw1.1, fun r hr => hw1.2 r (hd.2 r hr)⟩
    · exact hsame rfl
    · exact hsame rfl

/-- A portal ID that the snapshot lists and whose upserts all succeed is not in the working
set when the portal loop ends. -/
theorem portalLoop_drops (env : Env) (op : OperationID) (k : PortalID) (ps : List Portal) :
    ∀ st : PortalPass, k ∈ ps.map Portal.ID →
      (∀ w1 p, p ∈ ps → p.ID = k → env.fails w1 (.updatePortal op p) = false) →
      k ∉ mapKeys (ps.foldl (updatePortalStep env op) st).curPortals := by
  induction ps with
  | nil => intro st hk; simp at hk
  | cons p ps ih =>
    intro st hk hup
    rw [List.foldl_cons]
    by_cases hpk : p.ID = k
    · refine foldl_invariant (updatePortalStep env op)
        (fun x : PortalPass => k ∉ mapKeys x.curPortals) ?_ ps _ ?_
      · intro s q hs
        unfold updatePortalStep
        split
        · exact hs
        · exact fun h => hs ((mem_mapKeys_mapDel k q.ID s.curPortals).1 h).2
      · unfold updatePortalStep
        rw [exec_ok (hup st.w p (List.mem_cons_self _ _) hpk)]
        exact fun h => ((mem_mapKeys_mapDel k p.ID st.curPortals).1 h).1 hpk.symm
    · refine ih _ ?_ (fun w1 q hq => hup w1 q (List.mem_cons_of_mem _ hq))
      simp only [List.map_cons, List.mem_cons] at hk
      rcases hk with hk | hk
      · exact absurd hk.symm hpk
      · exact hk

/-- The marker and link parts issue no delete of a portal. -/
theorem markerPass_no_delete (env : Env) (o : Operation) (k : PortalID)
    (pm : List (PortalID × Portal)) (w w2 : World) (pre : List Call)
    (htr : w2.trace = w.trace ++ pre) (hpre : Call.deletePortal o.ID k ∉ pre) :
    Call.deletePortal o.ID k ∉ issued w (markerPass env o pm w2).1 := by
  obtain ⟨extM, hM1, hM2, -⟩ := markerPass_ext env o pm w2
  have ht : (markerPass env o pm w2).1.trace = w.trace ++ (pre ++ extM) := by
    rw [hM1, replay_trace, htr, List.append_assoc]
  rw [issued_eq ht]
  intro hm
  rcases List.mem_append.1 hm with h | h
  · exact hpre h
  · rcases hM2 _ h with (h | ⟨m, h⟩ | ⟨k1, h⟩) | (h | ⟨l, h⟩ | ⟨k1, h⟩) <;> cases h

/-- The portal part issues no delete for a listed portal ID whose upserts all succeed. -/
theorem portalPass_no_delete (env : Env) (o : Operation) (k : PortalID) (w0 w : World)
    (pre : List Call) (htr : w.trace = w0.trace ++ pre)
    (hpre : Call.deletePortal o.ID k ∉ pre)
    (hk : k ∈ o.OpPortals.map Portal.ID)
    (hup : ∀ w1 p, p ∈ o.OpPortals → p.ID = k → env.fails w1 (.updatePortal o.ID p) = false) :
    Call.deletePortal o.ID k ∉ issued w0 (portalPass env o w).1 := by
  unfold portalPass
  by_cases hq : env.fails w (.selectPortalIDs o.ID) = true
  · rw [exec_fail hq]
    have ht : ({ w with trace := w.trace ++ [.selectPortalIDs o.ID] } : World).trace =
        w0.trace ++ (pre ++ [.selectPortalIDs o.ID]) := by
      show w.trace ++ _ = _
      rw [htr, List.append_assoc]
    show _ ∉ issued w0 ({ w with trace := w.trace ++ [.selectPortalIDs o.ID] } : World)
    rw [issued_eq ht]
    intro hm
    rcases List.mem_append.1 hm with h | h
    · exact hpre h
    · simp at h
  · have hq1 : env.fails w (.selectPortalIDs o.ID) = false := by simpa using hq
    rw [exec_ok hq1]
    simp only
    rw [deleteLoop_replay_portal, portalLoop_replay]
    refine markerPass_no_delete env o k _ w0 _
      (pre ++ ([.selectPortalIDs o.ID] ++ (o.OpPortals.map (.updatePortal o.ID) ++
        (mapKeys (o.OpPortals.foldl (updatePortalStep env o.ID)
          ⟨({ w with db := (Call.selectPortalIDs o.ID).apply env.cascade w.db,
                     trace := w.trace ++ [.selectPortalIDs o.ID] } : World), [],
            stash (storedPortalIDs o.ID w.db)⟩).curPortals).map (.deletePortal o.ID))))
      ?_ ?_
    · rw [replay_trace, replay_trace]
      show (w.trace ++ _) ++ _ ++ _ = _
      rw [htr]
      simp only [List.append_assoc]
      rfl
    · intro hm
      simp only [List.mem_append, List.mem_singleton, List.mem_map] at hm
      rcases hm with h | h | ⟨p, -, h⟩ | ⟨k1, hk1, h⟩
      · exact hpre h
      · cases h
      · cases h
      · cases h
        exact portalLoop_drops env o.ID k o.OpPortals _ hk hup hk1

/-- The worker issues no delete for a listed portal ID whose upserts all succeed. -/
theorem drawOpUpdateWorker_no_delete (env : Env) (o : Operation) (k : PortalID) (w : World)
    (hk : k ∈ o.OpPortals.map Portal.ID)
    (hup : ∀ w1 p, p ∈ o.OpPortals → p.ID = k → env.fails w1 (.updatePortal o.ID p) = false) :
    Call.deletePortal o.ID k ∉ issued w (drawOpUpdateWorker env o w).1 := by
  by_cases hu : env.fails w
      (.updateOperation o.ID o.Name o.Color (MakeNullString o.Comment)) = true
  · rw [drawOpUpdateWorker_update_fail hu]
    have ht : ({ w with trace := w.trace ++
        [.updateOperation o.ID o.Name o.Color (MakeNullString o.Comment)] } : World).trace =
        w.trace ++ [.updateOperation o.ID o.Name o.Color (MakeNullString o.Comment)] := rfl
    show _ ∉ issued w ({ w with trace := w.trace ++
        [.updateOperation o.ID o.Name o.Color (MakeNullString o.Comment)] } : World)
    rw [issued_eq ht]
    simp
  · obtain ⟨w1, h1, -, h3⟩ := drawOpUpdateWorker_head env o w (by simpa using hu)
    rw [h1]
    exact portalPass_no_delete env o k w w1 _ h3 (by simp) hk hup

/-- Counterexample for C15: the store cascades portal deletes and the upsert of portal A
fails.  The snapshot lists portal A, the worker returns no error and issues no statement on
the key records, but the cleanup pass deletes portal A and the key record of agent G1 for
portal A of operation X is gone. -/
theorem keys_cascade_counterexample :
    (Env.failingOn (.updatePortal "X" portalA)).cascade = true ∧
    "A" ∈ omitSnapshotKeys.OpPortals.map Portal.ID ∧
    ("X", (⟨"A", "G1", 3, ""⟩ : KeyOnHand)) ∈ keyedWorld.db.opkeys ∧
    (drawOpUpdateWorker (Env.failingOn (.updatePortal "X" portalA)) omitSnapshotKeys
      keyedWorld).2 = none ∧
    (∀ c ∈ issued keyedWorld (drawOpUpdateWorker (Env.failingOn (.updatePortal "X" portalA))
      omitSnapshotKeys keyedWorld).1, c.onKeys = false) ∧
    Call.deletePortal "X" "A" ∈ issued keyedWorld
      (drawOpUpdateWorker (Env.failingOn (.updatePortal "X" portalA)) omitSnapshotKeys
        keyedWorld).1 ∧
    ("X", (⟨"A", "G1", 3, ""⟩ : KeyOnHand)) ∉
      (drawOpUpdateWorker (Env.failingOn (.updatePortal "X" portalA)) omitSnapshotKeys
        keyedWorld).1.db.opkeys ∧
    (drawOpUpdateWorker (Env.failingOn (.updatePortal "X" portalA)) omitSnapshotKeys
      keyedWorld).1.db.opkeys = [("Y", ⟨"A", "G5", 2, ""⟩)] := by
  refine ⟨rfl, by decide, by decide, by decide, by decide, by decide, by decide, by decide⟩

/-- C15: whatever store calls fail, `drawOpUpdateWorker` issues no statement on the key
records, does not read the snapshot's keysonhand list (snapshots that differ in that list
only have the same effect) and adds no key record.  Key records go only with a portal that
the worker deletes, in a store that cascades portal deletes: the key records of every
other operation and of every portal for which no delete is issued are unchanged, and
without the cascade table `opkeys` is unchanged.  A portal ID that is listed in the
snapshot and whose upserts all succeed gets no delete and keeps its key records; in
particular, when no store call fails, the key records of every other operation and of
every listed portal are the same rows in the same order as before. -/
theorem drawOpUpdateWorker_keys_untouched (env : Env) (o : Operation) (w : World) :
    (∀ c ∈ issued w (drawOpUpdateWorker env o w).1, c.onKeys = false) ∧
    (∀ ks : List KeyOnHand,
      drawOpUpdateWorker env { o with Keys := ks } w = drawOpUpdateWorker env o w) ∧
    (∀ r ∈ (drawOpUpdateWorker env o w).1.db.opkeys, r ∈ w.db.opkeys) ∧
    (drawOpUpdateWorker env o w).1.db.opkeys.filter (fun r =>
        r.1 != o.ID ||
          !decide (Call.deletePortal o.ID r.2.ID ∈ issued w (drawOpUpdateWorker env o w).1)) =
      w.db.opkeys.filter (fun r =>
        r.1 != o.ID ||
          !decide (Call.deletePortal o.ID r.2.ID ∈ issued w (drawOpUpdateWorker env o w).1)) ∧
    (env.cascade = false → (drawOpUpdateWorker env o w).1.db.opkeys = w.db.opkeys) ∧
    (∀ k ∈ o.OpPortals.map Portal.ID,
      (∀ w1 p, p ∈ o.OpPortals → p.ID = k → env.fails w1 (.updatePortal o.ID p) = false) →
      Call.deletePortal o.ID k ∉ issued w (drawOpUpdateWorker env o w).1 ∧
      (drawOpUpdateWorker env o w).1.db.opkeys.filter (fun r => r.1 == o.ID && r.2.ID == k) =
        w.db.opkeys.filter (fun r => r.1 == o.ID && r.2.ID == k)) ∧
    ((∀ w c, env.fails w c = false) →
      (drawOpUpdateWorker env o w).1.db.opkeys.filter (fun r =>
          r.1 != o.ID || decide (r.2.ID ∈ o.OpPortals.map Portal.ID)) =
        w.db.opkeys.filter (fun r =>
          r.1 != o.ID || decide (r.2.ID ∈ o.OpPortals.map Portal.ID))) := by
  obtain ⟨ext, h1, h2, -⟩ := drawOpUpdateWorker_calls env o w
  refine ⟨?_, fun _ => rfl, ?_, ?_, ?_, ?_, ?_⟩
  · rw [issued_eq (h1 ▸ replay_trace env ext w)]
    exact fun c hc => updateCall_not_onKeys (h2 c hc)
  · exact (worker_opkeys_filter env o w (fun _ => false) (fun _ h => absurd h (by simp))).2
  · refine (worker_opkeys_filter env o w _ ?_).1
    intro r hr hid
    simpa [hid] using hr
  · intro hc
    rw [h1]
    refine replay_invariant env (fun x => x.db.opkeys = w.db.opkeys) ext ?_ w rfl
    intro w1 c hmem hw1
    show (exec env c w1).1.db.opkeys = w.db.opkeys
    unfold exec
    split
    · exact hw1
    · show (c.apply env.cascade w1.db).opkeys = _
      rw [hc, updateCall_opkeys (h2 c hmem), hw1]
  · intro k hk hup
    have hno := drawOpUpdateWorker_no_delete env o k w hk hup
    refine ⟨hno, (worker_opkeys_filter env o w _ ?_).1⟩
    intro r hr _
    simp only [Bool.and_eq_true, beq_iff_eq] at hr
    rw [hr.2]
    exact hno
  · intro hf
    rw [(drawOpUpdateWorker_reliable hf o w).2]
    exact (deletePortalsAll_opkeys_filter env.cascade o.ID _ _ _ (by
      intro r hr hk
      have hleft := (mem_mapKeys_leftOver _ _ _).mp hk.2
      simp only [Bool.or_eq_true, bne_iff_ne, ne_eq, decide_eq_true_eq] at hr
      rcases hr with hr | hr
      · exact hr hk.1
      · exact hleft.2 hr)).1

/-- Witness for C15: the snapshot that lists portal A only, with a key list of its own, on
the store with key records.  Without the cascade the key records stay; with it, and with
no failing call, portal B is deleted with its key record, no delete is issued for the
listed portal A, and the key record of portal A stays. -/
theorem drawOpUpdateWorker_keys_untouched_witness :
    ((Env.reliable false).cascade = false ∧
      (drawOpUpdateWorker (Env.reliable false) omitSnapshotKeys keyedWorld).1.db.opkeys =
        keyedWorld.db.opkeys) ∧
    ("A" ∈ omitSnapshotKeys.OpPortals.map Portal.ID ∧
      ∀ w1 p, p ∈ omitSnapshotKeys.OpPortals → p.ID = "A" →
        (Env.reliable true).fails w1 (.updatePortal omitSnapshotKeys.ID p) = false) ∧
    (Call.deletePortal omitSnapshotKeys.ID "A" ∉
        issued keyedWorld (drawOpUpdateWorker (Env.reliable true) omitSnapshotKeys
          keyedWorld).1 ∧
      (drawOpUpdateWorker (Env.reliable true) omitSnapshotKeys keyedWorld).1.db.opkeys.filter
          (fun r => r.1 == omitSnapshotKeys.ID && r.2.ID == "A") =
        keyedWorld.db.opkeys.filter (fun r => r.1 == omitSnapshotKeys.ID && r.2.ID == "A")) ∧
    (drawOpUpdateWorker (Env.reliable true) omitSnapshotKeys keyedWorld).1.db.opkeys =
      [("X", ⟨"A", "G1", 3, ""⟩), ("Y", ⟨"A", "G5", 2, ""⟩)] :=
  ⟨⟨rfl,
    (drawOpUpdateWorker_keys_untouched (Env.reliable false) omitSnapshotKeys
      keyedWorld).2.2.2.2.1 rfl⟩,
   ⟨by decide, fun _ _ _ _ => rfl⟩,
   (drawOpUpdateWorker_keys_untouched (Env.reliable true) omitSnapshotKeys
      keyedWorld).2.2.2.2.2.1 "A" (by decide) (fun _ _ _ _ => rfl),
   by decide⟩

/-! ## C17: the delete of an operation -/

/-- The shape of `Operation.Delete` for the owner once the delete of the operation row has
succeeded: the six follow-up deletes are issued whatever their outcome, and no error is
returned. -/
theorem Delete_shape (env : Env) (o : Operation) (gid : GoogleID) (w : World)
    (hown : OperationID.IsOwner o.ID gid w.db = true)
    (hdel : env.fails w (.deleteOperation o.ID) = false) :
    o.Delete env gid w =
      (replay env (followUpDeletes o.ID) (exec env (.deleteOperation o.ID) w).1, none) := by
  simp [Operation.Delete, hown, exec_ok hdel, replay, followUpDeletes]

/-- A follow-up delete adds no row to any table and leaves table `operation` as it is. -/
theorem followUp_subset (b : Bool) (id : OperationID) (db : DB) (c : Call)
    (hc : c ∈ followUpDeletes id) :
    (c.apply b db).operation = db.operation ∧
    (∀ r ∈ (c.apply b db).portal, r ∈ db.portal) ∧
    (∀ r ∈ (c.apply b db).marker, r ∈ db.marker) ∧
    (∀ r ∈ (c.apply b db).link, r ∈ db.link) ∧
    (∀ r ∈ (c.apply b db).anchor, r ∈ db.anchor) ∧
    (∀ r ∈ (c.apply b db).opkeys, r ∈ db.opkeys) ∧
    (∀ r ∈ (c.apply b db).opteams, r ∈ db.opteams) := by
  simp only [followUpDeletes, List.mem_cons, List.mem_singleton, List.not_mem_nil,
    or_false] at hc
  rcases hc with rfl | rfl | rfl | rfl | rfl | rfl <;>
    refine ⟨rfl, ?_, ?_, ?_, ?_, ?_, ?_⟩ <;> intro r hr <;>
    first
      | exact hr
      | exact ((mem_deleteOp _ _ r).mp hr).1

theorem exec_followUp_subset (env : Env) (id : OperationID) (w : World) (c : Call)
    (hc : c ∈ followUpDeletes id) :
    (exec env c w).1.db.operation = w.db.operation ∧
    (∀ r ∈ (exec env c w).1.db.portal, r ∈ w.db.portal) ∧
    (∀ r ∈ (exec env c w).1.db.marker, r ∈ w.db.marker) ∧
    (∀ r ∈ (exec env c w).1.db.link, r ∈ w.db.link) ∧
    (∀ r ∈ (exec env c w).1.db.anchor, r ∈ w.db.anchor) ∧
    (∀ r ∈ (exec env c w).1.db.opkeys, r ∈ w.db.opkeys) ∧
    (∀ r ∈ (exec env c w).1.db.opteams, r ∈ w.db.opteams) := by
  unfold exec
  split
  · exact ⟨rfl, fun _ h => h, fun _ h => h, fun _ h => h, fun _ h => h, fun _ h => h,
      fun _ h => h⟩
  · exact followUp_subset _ id _ c hc

/-- A property that the follow-up deletes keep, and that one of them brings about when it
succeeds, holds after the six of them if it held before or if that one never fails. -/
theorem followUps_bring (env : Env) (id : OperationID) (A : World → Prop) (c0 : Call)
    (hc0 : c0 ∈ followUpDeletes id)
    (hkeep : ∀ w c, c ∈ followUpDeletes id → A w → A (exec env c w).1)
    (hbring : ∀ w, env.fails w c0 = false → A (exec env c0 w).1) (w0 : World)
    (h : A w0 ∨ ∀ w1, env.fails w1 c0 = false) :
    A (replay env (followUpDeletes id) w0) := by
  rcases h with h | h
  · exact replay_invariant env A _ hkeep w0 h
  · exact replay_establish env A c0 _ (fun w => hbring w (h w)) hkeep hc0 w0

/-- The rows of the operation in the six tables beside table `operation`, after
`Operation.Delete`: a table holds none of them when the store cascades the delete of the
operation row, or when the follow-up delete on that table does not fail. -/
theorem Delete_tables (env : Env) (o : Operation) (gid : GoogleID) (w : World)
    (hown : OperationID.IsOwner o.ID gid w.db = true)
    (hdel : env.fails w (.deleteOperation o.ID) = false) :
    ((env.cascade = true ∨ ∀ w1, env.fails w1 (.deleteMarkers o.ID) = false) →
      ∀ r ∈ (o.Delete env gid w).1.db.marker, r.1 ≠ o.ID) ∧
    ((env.cascade = true ∨ ∀ w1, env.fails w1 (.deleteLinks o.ID) = false) →
      ∀ r ∈ (o.Delete env gid w).1.db.link, r.1 ≠ o.ID) ∧
    ((env.cascade = true ∨ ∀ w1, env.fails w1 (.deletePortals o.ID) = false) →
      ∀ r ∈ (o.Delete env gid w).1.db.portal, r.1 ≠ o.ID) ∧
    ((env.cascade = true ∨ ∀ w1, env.fails w1 (.deleteAnchors o.ID) = false) →
      ∀ r ∈ (o.Delete env gid w).1.db.anchor, r.1 ≠ o.ID) ∧
    ((env.cascade = true ∨ ∀ w1, env.fails w1 (.deleteOpkeys o.ID) = false) →
      ∀ r ∈ (o.Delete env gid w).1.db.opkeys, r.1 ≠ o.ID) ∧
    ((env.cascade = true ∨ ∀ w1, env.fails w1 (.deleteOpteams o.ID) = false) →
      ∀ r ∈ (o.Delete env gid w).1.db.opteams, r.1 ≠ o.ID) := by
  rw [Delete_shape env o gid w hown hdel, exec_ok hdel]
  have hcas : env.cascade = true →
      (Call.deleteOperation o.ID).apply env.cascade w.db = deletedDB o.ID w.db := by
    intro h
    simp [Call.apply, h, deletedDB]
  refine ⟨?_, ?_, ?_, ?_, ?_, ?_⟩
  · intro h
    refine followUps_bring env o.ID (fun x => ∀ r ∈ x.db.marker, r.1 ≠ o.ID)
      (.deleteMarkers o.ID) (by simp [followUpDeletes])
      (fun w1 c hc hw1 r hr => hw1 r ((exec_followUp_subset env o.ID w1 c hc).2.2.1 r hr))
      (fun w1 hf r hr => by
        rw [exec_ok hf] at hr
        exact ((mem_deleteOp _ _ r).mp hr).2) _ ?_
    rcases h with h | h
    · refine Or.inl (fun r hr => ?_)
      simp only [hcas h] at hr
      exact ((mem_deleteOp _ _ r).mp hr).2
    · exact Or.inr h
  · intro h
    refine followUps_bring env o.ID (fun x => ∀ r ∈ x.db.link, r.1 ≠ o.ID)
      (.deleteLinks o.ID) (by simp [followUpDeletes])
      (fun w1 c hc hw1 r hr => hw1 r ((exec_followUp_subset env o.ID w1 c hc).2.2.2.1 r hr))
      (fun w1 hf r hr => by
        rw [exec_ok hf] at hr
        exact ((mem_deleteOp _ _ r).mp hr).2) _ ?_
    rcases h with h | h
    · refine Or.inl (fun r hr => ?_)
      simp only [hcas h] at hr
      exact ((mem_deleteOp _ _ r).mp hr).2
    · exact Or.inr h
  · intro h
    refine followUps_bring env o.ID (fun x => ∀ r ∈ x.db.portal, r.1 ≠ o.ID)
      (.deletePortals o.ID) (by simp [followUpDeletes])
      (fun w1 c hc hw1 r hr => hw1 r ((exec_followUp_subset env o.ID w1 c hc).2.1 r hr))
      (fun w1 hf r hr => by
        rw [exec_ok hf] at hr
        exact ((mem_deleteOp _ _ r).mp hr).2) _ ?_
    rcases h with h | h
    · refine Or.inl (fun r hr => ?_)
      simp only [hcas h] at hr
      exact ((mem_deleteOp _ _ r).mp hr).2
    · exact Or.inr h
  · intro h
    refine followUps_bring env o.ID (fun x => ∀ r ∈ x.db.anchor, r.1 ≠ o.ID)
      (.deleteAnchors o.ID) (by simp [followUpDeletes])
      (fun w1 c hc hw1 r hr =>
        hw1 r ((exec_followUp_subset env o.ID w1 c hc).2.2.2.2.1 r hr))
      (fun w1 hf r hr => by
        rw [exec_ok hf] at hr
        exact ((mem_deleteOp _ _ r).mp hr).2) _ ?_
    rcases h with h | h
    · refine Or.inl (fun r hr => ?_)
      simp only [hcas h] at hr
      exact ((mem_deleteOp _ _ r).mp hr).2
    · exact Or.inr h
  · intro h
    refine followUps_bring env o.ID (fun x => ∀ r ∈ x.db.opkeys, r.1 ≠ o.ID)
      (.deleteOpkeys o.ID) (by simp [followUpDeletes])
      (fun w1 c hc hw1 r hr =>
        hw1 r ((exec_followUp_subset env o.ID w1 c hc).2.2.2.2.2.1 r hr))
      (fun w1 hf r hr => by
        rw [exec_ok hf] at hr
        exact ((mem_deleteOp _ _ r).mp hr).2) _ ?_
    rcases h with h | h
    · refine Or.inl (fun r hr => ?_)
      simp only [hcas h] at hr
      exact ((mem_deleteOp _ _ r).mp hr).2
    · exact Or.inr h
  · intro h
    refine followUps_bring env o.ID (fun x => ∀ r ∈ x.db.opteams, r.1 ≠ o.ID)
      (.deleteOpteams o.ID) (by simp [followUpDeletes])
      (fun w1 c hc hw1 r hr =>
        hw1 r ((exec_followUp_subset env o.ID w1 c hc).2.2.2.2.2.2 r hr))
      (fun w1 hf r hr => by
        rw [exec_ok hf] at hr
        exact ((mem_deleteOp _ _ r).mp hr).2) _ ?_
    rcases h with h | h
    · refine Or.inl (fun r hr => ?_)
      simp only [hcas h] at hr
      exact ((mem_deleteOp _ _ r).mp hr).2
    · exact Or.inr h

/-- Table `operation` and the rows of other operations after `Operation.Delete`. -/
theorem Delete_frame (env : Env) (o : Operation) (gid : GoogleID) (w : World)
    (hown : OperationID.IsOwner o.ID gid w.db = true)
    (hdel : env.fails w (.deleteOperation o.ID) = false) :
    (o.Delete env gid w).1.db.operation = w.db.operation.filter (fun r => r.ID != o.ID) ∧
    deletedDB o.ID (o.Delete env gid w).1.db = deletedDB o.ID w.db := by
  rw [Delete_shape env o gid w hown hdel]
  refine ⟨?_, ?_⟩
  · have h0 : (exec env (.deleteOperation o.ID) w).1.db.operation =
        w.db.operation.filter (fun r => r.ID != o.ID) := by
      rw [exec_ok hdel]
      cases hc : env.cascade <;> simp [Call.apply, hc]
    refine replay_invariant env (fun x => x.db.operation =
      w.db.operation.filter (fun r => r.ID != o.ID)) _ ?_ _ h0
    intro w1 c hc hw1
    show (exec env c w1).1.db.operation = _
    rw [(exec_followUp_subset env o.ID w1 c hc).1, hw1]
  · have h0 := exec_foreign env (.deleteOperation o.ID) w
    have h1 := replay_foreign env o.ID (followUpDeletes o.ID) (by
      intro c hc
      simp only [followUpDeletes, List.mem_cons, List.mem_singleton, List.not_mem_nil,
        or_false] at hc
      rcases hc with rfl | rfl | rfl | rfl | rfl | rfl <;> rfl)
      (exec env (.deleteOperation o.ID) w).1
    simp only
    rw [h1]
    exact h0

/-- Counterexample for C17: on a store that does not cascade and in which the six follow-up
deletes fail, the owner G0 deletes operation X; the delete of the operation row succeeds
and `Delete` returns no error, but the portals, the marker, the anchor, the key records
and the team binding of X are still stored. -/
theorem Delete_leaves_rows_counterexample :
    OperationID.IsOwner omitSnapshot.ID "G0" fullWorld.db = true ∧
    (Env.onlyAllowingPlain (.deleteOperation "X")).fails fullWorld
      (.deleteOperation omitSnapshot.ID) = false ∧
    (omitSnapshot.Delete (Env.onlyAllowingPlain (.deleteOperation "X")) "G0" fullWorld).2 =
      none ∧
    (omitSnapshot.Delete (Env.onlyAllowingPlain (.deleteOperation "X")) "G0"
      fullWorld).1.db.operation = [⟨"Y", "other", "G5", "groupa", 3, none⟩] ∧
    ("X", portalA) ∈ (omitSnapshot.Delete (Env.onlyAllowingPlain (.deleteOperation "X")) "G0"
      fullWorld).1.db.portal ∧
    ("X", markerA) ∈ (omitSnapshot.Delete (Env.onlyAllowingPlain (.deleteOperation "X")) "G0"
      fullWorld).1.db.marker ∧
    ("X", "A") ∈ (omitSnapshot.Delete (Env.onlyAllowingPlain (.deleteOperation "X")) "G0"
      fullWorld).1.db.anchor ∧
    ("X", ⟨"A", "G1", 3, ""⟩) ∈ (omitSnapshot.Delete
      (Env.onlyAllowingPlain (.deleteOperation "X")) "G0" fullWorld).1.db.opkeys ∧
    ("X", ⟨"T1", "write"⟩) ∈ (omitSnapshot.Delete
      (Env.onlyAllowingPlain (.deleteOperation "X")) "G0" fullWorld).1.db.opteams := by
  refine ⟨by decide, by decide, by decide, by decide, by decide, by decide, by decide,
    by decide, by decide⟩

/-- C17: when the owner calls `Operation.Delete` and the delete of the operation row
succeeds, `Delete` returns no error whatever the six follow-up deletes do, afterwards the
store holds no operation row of that ID, and the rows of every other operation and the
team memberships are what they were.  Each of the tables marker, link, portal, anchor,
key records and team bindings holds no row of that ID when the store cascades the delete
of the operation row or when the follow-up delete on that table does not fail; and when
the store cascades or none of the six fails, the store is the old one without the rows of
that ID. -/
theorem Delete_removes_everything (env : Env) (o : Operation) (gid : GoogleID) (w : World)
    (hown : OperationID.IsOwner o.ID gid w.db = true)
    (hdel : env.fails w (.deleteOperation o.ID) = false) :
    (o.Delete env gid w).2 = none ∧
    (∀ r ∈ (o.Delete env gid w).1.db.operation, r.ID ≠ o.ID) ∧
    (o.Delete env gid w).1.db.operation = w.db.operation.filter (fun r => r.ID != o.ID) ∧
    deletedDB o.ID (o.Delete env gid w).1.db = deletedDB o.ID w.db ∧
    (o.Delete env gid w).1.db.agentteams = w.db.agentteams ∧
    ((env.cascade = true ∨ ∀ w1, env.fails w1 (.deleteMarkers o.ID) = false) →
      ∀ r ∈ (o.Delete env gid w).1.db.marker, r.1 ≠ o.ID) ∧
    ((env.cascade = true ∨ ∀ w1, env.fails w1 (.deleteLinks o.ID) = false) →
      ∀ r ∈ (o.Delete env gid w).1.db.link, r.1 ≠ o.ID) ∧
    ((env.cascade = true ∨ ∀ w1, env.fails w1 (.deletePortals o.ID) = false) →
      ∀ r ∈ (o.Delete env gid w).1.db.portal, r.1 ≠ o.ID) ∧
    ((env.cascade = true ∨ ∀ w1, env.fails w1 (.deleteAnchors o.ID) = false) →
      ∀ r ∈ (o.Delete env gid w).1.db.anchor, r.1 ≠ o.ID) ∧
    ((env.cascade = true ∨ ∀ w1, env.fails w1 (.deleteOpkeys o.ID) = false) →
      ∀ r ∈ (o.Delete env gid w).1.db.opkeys, r.1 ≠ o.ID) ∧
    ((env.cascade = true ∨ ∀ w1, env.fails w1 (.deleteOpteams o.ID) = false) →
      ∀ r ∈ (o.Delete env gid w).1.db.opteams, r.1 ≠ o.ID) ∧
    ((env.cascade = true ∨ ∀ w1 c, c ∈ followUpDeletes o.ID → env.fails w1 c = false) →
      (o.Delete env gid w).1.db = deletedDB o.ID w.db) := by
  have hf := Delete_frame env o gid w hown hdel
  have ht := Delete_tables env o gid w hown hdel
  refine ⟨?_, ?_, hf.1, hf.2, ?_, ht.1, ht.2.1, ht.2.2.1, ht.2.2.2.1, ht.2.2.2.2.1,
    ht.2.2.2.2.2, ?_⟩
  · rw [Delete_shape env o gid w hown hdel]
  · intro r hr
    rw [hf.1] at hr
    simpa using (List.mem_filter.mp hr).2
  · have h := congrArg (fun d : DB => d.agentteams) hf.2
    exact h
  · intro hrest
    rw [Delete_db env o gid w hown hdel hrest]

/-- Witness for C17: the owner G0 deletes operation X on a store that does not cascade: when
no call fails nothing of X is left; when only the follow-up delete of the markers succeeds,
no marker of X is left and operation Y keeps its rows. -/
theorem Delete_removes_everything_witness :
    (OperationID.IsOwner omitSnapshot.ID "G0" fullWorld.db = true ∧
      (Env.reliable false).fails fullWorld (.deleteOperation omitSnapshot.ID) = false ∧
      (∀ w1 c, c ∈ followUpDeletes omitSnapshot.ID →
        (Env.reliable false).fails w1 c = false)) ∧
    (omitSnapshot.Delete (Env.reliable false) "G0" fullWorld).2 = none ∧
    (omitSnapshot.Delete (Env.reliable false) "G0" fullWorld).1.db =
      deletedDB omitSnapshot.ID fullWorld.db ∧
    deletedDB omitSnapshot.ID fullWorld.db =
      { operation := [⟨"Y", "other", "G5", "groupa", 3, none⟩]
        portal := [("Y", portalA)]
        marker := [("Y", markerA)]
        anchor := [("Y", "A")]
        opkeys := [("Y", ⟨"A", "G5", 2, ""⟩)]
        agentteams := [("T1", "G3")] } ∧
    ((Env.failingOn (.deletePortals "X")).fails fullWorld
        (.deleteOperation omitSnapshot.ID) = false ∧
      ∀ w1, (Env.failingOn (.deletePortals "X")).fails w1
        (.deleteMarkers omitSnapshot.ID) = false) ∧
    (∀ r ∈ (omitSnapshot.Delete (Env.failingOn (.deletePortals "X")) "G0"
      fullWorld).1.db.marker, r.1 ≠ omitSnapshot.ID) :=
  ⟨⟨by decide, rfl, fun _ _ _ => rfl⟩,
   (Delete_removes_everything (Env.reliable false) omitSnapshot "G0" fullWorld
      (by decide) rfl).1,
   (Delete_removes_everything (Env.reliable false) omitSnapshot "G0" fullWorld
      (by decide) rfl).2.2.2.2.2.2.2.2.2.2.2 (Or.inr (fun _ _ _ => rfl)),
   by decide,
   ⟨by decide, fun _ => rfl⟩,
   (Delete_removes_everything (Env.failingOn (.deletePortals "X")) omitSnapshot "G0"
      fullWorld (by decide) (by decide)).2.2.2.2.2.1 (Or.inr (fun _ => rfl))⟩

end Wasabee
